import Mathlib

/-!
Verification of the Talon watchdog (infra/talon + infra/worker-supervisor).

The Rust sources are shallowly embedded: pure string manipulation is
reproduced over `List Char` / `String`, process and network effects are
abstracted into explicit oracle parameters, and in-place mutation is made
explicit by returning updated values.  Machine integers (`u16`/`u32`/`u64`)
are modelled as `Nat` with explicit bounds or `% 2 ^ w` where the Rust code
can wrap or overflow.
-/

namespace Talon

/-! ## Characters that are awkward to spell inline -/

def quoteChar : Char := Char.ofNat 34

def aposChar : Char := Char.ofNat 39

def backslashChar : Char := Char.ofNat 92

def lbraceChar : Char := Char.ofNat 123

def rbraceChar : Char := Char.ofNat 125

/-! ## String helpers mirroring Rust `str` semantics -/

/-- Rust `char::is_whitespace` restricted to the ASCII range
(U+0009..U+000D and U+0020). -/
def isWs (c : Char) : Bool := c.toNat == 32 || (9 ≤ c.toNat && c.toNat ≤ 13)

/-- Rust `char::is_control` (Unicode Cc): U+0000..U+001F and U+007F..U+009F. -/
def isRustControl (c : Char) : Bool := c.toNat < 32 || (127 ≤ c.toNat && c.toNat ≤ 159)

def trimLeftList (l : List Char) : List Char := l.dropWhile isWs

/-- Rust `str::trim` on a character list. -/
def trimList (l : List Char) : List Char :=
  ((l.dropWhile isWs).reverse.dropWhile isWs).reverse

/-- Rust `str::trim`. -/
def rsTrim (s : String) : String := ⟨trimList s.data⟩

/-- Rust `str::trim_matches(c)`: strip every leading and trailing `c`. -/
def trimMatchesChar (c : Char) (l : List Char) : List Char :=
  ((l.dropWhile (· = c)).reverse.dropWhile (· = c)).reverse

/-- Rust `str::starts_with(pre)`. -/
def rsStartsWith (s pre : String) : Bool := pre.data.isPrefixOf s.data

/-- Rust `str::strip_prefix(pre)`. -/
def dropPre (pre s : String) : Option String :=
  if pre.data.isPrefixOf s.data then some ⟨s.data.drop pre.data.length⟩ else none

/-- Substring test on character lists; `containsSub pat l` is Rust
`l.contains(pat)`. -/
def containsSub (pat : List Char) : List Char → Bool
  | [] => pat.isEmpty
  | c :: rest => pat.isPrefixOf (c :: rest) || containsSub pat rest

/-- Rust `str::contains(pat)`. -/
def rsContains (s pat : String) : Bool := containsSub pat.data s.data

/-- First index at which `pat` occurs, Rust `str::find(pat)`. -/
def findSub (pat : List Char) : List Char → Option Nat
  | [] => if pat.isEmpty then some 0 else none
  | c :: rest =>
    if pat.isPrefixOf (c :: rest) then some 0
    else (findSub pat rest).map (· + 1)

def splitOnChar (sep : Char) : List Char → List (List Char)
  | [] => [[]]
  | c :: rest =>
    if c = sep then [] :: splitOnChar sep rest
    else
      match splitOnChar sep rest with
      | [] => [[c]]
      | h :: t => (c :: h) :: t

/-- Rust `str::split_once(sep)` for a single-character separator. -/
def splitOnceChar (sep : Char) : List Char → Option (List Char × List Char)
  | [] => none
  | c :: rest =>
    if c = sep then some ([], rest)
    else (splitOnceChar sep rest).map (fun pr => (c :: pr.1, pr.2))

/-- Strip one trailing carriage return (the `\r` of a `\r\n` terminator). -/
def stripCr (l : List Char) : List Char :=
  match l.getLast? with
  | some c => if c = '\r' then l.dropLast else l
  | none => l

/-- Rust `str::lines`: split on `\n`, drop an empty final piece, and strip
the `\r` of `\r\n` terminators (a final line without `\n` keeps its `\r`). -/
def rustLines (s : String) : List String :=
  let parts := splitOnChar '\n' s.data
  let front : List String := parts.dropLast.map fun l => (⟨stripCr l⟩ : String)
  match parts.getLast? with
  | some [] => front
  | some l => front ++ [⟨l⟩]
  | none => front

def asciiLower (c : Char) : Char :=
  if 65 ≤ c.toNat ∧ c.toNat ≤ 90 then Char.ofNat (c.toNat + 32) else c

def lowerList (l : List Char) : List Char := l.map asciiLower

/-- Rust `str::eq_ignore_ascii_case`. -/
def eqIgnoreCase (a b : String) : Bool := lowerList a.data == lowerList b.data

/-! ## Decimal rendering and parsing -/

def digitChar10 (d : Nat) : Char := Char.ofNat (48 + d)

def digitsAux : Nat → Nat → List Char
  | 0, _ => []
  | fuel + 1, n =>
    if n = 0 then [] else digitsAux fuel (n / 10) ++ [digitChar10 (n % 10)]

/-- Decimal digits of `n`, mirroring Rust integer `Display`. -/
def natToDec (n : Nat) : List Char :=
  if n = 0 then [digitChar10 0] else digitsAux n n

def natToDecStr (n : Nat) : String := ⟨natToDec n⟩

def isDigitChar (c : Char) : Bool := 48 ≤ c.toNat && c.toNat ≤ 57

def decToNat (l : List Char) : Nat := l.foldl (fun a c => a * 10 + (c.toNat - 48)) 0

/-- Rust `str::parse::<uN>()` for an unsigned width of `bits` bits:
an optional leading plus sign, then at least one decimal digit, rejecting
overflow. -/
def parseUInt (bits : Nat) (s : String) : Option Nat :=
  let l := match s.data with
    | c :: rest => if c = '+' then rest else c :: rest
    | [] => []
  if _h : l ≠ [] ∧ l.all isDigitChar = true ∧ decToNat l < 2 ^ bits then
    some (decToNat l)
  else none

def parseU64 (s : String) : Option Nat := parseUInt 64 s

/-! ## Data model (config.rs, probes.rs, state.rs) -/

/-- `config.rs::HttpServiceProbe`. -/
structure HttpServiceProbe where
  name : String
  url : String
  timeoutSecs : Nat
  critical : Bool
deriving DecidableEq, Repr

/-- `config.rs::LaunchdServiceProbe`. -/
structure LaunchdServiceProbe where
  name : String
  label : String
  timeoutSecs : Nat
  critical : Bool
deriving DecidableEq, Repr

/-- `config.rs::EscalationConfig`. -/
structure EscalationConfig where
  agentCooldownSecs : Nat
  sosCooldownSecs : Nat
  sosRecipient : String
  sosTelegramChatId : String
  sosTelegramSecretName : String
  criticalThresholdSecs : Nat
deriving DecidableEq

/-- `config.rs::ProbesConfig`. -/
structure ProbesConfig where
  colimaTimeoutSecs : Nat
  k8sTimeoutSecs : Nat
  serviceTimeoutSecs : Nat
  consecutiveFailuresBeforeEscalate : Nat
deriving DecidableEq

/-- The fields of `config.rs::Config` consumed by the probe engine, the
dynamic probe registry and the escalation ladder (the worker subtree is
modelled separately by its own parameters). -/
structure Config where
  checkIntervalSecs : Nat
  healScript : String
  healTimeoutSecs : Nat
  servicesFile : String
  escalation : EscalationConfig
  probes : ProbesConfig
  httpServiceProbes : List HttpServiceProbe
  launchdServiceProbes : List LaunchdServiceProbe
deriving DecidableEq

/-- `config.rs::builtin_http_service_probes`. -/
def builtinHttpServiceProbes : List HttpServiceProbe :=
  [{ name := "inngest", url := "http://localhost:8288/health", timeoutSecs := 5,
     critical := false },
   { name := "typesense", url := "http://localhost:8108/health", timeoutSecs := 5,
     critical := false },
   { name := "worker", url := "http://localhost:3111/api/inngest", timeoutSecs := 5,
     critical := false }]

/-- `EscalationConfig::default`. -/
def defaultEscalation : EscalationConfig :=
  { agentCooldownSecs := 600, sosCooldownSecs := 1800,
    sosRecipient := "joelhooks@gmail.com", sosTelegramChatId := "7718912466",
    sosTelegramSecretName := "telegram_bot_token", criticalThresholdSecs := 900 }

/-- `ProbesConfig::default`. -/
def defaultProbesConfig : ProbesConfig :=
  { colimaTimeoutSecs := 5, k8sTimeoutSecs := 10, serviceTimeoutSecs := 5,
    consecutiveFailuresBeforeEscalate := 3 }

/-- `Config::default` (the fields modelled here). -/
def defaultConfig : Config :=
  { checkIntervalSecs := 60,
    healScript := "/Users/joel/Code/joelhooks/joelclaw/infra/k8s-reboot-heal.sh",
    healTimeoutSecs := 300,
    servicesFile := "~/.joelclaw/talon/services.toml",
    escalation := defaultEscalation,
    probes := defaultProbesConfig,
    httpServiceProbes := builtinHttpServiceProbes,
    launchdServiceProbes := [] }

/-- `probes.rs::ProbeResult`. -/
structure ProbeResult where
  name : String
  passed : Bool
  output : String
  durationMs : Nat
deriving DecidableEq, Repr

/-- `state.rs::PersistentState`. -/
structure PersistentState where
  currentState : String
  consecutiveFailures : Nat
  lastHealTime : Option Nat
  lastAgentTime : Option Nat
  lastSosTime : Option Nat
  lastProbeResults : List ProbeResult
  workerRestarts : Nat
deriving DecidableEq

/-- `PersistentState::default`. -/
def defaultPersistentState : PersistentState :=
  { currentState := "Healthy", consecutiveFailures := 0, lastHealTime := none,
    lastAgentTime := none, lastSosTime := none, lastProbeResults := [],
    workerRestarts := 0 }

/-! ## SOS tier (escalation.rs::run_sos)

Process and network effects (the `secrets`/`curl` Telegram path, the `imsg`
CLI and the `osascript` bridge) are abstracted into an environment record
of delivery outcomes; the model additionally reports which channels were
invoked so that "no delivery was attempted" is expressible. -/

inductive TierOutcome
  | fixed
  | failed
  | cooldown
deriving DecidableEq, Repr

inductive SosChannel
  | telegram
  | imsg
  | osascript
deriving DecidableEq, Repr

/-- Outcomes of the three delivery channels as observed by `run_sos`:
whether `send_telegram_sos` returned true, whether the `imsg` invocation
succeeded, and whether the `osascript` fallback would succeed. -/
structure SosEnv where
  telegramDelivered : Bool
  imsgDelivered : Bool
  osascriptDelivered : Bool

/-- The delivery phase of `escalation.rs::run_sos` (after both cooldown
gates): telegram and imsg are always attempted, osascript only when imsg
failed; on any success `last_sos_time` is stamped and the tier is Fixed. -/
def runSosDeliver (state : PersistentState) (now : Nat) (env : SosEnv) :
    TierOutcome × PersistentState × List SosChannel :=
  let attempts :=
    if env.imsgDelivered then [SosChannel.telegram, SosChannel.imsg]
    else [SosChannel.telegram, SosChannel.imsg, SosChannel.osascript]
  let delivered := env.telegramDelivered || env.imsgDelivered ||
    (!env.imsgDelivered && env.osascriptDelivered)
  if delivered then
    (TierOutcome.fixed, { state with lastSosTime := some now }, attempts)
  else
    (TierOutcome.failed, state, attempts)

/-- `escalation.rs::run_sos`.  `now - x` in Rust is `saturating_sub`, which
coincides with truncated `Nat` subtraction. -/
def runSos (config : Config) (state : PersistentState)
    (_failedProbes : List ProbeResult) (criticalSince now : Nat)
    (dryRun : Bool) (env : SosEnv) :
    TierOutcome × PersistentState × List SosChannel :=
  if dryRun then (TierOutcome.cooldown, state, [])
  else if now - criticalSince < config.escalation.criticalThresholdSecs then
    (TierOutcome.cooldown, state, [])
  else
    match state.lastSosTime with
    | some lastSosTime =>
      if now - lastSosTime < config.escalation.sosCooldownSecs then
        (TierOutcome.cooldown, state, [])
      else runSosDeliver state now env
    | none => runSosDeliver state now env

/-! ## Heal-tier selection (main.rs::should_use_service_heal) -/

/-- `main.rs::is_dynamic_service_probe`. -/
def isDynamicServiceProbe (name : String) (config : Config) : Bool :=
  match dropPre "launchd:" name with
  | some serviceName =>
    config.launchdServiceProbes.any (fun probe => probe.name == serviceName)
  | none =>
    match dropPre "http:" name with
    | some serviceName =>
      if serviceName == "inngest" || serviceName == "typesense" ||
          serviceName == "worker" then false
      else config.httpServiceProbes.any (fun probe => probe.name == serviceName)
    | none => false

/-- `main.rs::should_use_service_heal`. -/
def shouldUseServiceHeal (failures : List ProbeResult) (config : Config) : Bool :=
  !failures.isEmpty &&
    failures.all (fun probe => isDynamicServiceProbe probe.name config)

inductive HealPath
  | serviceHeal
  | genericHeal
deriving DecidableEq, Repr

/-- The branch taken by `main.rs::run_watchdog_loop` lines 210-216 when the
tick is in the Failed state and runs the heal tier. -/
def healTierPath (failures : List ProbeResult) (config : Config) : HealPath :=
  if shouldUseServiceHeal failures config then HealPath.serviceHeal
  else HealPath.genericHeal

/-- The property the spec states in words: every failing probe is a
`launchd:<svc>` whose name exists among the dynamic launchd probes, or an
`http:<svc>` whose name exists among the dynamic HTTP probes and is not one
of the three built-ins. -/
def dynamicServiceProbeSpec (name : String) (config : Config) : Prop :=
  (∃ svc, name = "launchd:" ++ svc ∧
    ∃ probe ∈ config.launchdServiceProbes, probe.name = svc) ∨
  (∃ svc, name = "http:" ++ svc ∧
    svc ∉ (["inngest", "typesense", "worker"] : List String) ∧
    ∃ probe ∈ config.httpServiceProbes, probe.name = svc)

/-! ## Critical classification (config.rs::is_critical_probe) -/

def hardCodedCriticalNames : List String :=
  ["colima", "docker", "talos_container", "k8s_api", "node_ready",
   "node_schedulable", "redis", "kubelet_proxy_rbac"]

/-- `config.rs::Config::is_critical_probe`. -/
def isCriticalProbe (config : Config) (name : String) : Bool :=
  if name ∈ hardCodedCriticalNames then true
  else
    match dropPre "http:" name with
    | some serviceName =>
      ((config.httpServiceProbes.find? (fun probe => probe.name == serviceName)).map
        (fun probe => probe.critical)).getD false
    | none =>
      match dropPre "launchd:" name with
      | some serviceName =>
        ((config.launchdServiceProbes.find? (fun probe => probe.name == serviceName)).map
          (fun probe => probe.critical)).getD false
      | none => false

/-- The claim's reading of "a dynamic probe whose `critical` flag is true":
membership of some entry with the name and a set flag. -/
def isCriticalProbeSpecAny (config : Config) (name : String) : Prop :=
  name ∈ hardCodedCriticalNames ∨
  (∃ svc, name = "http:" ++ svc ∧
    ∃ probe ∈ config.httpServiceProbes, probe.name = svc ∧ probe.critical = true) ∨
  (∃ svc, name = "launchd:" ++ svc ∧
    ∃ probe ∈ config.launchdServiceProbes, probe.name = svc ∧ probe.critical = true)

/-- The classification actually computed: the hard-coded set, or the
critical flag of the first dynamic entry bearing the service name. -/
def isCriticalProbeSpecFirst (config : Config) (name : String) : Prop :=
  name ∈ hardCodedCriticalNames ∨
  (∃ svc probe, name = "http:" ++ svc ∧
    config.httpServiceProbes.find? (fun q => q.name == svc) = some probe ∧
    probe.critical = true) ∨
  (∃ svc probe, name = "launchd:" ++ svc ∧
    config.launchdServiceProbes.find? (fun q => q.name == svc) = some probe ∧
    probe.critical = true)

/-! ## Probe engine (probes.rs) -/

/-- `probes.rs::Probe` (timeout kept in seconds). -/
structure Probe where
  name : String
  args : List String
  timeoutSecs : Nat
  critical : Bool
  env : List (String × String)
deriving DecidableEq, Repr

def colimaDockerHost : String := "unix:///Users/joel/.colima/default/docker.sock"

/-- The static catalog built at the top of `probes.rs::run_all_probes`. -/
def staticProbes (config : Config) : List Probe :=
  [{ name := "colima", args := ["colima", "status"],
     timeoutSecs := config.probes.colimaTimeoutSecs, critical := true, env := [] },
   { name := "docker",
     args := ["docker", "ps", "--format", "\x7b\x7b.Names\x7d\x7d"],
     timeoutSecs := config.probes.k8sTimeoutSecs, critical := true,
     env := [("DOCKER_HOST", colimaDockerHost)] },
   { name := "talos_container",
     args := ["docker", "inspect", "--format", "\x7b\x7b.State.Status\x7d\x7d",
              "joelclaw-controlplane-1"],
     timeoutSecs := config.probes.k8sTimeoutSecs, critical := true,
     env := [("DOCKER_HOST", colimaDockerHost)] },
   { name := "k8s_api", args := ["kubectl", "get", "nodes", "--no-headers"],
     timeoutSecs := config.probes.k8sTimeoutSecs, critical := true, env := [] },
   { name := "node_ready",
     args := ["kubectl", "get", "nodes", "-o",
       "jsonpath=\x7b.items[0].status.conditions[?(@.type==\"Ready\")].status\x7d"],
     timeoutSecs := config.probes.k8sTimeoutSecs, critical := true, env := [] },
   { name := "node_schedulable",
     args := ["kubectl", "get", "nodes", "-o", "jsonpath=\x7b.items[0].spec\x7d"],
     timeoutSecs := config.probes.k8sTimeoutSecs, critical := true, env := [] },
   { name := "flannel",
     args := ["kubectl", "-n", "kube-system", "get", "daemonset", "kube-flannel",
       "-o",
       "jsonpath=\x7b.status.numberAvailable\x7d/\x7b.status.desiredNumberScheduled\x7d"],
     timeoutSecs := config.probes.k8sTimeoutSecs, critical := false, env := [] },
   { name := "redis",
     args := ["kubectl", "exec", "-n", "joelclaw", "redis-0", "--", "redis-cli",
              "ping"],
     timeoutSecs := config.probes.serviceTimeoutSecs, critical := true, env := [] }]

/-- The complete per-tick probe list of `probes.rs::run_all_probes`: static
catalog, then dynamic launchd probes, then dynamic HTTP probes. -/
def buildProbes (config : Config) : List Probe :=
  staticProbes config
    ++ config.launchdServiceProbes.map (fun monitor =>
        { name := "launchd:" ++ monitor.name,
          args := ["launchctl", "list", monitor.label],
          timeoutSecs := monitor.timeoutSecs, critical := monitor.critical,
          env := [] })
    ++ config.httpServiceProbes.map (fun monitor =>
        { name := "http:" ++ monitor.name,
          args := ["curl", "-s", "-o", "/dev/null", "-w", "%\x7bhttp_code\x7d",
                   monitor.url],
          timeoutSecs := monitor.timeoutSecs, critical := monitor.critical,
          env := [] })

/-- `probes.rs::launchd_list_running`. -/
def launchdListRunning (output : String) : Bool :=
  match (rustLines output).find? (fun line => rsContains line "\"PID\" =") with
  | none => false
  | some line => !rsContains line "\"PID\" = 0"

/-- `probes.rs::is_node_schedulable`. -/
def isNodeSchedulable (specOutput : String) : Bool :=
  let lowered : String := ⟨lowerList specOutput.data⟩
  if rsContains lowered "\"unschedulable\":true" ||
      rsContains lowered "\"unschedulable\": true" then false
  else if rsContains specOutput "NoSchedule" then false
  else true

/-- `probes.rs::is_flannel_ready`. -/
def isFlannelReady (statusOutput : String) : Bool :=
  match splitOnceChar '/' (rsTrim statusOutput).data with
  | none => false
  | some (availableRaw, desiredRaw) =>
    match parseUInt 32 ⟨trimList availableRaw⟩, parseUInt 32 ⟨trimList desiredRaw⟩ with
    | some available, some desired => decide (desired > 0 ∧ available = desired)
    | _, _ => false

/-- `probes.rs::validate_probe_output`. -/
def validateProbeOutput (name : String) (rawOutput : String) : Bool :=
  let output : String := ⟨trimList (trimMatchesChar aposChar (trimList rawOutput.data))⟩
  if name == "talos_container" then eqIgnoreCase output "running"
  else if name == "node_ready" then output == "True"
  else if name == "node_schedulable" then isNodeSchedulable output
  else if name == "flannel" then isFlannelReady output
  else if name == "redis" then rsContains output "PONG"
  else if rsStartsWith name "http:" then rsContains output "200"
  else if rsStartsWith name "launchd:" then launchdListRunning output
  else true

/-- What happens when `probes.rs::run_probe` does spawn a child: spawn
failure, wait failure, a regular exit, or the timeout kill.  The collected
output strings are the post-`collect_child_output` values. -/
inductive SpawnBehavior
  | spawnError (message : String) (elapsedMs : Nat)
  | waitError (message : String) (elapsedMs : Nat)
  | exits (success : Bool) (collectedOutput : String) (elapsedMs : Nat)
  | timesOut (collectedOutput : String) (elapsedMs : Nat)
deriving Repr

/-- `probes.rs::run_probe`; the second component records whether a child
process was spawned. -/
def runProbe (name : String) (args : List String) (timeoutSecs : Nat)
    (_env : List (String × String)) (emptyElapsedMs : Nat)
    (behavior : SpawnBehavior) : ProbeResult × Bool :=
  if args.isEmpty then
    ({ name := name, passed := false, output := "no command configured",
       durationMs := emptyElapsedMs }, false)
  else
    match behavior with
    | SpawnBehavior.spawnError message elapsedMs =>
      ({ name := name, passed := false, output := "spawn failed: " ++ message,
         durationMs := elapsedMs }, true)
    | SpawnBehavior.waitError message elapsedMs =>
      ({ name := name, passed := false, output := "wait failed: " ++ message,
         durationMs := elapsedMs }, true)
    | SpawnBehavior.exits success collectedOutput elapsedMs =>
      ({ name := name, passed := success, output := collectedOutput,
         durationMs := elapsedMs }, true)
    | SpawnBehavior.timesOut _collectedOutput elapsedMs =>
      ({ name := name, passed := false,
         output := "timeout after " ++ natToDecStr timeoutSecs ++ "s",
         durationMs := elapsedMs }, true)

/-- The refinement applied by `probes.rs::run_all_probes` to each raw
`run_probe` result: conjoin the validator, and suffix ` [critical]` to the
trimmed output when a critical probe failed. -/
def refineResult (probe : Probe) (result : ProbeResult) : ProbeResult :=
  let passed := result.passed && validateProbeOutput probe.name result.output
  { result with
    passed := passed,
    output :=
      if probe.critical && !passed then rsTrim result.output ++ " [critical]"
      else result.output }

/-- The raw `run_probe` result for the `i`-th probe of the tick. -/
def probeRawAt (behaviors : Nat → SpawnBehavior) (i : Nat) (probe : Probe) :
    ProbeResult :=
  (runProbe probe.name probe.args probe.timeoutSecs probe.env 0 (behaviors i)).1

def runAllProbesAux (behaviors : Nat → SpawnBehavior) :
    Nat → List Probe → List ProbeResult
  | _, [] => []
  | i, probe :: rest =>
    refineResult probe (probeRawAt behaviors i probe)
      :: runAllProbesAux behaviors (i + 1) rest

/-- `probes.rs::run_all_probes`, with the child-process effects of each
probe supplied by `behaviors` (indexed by position in the tick's list). -/
def runAllProbes (config : Config) (behaviors : Nat → SpawnBehavior) :
    List ProbeResult :=
  runAllProbesAux behaviors 0 (buildProbes config)

/-! ## Status endpoint (health.rs) -/

/-- `health.rs::HealthSnapshot`. -/
structure HealthSnapshot where
  ok : Bool
  state : String
  consecutiveFailures : Nat
  probeCount : Nat
  failedProbeCount : Nat
  failedProbes : List String
  workerRestarts : Nat
  updatedAtUnix : Nat
deriving DecidableEq, Repr

/-- The shared `json_escape` helper (identical in health.rs, state.rs and
config.rs): escape backslash, quote, newline, carriage return and tab;
replace any other control character with a space. -/
def jsonEscapeChar (c : Char) : List Char :=
  if c = backslashChar then [backslashChar, backslashChar]
  else if c = quoteChar then [backslashChar, quoteChar]
  else if c = '\n' then [backslashChar, 'n']
  else if c = '\r' then [backslashChar, 'r']
  else if c = '\t' then [backslashChar, 't']
  else if isRustControl c then [' ']
  else [c]

def escList : List Char → List Char
  | [] => []
  | c :: rest => jsonEscapeChar c ++ escList rest

def jsonEscape (s : String) : String := ⟨escList s.data⟩

def joinSep (sep : String) : List String → String
  | [] => ""
  | [x] => x
  | x :: xs => x ++ sep ++ joinSep sep xs

def boolJson (b : Bool) : String := if b then "true" else "false"

/-- `health.rs::health_json` applied to a snapshot. -/
def healthJson (snapshot : HealthSnapshot) : String :=
  let failed := joinSep ","
    (snapshot.failedProbes.map (fun name => "\"" ++ jsonEscape name ++ "\""))
  "\x7b\"ok\":" ++ boolJson snapshot.ok
    ++ ",\"state\":\"" ++ jsonEscape snapshot.state
    ++ "\",\"consecutive_failures\":" ++ natToDecStr snapshot.consecutiveFailures
    ++ ",\"probe_count\":" ++ natToDecStr snapshot.probeCount
    ++ ",\"failed_probe_count\":" ++ natToDecStr snapshot.failedProbeCount
    ++ ",\"failed_probes\":[" ++ failed
    ++ "],\"worker_restarts\":" ++ natToDecStr snapshot.workerRestarts
    ++ ",\"updated_at_unix\":" ++ natToDecStr snapshot.updatedAtUnix
    ++ "\x7d"

structure HttpResponse where
  status : Nat
  body : String
deriving DecidableEq, Repr

def notFoundBody : String := "\x7b\"ok\":false,\"error\":\"not_found\"\x7d"

def rootHintBody : String := "\x7b\"ok\":true,\"path\":\"/health\"\x7d"

/-- `health.rs::handle_connection`: dispatch on the first request line.
The currently published snapshot is passed explicitly. -/
def handleConnection (request : String) (snapshot : HealthSnapshot) :
    HttpResponse :=
  let requestLine := ((rustLines request).headD "")
  if rsStartsWith requestLine "GET /health" then
    { status := 200, body := healthJson snapshot }
  else if rsStartsWith requestLine "GET /" then
    { status := 200, body := rootHintBody }
  else
    { status := 404, body := notFoundBody }

/-! ## Dynamic probe registry (config.rs services TOML) -/

/-- `config.rs::strip_comment`'s scanning state machine. -/
def stripCommentAux : Bool → Char → List Char → List Char
  | _, _, [] => []
  | inQuote, qc, c :: rest =>
    if inQuote then
      c :: stripCommentAux (if c = qc then false else true) qc rest
    else if c = aposChar ∨ c = quoteChar then
      c :: stripCommentAux true c rest
    else if c = '#' then []
    else c :: stripCommentAux false qc rest

/-- `config.rs::strip_comment`. -/
def stripComment (line : String) : String :=
  ⟨stripCommentAux false (Char.ofNat 0) line.data⟩

/-- `config.rs::unescape_string` (an unknown escape keeps the backslash). -/
def tomlUnescape : List Char → List Char
  | [] => []
  | c :: rest =>
    if c = backslashChar then
      match rest with
      | [] => [backslashChar]
      | e :: rest2 =>
        if e = 'n' then '\n' :: tomlUnescape rest2
        else if e = 't' then '\t' :: tomlUnescape rest2
        else if e = 'r' then '\r' :: tomlUnescape rest2
        else if e = quoteChar then quoteChar :: tomlUnescape rest2
        else if e = backslashChar then backslashChar :: tomlUnescape rest2
        else backslashChar :: e :: tomlUnescape rest2
    else c :: tomlUnescape rest

/-- `config.rs::parse_toml_string`. -/
def parseTomlString (value : String) : Except String String :=
  let v := (rsTrim value).data
  if 2 ≤ v.length ∧
      ((v.head? = some quoteChar ∧ v.getLast? = some quoteChar) ∨
        (v.head? = some aposChar ∧ v.getLast? = some aposChar)) then
    Except.ok ⟨tomlUnescape (v.drop 1).dropLast⟩
  else if v.isEmpty then Except.error "empty TOML string"
  else Except.ok ⟨v⟩

/-- `config.rs::parse_toml_int` (parses a `u64`). -/
def parseTomlInt (value : String) (line : Nat) : Except String Nat :=
  match parseU64 (rsTrim value) with
  | some n => Except.ok n
  | none =>
    Except.error ("invalid integer at line " ++ natToDecStr line ++ ": " ++ value)

/-- `config.rs::parse_toml_bool`. -/
def parseTomlBool (value : String) (line : Nat) : Except String Bool :=
  if rsTrim value = "true" then Except.ok true
  else if rsTrim value = "false" then Except.ok false
  else Except.error ("invalid boolean at line " ++ natToDecStr line ++ ": " ++ value)

/-- Insert-or-update in a list kept sorted by `name`, modelling a
`BTreeMap<String, _>` entry operation followed by in-order iteration. -/
def upsertHttp (sectionName : String) (defaultTimeout : Nat)
    (update : HttpServiceProbe → Except String HttpServiceProbe) :
    List HttpServiceProbe → Except String (List HttpServiceProbe)
  | [] =>
    (update { name := sectionName, url := "", timeoutSecs := defaultTimeout,
              critical := false }).map (fun p => [p])
  | q :: qs =>
    if q.name = sectionName then (update q).map (fun p => p :: qs)
    else if sectionName < q.name then
      (update { name := sectionName, url := "", timeoutSecs := defaultTimeout,
                critical := false }).map (fun p => p :: q :: qs)
    else (upsertHttp sectionName defaultTimeout update qs).map (fun l => q :: l)

def upsertLaunchd (sectionName : String) (defaultTimeout : Nat)
    (update : LaunchdServiceProbe → Except String LaunchdServiceProbe) :
    List LaunchdServiceProbe → Except String (List LaunchdServiceProbe)
  | [] =>
    (update { name := sectionName, label := "", timeoutSecs := defaultTimeout,
              critical := false }).map (fun p => [p])
  | q :: qs =>
    if q.name = sectionName then (update q).map (fun p => p :: qs)
    else if sectionName < q.name then
      (update { name := sectionName, label := "", timeoutSecs := defaultTimeout,
                critical := false }).map (fun p => p :: q :: qs)
    else (upsertLaunchd sectionName defaultTimeout update qs).map (fun l => q :: l)

structure ServicesAcc where
  curSection : String
  https : List HttpServiceProbe
  launchds : List LaunchdServiceProbe

def httpFieldUpdate (key value : String) (lineNumber : Nat)
    (probe : HttpServiceProbe) : Except String HttpServiceProbe :=
  if key = "url" then (parseTomlString value).map (fun v => { probe with url := v })
  else if key = "timeout_secs" then
    (parseTomlInt value lineNumber).map (fun v => { probe with timeoutSecs := v })
  else if key = "critical" then
    (parseTomlBool value lineNumber).map (fun v => { probe with critical := v })
  else Except.ok probe

def launchdFieldUpdate (key value : String) (lineNumber : Nat)
    (probe : LaunchdServiceProbe) : Except String LaunchdServiceProbe :=
  if key = "label" then (parseTomlString value).map (fun v => { probe with label := v })
  else if key = "timeout_secs" then
    (parseTomlInt value lineNumber).map (fun v => { probe with timeoutSecs := v })
  else if key = "critical" then
    (parseTomlBool value lineNumber).map (fun v => { probe with critical := v })
  else Except.ok probe

/-- One line of `config.rs::parse_services_toml`; `lineNumber` is the
1-based number reported in error messages. -/
def servicesLineStep (defaultTimeout : Nat) (acc : ServicesAcc)
    (lineNumber : Nat) (originalLine : String) : Except String ServicesAcc :=
  let line := (rsTrim (stripComment originalLine)).data
  if line.isEmpty then Except.ok acc
  else if line.head? = some '[' ∧ line.getLast? = some ']' then
    Except.ok { acc with curSection := ⟨trimList (line.drop 1).dropLast⟩ }
  else
    match splitOnceChar '=' line with
    | none => Except.ok acc
    | some (rawKey, rawValue) =>
      let key : String := ⟨trimList rawKey⟩
      let value : String := ⟨trimList rawValue⟩
      match dropPre "http." acc.curSection with
      | some name =>
        let sectionName := rsTrim name
        if sectionName.data.isEmpty then Except.ok acc
        else
          (upsertHttp sectionName defaultTimeout
              (httpFieldUpdate key value lineNumber) acc.https).map
            (fun https => { acc with https := https })
      | none =>
        match dropPre "launchd." acc.curSection with
        | some name =>
          let sectionName := rsTrim name
          if sectionName.data.isEmpty then Except.ok acc
          else
            (upsertLaunchd sectionName defaultTimeout
                (launchdFieldUpdate key value lineNumber) acc.launchds).map
              (fun launchds => { acc with launchds := launchds })
        | none => Except.ok acc

def servicesFold (defaultTimeout : Nat) :
    Nat → ServicesAcc → List String → Except String ServicesAcc
  | _, acc, [] => Except.ok acc
  | n, acc, line :: rest => do
    let next ← servicesLineStep defaultTimeout acc (n + 1) line
    servicesFold defaultTimeout (n + 1) next rest

/-- The final validation loop over HTTP sections: a missing or blank `url`
is rejected. -/
def checkHttpUrls : List HttpServiceProbe → Except String (List HttpServiceProbe)
  | [] => Except.ok []
  | p :: ps =>
    if (rsTrim p.url).data.isEmpty then
      Except.error ("http." ++ p.name ++ " is missing required key: url")
    else (checkHttpUrls ps).map (fun l => p :: l)

/-- The final validation loop over launchd sections: a missing or blank
`label` is rejected. -/
def checkLaunchdLabels :
    List LaunchdServiceProbe → Except String (List LaunchdServiceProbe)
  | [] => Except.ok []
  | p :: ps =>
    if (rsTrim p.label).data.isEmpty then
      Except.error ("launchd." ++ p.name ++ " is missing required key: label")
    else (checkLaunchdLabels ps).map (fun l => p :: l)

/-- `config.rs::parse_services_toml`. -/
def parseServicesToml (raw : String) (defaultTimeoutSecs : Nat) :
    Except String (List HttpServiceProbe × List LaunchdServiceProbe) := do
  let acc ← servicesFold defaultTimeoutSecs 0
    { curSection := "", https := [], launchds := [] } (rustLines raw)
  let https ← checkHttpUrls acc.https
  let launchds ← checkLaunchdLabels acc.launchds
  Except.ok (https, launchds)

/-- `config.rs::reload_service_probes` composed with
`load_service_probes`, over the current services-file content: the dynamic
sets are reset to the seeds, then the parsed user entries are appended; a
parse error leaves the reset (seed-only) sets in place and surfaces the
message. -/
def reloadServiceProbes (config : Config) (servicesRaw : String) :
    Config × Option String :=
  let config := { config with httpServiceProbes := builtinHttpServiceProbes,
                              launchdServiceProbes := [] }
  match parseServicesToml servicesRaw config.probes.serviceTimeoutSecs with
  | Except.ok (https, launchds) =>
    ({ config with
        httpServiceProbes := config.httpServiceProbes ++ https,
        launchdServiceProbes := config.launchdServiceProbes ++ launchds }, none)
  | Except.error e => (config, some e)

/-- `config.rs::ServiceProbeTracker` (modification times as abstract
`Option Nat`). -/
structure ServiceProbeTracker where
  servicesPath : String
  lastModified : Option Nat
deriving DecidableEq, Repr

inductive RefreshOutcome
  | reloaded
  | unchanged
  | errored (message : String)
deriving DecidableEq, Repr

/-- `config.rs::Config::refresh_service_probes`.  `servicesRaw` is the
current file content and `currentModified` its current mtime. -/
def refreshServiceProbes (config : Config) (tracker : ServiceProbeTracker)
    (servicesRaw : String) (currentModified : Option Nat) (force : Bool) :
    Config × ServiceProbeTracker × RefreshOutcome :=
  let tracker :=
    if tracker.servicesPath ≠ config.servicesFile then
      { servicesPath := config.servicesFile, lastModified := none }
    else tracker
  let changed := force || decide (currentModified ≠ tracker.lastModified)
  if changed then
    match reloadServiceProbes config servicesRaw with
    | (reloadedConfig, none) =>
      (reloadedConfig, { tracker with lastModified := currentModified },
       RefreshOutcome.reloaded)
    | (resetConfig, some e) =>
      (resetConfig, tracker, RefreshOutcome.errored e)
  else (config, tracker, RefreshOutcome.unchanged)

/-! ## Worker supervisor (worker.rs) -/

/-- The monitor sub-loop events that touch the outer backoff: a 2xx health
poll resets it to 1; failed polls and the sync request leave it alone. -/
inductive MonitorEvent
  | healthOk
  | healthFail
  | syncAttempt
deriving DecidableEq, Repr

/-- The outer `backoff_secs` as left by `worker.rs::monitor_child` after a
sequence of monitor events. -/
def monitorBackoff (backoff : Nat) (events : List MonitorEvent) : Nat :=
  events.foldl
    (fun acc e => match e with
      | MonitorEvent.healthOk => 1
      | _ => acc)
    backoff

structure SupState where
  backoffSecs : Nat
  workerRestarts : Nat
deriving DecidableEq, Repr

/-- One iteration of the outer loop of `worker.rs::run_worker_supervisor`
that ends in a restart: run the monitor (whose 2xx polls reset the
backoff), increment the restart counter, sleep for the current backoff and
double it up to the cap.  The second component is the slept duration.
`saturating_mul(2)` cannot overflow in the `Nat` model; for every `u64`
input the capped value agrees with the Rust computation. -/
def supervisorSession (maxBackoffSecs : Nat) (st : SupState)
    (events : List MonitorEvent) : SupState × Nat :=
  let backoffAtExit := monitorBackoff st.backoffSecs events
  ({ backoffSecs := min (backoffAtExit * 2) maxBackoffSecs,
     workerRestarts := st.workerRestarts + 1 }, backoffAtExit)

/-- `worker.rs::run_worker_supervisor` over a finite run: each element of
`sessions` is the monitor-event trace of one child lifetime that ended in
an exit (the final shutdown is the end of the list). -/
def runWorkerSupervisor (maxBackoffSecs : Nat) (st : SupState) :
    List (List MonitorEvent) → SupState
  | [] => st
  | session :: rest =>
    runWorkerSupervisor maxBackoffSecs
      (supervisorSession maxBackoffSecs st session).1 rest

/-- The supervisor starts with `backoff_secs = 1` and the process-wide
restart counter at 0. -/
def initialSupState : SupState := { backoffSecs := 1, workerRestarts := 0 }

/-! ## Persistent state serialization and parsing (state.rs)

The parser scans the raw text exactly as state.rs does: every field is
located by searching for its quoted key anywhere in the document, then the
value is read after the next colon.  The Rust code indexes `as_bytes()`
and reinterprets each byte as a `char`, which agrees with the character
level model on ASCII input. -/

def probeResultToJsonInner (result : ProbeResult) : String :=
  "\x7b\"name\":\"" ++ jsonEscape result.name
    ++ "\",\"passed\":" ++ boolJson result.passed
    ++ ",\"output\":\"" ++ jsonEscape result.output
    ++ "\",\"duration_ms\":" ++ natToDecStr result.durationMs
    ++ "\x7d"

/-- `state.rs::probe_results_to_json`. -/
def probeResultsToJson (results : List ProbeResult) : String :=
  "[" ++ joinSep "," (results.map probeResultToJsonInner) ++ "]"

def optionalU64ToJson : Option Nat → String
  | some v => natToDecStr v
  | none => "null"

/-- `state.rs::state_to_json`. -/
def stateToJson (state : PersistentState) : String :=
  "\x7b\n  \"current_state\": \"" ++ jsonEscape state.currentState
    ++ "\",\n  \"consecutive_failures\": " ++ natToDecStr state.consecutiveFailures
    ++ ",\n  \"last_heal_time\": " ++ optionalU64ToJson state.lastHealTime
    ++ ",\n  \"last_agent_time\": " ++ optionalU64ToJson state.lastAgentTime
    ++ ",\n  \"last_sos_time\": " ++ optionalU64ToJson state.lastSosTime
    ++ ",\n  \"last_probe_results\": " ++ probeResultsToJson state.lastProbeResults
    ++ ",\n  \"worker_restarts\": " ++ natToDecStr state.workerRestarts
    ++ "\n\x7d\n"

/-- `state.rs::key_position`: index just past the colon that follows the
first occurrence of the quoted key. -/
def keyPosition (raw key : List Char) : Option Nat :=
  match findSub (quoteChar :: key ++ [quoteChar]) raw with
  | none => none
  | some keyIndex =>
    let afterKey := keyIndex + (key.length + 2)
    match findSub [':'] (raw.drop afterKey) with
    | none => none
    | some colonOffset => some (afterKey + colonOffset + 1)

def skipWsAux : List Char → Nat → Option Nat
  | [], _ => none
  | c :: rest, i => if isWs c then skipWsAux rest (i + 1) else some i

/-- `state.rs::skip_whitespace`. -/
def skipWhitespaceFrom (raw : List Char) (start : Nat) : Option Nat :=
  skipWsAux (raw.drop start) start

/-- The escape decoding of `state.rs::parse_json_string` (`n`, `r`, `t`
map to their control characters; any other escaped character is kept,
dropping the backslash). -/
def jsonUnescapeChar (e : Char) : Char :=
  if e = 'n' then '\n'
  else if e = 'r' then '\r'
  else if e = 't' then '\t'
  else e

/-- The string-scanning loop of `state.rs::parse_json_string`, entered just
past the opening quote; returns the unescaped content.  A backslash as the
final character breaks out of the loop, which returns None. -/
def scanJsonString : List Char → Option (List Char)
  | [] => none
  | [c] =>
    if c = backslashChar then none
    else if c = quoteChar then some []
    else none
  | c :: e :: rest =>
    if c = backslashChar then
      (scanJsonString rest).map (fun l => jsonUnescapeChar e :: l)
    else if c = quoteChar then some []
    else (scanJsonString (e :: rest)).map (fun l => c :: l)

/-- `state.rs::parse_json_string`. -/
def parseJsonString (raw key : List Char) : Option (List Char) := do
  let start ← keyPosition raw key
  let index ← skipWhitespaceFrom raw start
  match raw.drop index with
  | c :: rest => if c = quoteChar then scanJsonString rest else none
  | [] => none

def tokenScan : List Char → List Char
  | [] => []
  | c :: rest =>
    if c = ',' ∨ c = rbraceChar ∨ c = '\n' then []
    else c :: tokenScan rest

/-- `state.rs::parse_json_token`. -/
def parseJsonToken (raw key : List Char) : Option (List Char) := do
  let start ← keyPosition raw key
  let index ← skipWhitespaceFrom raw start
  let token := trimList (tokenScan (raw.drop index))
  if token.isEmpty then none else some token

/-- `state.rs::parse_json_u64`. -/
def parseJsonU64 (raw key : List Char) : Option Nat := do
  let token ← parseJsonToken raw key
  parseU64 ⟨token⟩

/-- `state.rs::parse_json_optional_u64`. -/
def parseJsonOptU64 (raw key : List Char) : Option (Option Nat) := do
  let token ← parseJsonToken raw key
  if token = "null".data then some none
  else (parseU64 ⟨token⟩).map some

/-- The bracket-matching loop of `state.rs::parse_json_array`, run from the
opening `[` with depth 0; returns the index (relative to the start) of the
matching `]`. -/
def arrayScanAux : Int → Bool → Bool → List Char → Nat → Option Nat
  | _, _, _, [], _ => none
  | depth, inString, escaped, c :: rest, i =>
    if inString then
      if escaped then arrayScanAux depth true false rest (i + 1)
      else if c = backslashChar then arrayScanAux depth true true rest (i + 1)
      else if c = quoteChar then arrayScanAux depth false false rest (i + 1)
      else arrayScanAux depth true false rest (i + 1)
    else if c = quoteChar then arrayScanAux depth true false rest (i + 1)
    else if c = '[' then arrayScanAux (depth + 1) false false rest (i + 1)
    else if c = ']' then
      if depth - 1 = 0 then some i
      else arrayScanAux (depth - 1) false false rest (i + 1)
    else arrayScanAux depth false false rest (i + 1)

/-- `state.rs::parse_json_array`: the raw slice of the array value. -/
def parseJsonArray (raw key : List Char) : Option (List Char) := do
  let start ← keyPosition raw key
  let index ← skipWhitespaceFrom raw start
  let rest := raw.drop index
  if rest.head? = some '[' then
    (arrayScanAux 0 false false rest 0).map (fun endRel => rest.take (endRel + 1))
  else none

def extractPush (depth : Int) (acc : List Char) (c : Char) : List Char :=
  if 0 < depth then acc ++ [c] else acc

/-- `state.rs::extract_top_level_objects`: brace matching with in-string
tracking; emits each top-level `{...}` slice. -/
def extractObjectsAux : Int → Bool → Bool → List Char → List Char → List (List Char)
  | _, _, _, _, [] => []
  | depth, inString, escaped, acc, c :: rest =>
    if inString then
      if escaped then extractObjectsAux depth true false (extractPush depth acc c) rest
      else if c = backslashChar then
        extractObjectsAux depth true true (extractPush depth acc c) rest
      else if c = quoteChar then
        extractObjectsAux depth false false (extractPush depth acc c) rest
      else extractObjectsAux depth true false (extractPush depth acc c) rest
    else if c = quoteChar then
      extractObjectsAux depth true false (extractPush depth acc c) rest
    else if c = lbraceChar then
      extractObjectsAux (depth + 1) false false (acc ++ [c]) rest
    else if c = rbraceChar then
      if 0 < depth then
        if depth = 1 then
          (acc ++ [c]) :: extractObjectsAux 0 false false [] rest
        else extractObjectsAux (depth - 1) false false (acc ++ [c]) rest
      else extractObjectsAux depth false false acc rest
    else extractObjectsAux depth false false (extractPush depth acc c) rest

def extractTopLevelObjects (raw : List Char) : List (List Char) :=
  extractObjectsAux 0 false false [] raw

/-- `state.rs::parse_probe_result_object`. -/
def parseProbeResultObject (raw : List Char) : Option ProbeResult := do
  let name ← parseJsonString raw "name".data
  let output := ((parseJsonString raw "output".data).map
    (fun l => (⟨l⟩ : String))).getD ""
  let durationMs := ((parseJsonU64 raw "duration_ms".data) |>.getD 0)
  let passed := ((parseJsonToken raw "passed".data).map
    (fun t => trimList t == "true".data)).getD false
  some { name := ⟨name⟩, passed := passed, output := output,
         durationMs := durationMs }

/-- `state.rs::parse_probe_results_json`. -/
def parseProbeResultsJson (raw : List Char) : List ProbeResult :=
  (extractTopLevelObjects raw).filterMap parseProbeResultObject

/-- The field-by-field parsing of `state.rs::load_state` applied to raw
text (the `last-probe.json` file fallback for an empty result list is
file I/O outside the parser and is not modelled).  The `as u32` casts are
the wrapping `% 2 ^ 32`. -/
def loadStateFromString (raw : String) : PersistentState :=
  let r := raw.data
  let state := defaultPersistentState
  let state :=
    match parseJsonString r "current_state".data with
    | some v => { state with currentState := ⟨v⟩ }
    | none => state
  let state :=
    match parseJsonU64 r "consecutive_failures".data with
    | some v => { state with consecutiveFailures := v % 2 ^ 32 }
    | none => state
  let state :=
    match parseJsonOptU64 r "last_heal_time".data with
    | some v => { state with lastHealTime := v }
    | none => state
  let state :=
    match parseJsonOptU64 r "last_agent_time".data with
    | some v => { state with lastAgentTime := v }
    | none => state
  let state :=
    match parseJsonOptU64 r "last_sos_time".data with
    | some v => { state with lastSosTime := v }
    | none => state
  let state :=
    match parseJsonU64 r "worker_restarts".data with
    | some v => { state with workerRestarts := v % 2 ^ 32 }
    | none => state
  let state :=
    match parseJsonArray r "last_probe_results".data with
    | some arr => { state with lastProbeResults := parseProbeResultsJson arr }
    | none => state
  state

/-- The JSON key names of the persisted-state schema. -/
def jsonKeyNames : List String :=
  ["current_state", "consecutive_failures", "last_heal_time",
   "last_agent_time", "last_sos_time", "last_probe_results",
   "worker_restarts", "name", "passed", "output", "duration_ms"]

/-- A character a serialized string field may safely contain: ASCII,
not a double quote, and no control character other than `\n`, `\r`, `\t`
(other controls are serialized lossily as a space). -/
def goodValChar (c : Char) : Bool :=
  c.toNat < 128 && !(c = quoteChar) &&
    (!(isRustControl c) || c = '\n' || c = '\r' || c = '\t')

/-- A string field value for which the serialize/re-parse round trip is
exact: safe characters, and not equal to one of the schema's key names
(a value equal to a key name is found first by the substring search of
`key_position` and corrupts the scan). -/
def safeVal (s : String) : Prop :=
  s.data.all goodValChar = true ∧ s ∉ jsonKeyNames

/-- The shape shared by all JSON keys of the schema: nonempty, listed in
`jsonKeyNames`, and free of the characters that play a role in the
serialized layout. -/
def goodKey (k : List Char) : Prop :=
  k ≠ [] ∧ (⟨k⟩ : String) ∈ jsonKeyNames ∧
    ∀ c ∈ k, c ≠ quoteChar ∧ c ≠ backslashChar ∧ c ≠ ' ' ∧ c ≠ ':' ∧ c ≠ ','

/-- The PersistentState values whose JSON round trip is exact: safe string
fields, `u32` counters and `u64` timestamps. -/
def safeState (s : PersistentState) : Prop :=
  safeVal s.currentState ∧
  s.consecutiveFailures < 2 ^ 32 ∧
  s.workerRestarts < 2 ^ 32 ∧
  (∀ v, s.lastHealTime = some v → v < 2 ^ 64) ∧
  (∀ v, s.lastAgentTime = some v → v < 2 ^ 64) ∧
  (∀ v, s.lastSosTime = some v → v < 2 ^ 64) ∧
  (∀ r ∈ s.lastProbeResults,
    safeVal r.name ∧ safeVal r.output ∧ r.durationMs < 2 ^ 64)

/-! ## Concrete fixtures used by counterexamples and witnesses -/

/-- `config.rs::default_services_toml` with the comment header elided. -/
def defaultServicesContent : String :=
  "[launchd.voice_agent]\nlabel = \"com.joel.voice-agent\"\ncritical = true\ntimeout_secs = 5\n\n[http.voice_agent]\nurl = \"http://127.0.0.1:8081/\"\ncritical = true\ntimeout_secs = 5\n"

/-- A services file overriding the built-in `worker` HTTP probe. -/
def workerOverrideContent : String :=
  "[http.worker]\nurl = \"http://localhost:9999/x\"\ncritical = true\n"

/-- A services file whose `[http.voice_agent]` section lacks `url`. -/
def missingUrlContent : String := "[http.voice_agent]\ncritical = true\n"

/-- A config as produced by a successful reload of the default services
file: seeds plus the `voice_agent` entries. -/
def voiceAgentConfig : Config :=
  (reloadServiceProbes defaultConfig defaultServicesContent).1

/-- A config whose dynamic HTTP set carries a user entry that shadows the
built-in `worker` name with a different `critical` flag. -/
def shadowedWorkerConfig : Config :=
  { defaultConfig with
    httpServiceProbes := builtinHttpServiceProbes ++
      [{ name := "worker", url := "http://localhost:9999/x", timeoutSecs := 5,
         critical := true }] }

/-- The single failing probe of spec scenario S3. -/
def voiceAgentFailure : ProbeResult :=
  { name := "launchd:voice_agent", passed := false, output := "x",
    durationMs := 1 }

def sampleSnapshot : HealthSnapshot :=
  { ok := true, state := "Healthy", consecutiveFailures := 0, probeCount := 9,
    failedProbeCount := 0, failedProbes := [], workerRestarts := 0,
    updatedAtUnix := 1700000000 }

/-- A safe persistent state exercising every field of the round trip:
escaped output, timestamps both present and absent, multiple results. -/
def roundtripWitnessState : PersistentState :=
  { currentState := "Degraded", consecutiveFailures := 2,
    lastHealTime := some 1700000100, lastAgentTime := none,
    lastSosTime := some 1700000500,
    lastProbeResults :=
      [{ name := "redis", passed := true, output := "PONG\nready",
         durationMs := 5 },
       { name := "http:voice_agent", passed := false, output := "500",
         durationMs := 12 }],
    workerRestarts := 3 }

/-- A persistent state containing a probe result whose name collides with
the `worker_restarts` JSON key. -/
def keyNamedProbeState : PersistentState :=
  { currentState := "Degraded", consecutiveFailures := 1, lastHealTime := none,
    lastAgentTime := none, lastSosTime := none,
    lastProbeResults := [{ name := "worker_restarts", passed := true,
                           output := "ok", durationMs := 1 }],
    workerRestarts := 5 }

/-! ## Proof infrastructure for the JSON round trip

A serialized document is viewed as a sequence of chunks: quote-free
literal text and quoted (escaped) strings.  Occurrences of a quoted key
pattern can then only start at a quote, which pins `key_position` to the
real key. -/

/-- `pat` occurs nowhere starting strictly inside `a` (also not extending
into `b`). -/
def noOccWithin (pat a b : List Char) : Prop :=
  ∀ n, n < a.length → pat.isPrefixOf ((a ++ b).drop n) = false

inductive JChunk
  | lit (l : List Char)
  | str (w : List Char)

def renderChunks : List JChunk → List Char
  | [] => []
  | JChunk.lit l :: cs => l ++ renderChunks cs
  | JChunk.str w :: cs => quoteChar :: (w ++ quoteChar :: renderChunks cs)

/-- Conditions under which the quoted key `k` does not occur inside the
rendered chunks followed by `b`: literals are quote-free, quoted chunks
differ from `k`, and no occurrence starts at a closing quote. -/
def chunksOk (k : List Char) : List JChunk → List Char → Prop
  | [], _ => True
  | JChunk.lit l :: cs, b => (∀ c ∈ l, c ≠ quoteChar) ∧ chunksOk k cs b
  | JChunk.str w :: cs, b =>
    (∀ c ∈ w, c ≠ quoteChar) ∧ w ≠ k ∧
      (k ++ [quoteChar]).isPrefixOf (renderChunks cs ++ b) = false ∧
      chunksOk k cs b

/-- Conditions under which the bracket-matching array scanner passes
through rendered chunks without changing state: literals carry no quote
and no square bracket, and quoted chunks hold escaped safe values. -/
def chunksScanOk : List JChunk → Prop
  | [] => True
  | JChunk.lit l :: cs =>
    (∀ c ∈ l, c ≠ quoteChar ∧ c ≠ '[' ∧ c ≠ ']') ∧ chunksScanOk cs
  | JChunk.str w :: cs =>
    (∃ v, w = escList v ∧ v.all goodValChar = true) ∧ chunksScanOk cs

def boolChars (b : Bool) : List Char := if b then "true".data else "false".data

/-- The chunk decomposition of one serialized probe-result object. -/
def objChunks (r : ProbeResult) : List JChunk :=
  [JChunk.lit [lbraceChar], JChunk.str "name".data, JChunk.lit [':'],
   JChunk.str (escList r.name.data), JChunk.lit [','],
   JChunk.str "passed".data,
   JChunk.lit (':' :: boolChars r.passed ++ [',']),
   JChunk.str "output".data, JChunk.lit [':'],
   JChunk.str (escList r.output.data), JChunk.lit [','],
   JChunk.str "duration_ms".data,
   JChunk.lit (':' :: natToDec r.durationMs ++ [rbraceChar])]

/-- The chunks of one serialized object strictly between the opening brace
and the final `:<duration>}` literal. -/
def objMid (r : ProbeResult) : List JChunk :=
  [JChunk.str "name".data, JChunk.lit [':'],
   JChunk.str (escList r.name.data), JChunk.lit [','],
   JChunk.str "passed".data,
   JChunk.lit (':' :: boolChars r.passed ++ [',']),
   JChunk.str "output".data, JChunk.lit [':'],
   JChunk.str (escList r.output.data), JChunk.lit [','],
   JChunk.str "duration_ms".data]

/-- Chunk lists the brace-matching object extractor passes through at
depth 1: literals avoid quotes and braces, quoted chunks hold escaped safe
values. -/
def objMidOk : List JChunk → Prop
  | [] => True
  | JChunk.lit l :: cs =>
    (∀ c ∈ l, c ≠ quoteChar ∧ c ≠ lbraceChar ∧ c ≠ rbraceChar) ∧ objMidOk cs
  | JChunk.str w :: cs =>
    (∃ v, w = escList v ∧ v.all goodValChar = true) ∧ objMidOk cs

/-- The chunk decomposition of the comma-joined serialized objects. -/
def resultsChunks : List ProbeResult → List JChunk
  | [] => []
  | [r] => objChunks r
  | r :: rest => objChunks r ++ (JChunk.lit [','] :: resultsChunks rest)

/-- The chunk decomposition of the whole serialized persistent state. -/
def topChunks (s : PersistentState) : List JChunk :=
  [JChunk.lit "\x7b\n  ".data, JChunk.str "current_state".data,
   JChunk.lit [':', ' '], JChunk.str (escList s.currentState.data),
   JChunk.lit ",\n  ".data, JChunk.str "consecutive_failures".data,
   JChunk.lit (':' :: ' ' :: natToDec s.consecutiveFailures ++ ",\n  ".data),
   JChunk.str "last_heal_time".data,
   JChunk.lit (':' :: ' ' ::
     (optionalU64ToJson s.lastHealTime).data ++ ",\n  ".data),
   JChunk.str "last_agent_time".data,
   JChunk.lit (':' :: ' ' ::
     (optionalU64ToJson s.lastAgentTime).data ++ ",\n  ".data),
   JChunk.str "last_sos_time".data,
   JChunk.lit (':' :: ' ' ::
     (optionalU64ToJson s.lastSosTime).data ++ ",\n  ".data),
   JChunk.str "last_probe_results".data,
   JChunk.lit [':', ' ', '[']]
  ++ resultsChunks s.lastProbeResults
  ++ [JChunk.lit (']' :: ",\n  ".data), JChunk.str "worker_restarts".data,
      JChunk.lit (':' :: ' ' :: natToDec s.workerRestarts ++ "\n\x7d\n".data)]

/-! ## General lemmas about the string helpers -/

theorem strApp_data (a b : String) : (a ++ b).data = a.data ++ b.data := rfl

theorem strDataInj {a b : String} (h : a.data = b.data) : a = b := by
  cases a
  cases b
  exact congrArg String.mk h

theorem listIsPrefixOf_iff (p : List Char) :
    ∀ l, p.isPrefixOf l = true ↔ ∃ t, l = p ++ t := by
  induction p with
  | nil =>
    intro l
    simp [List.isPrefixOf]
  | cons a p ih =>
    intro l
    cases l with
    | nil => simp [List.isPrefixOf]
    | cons b t =>
      simp only [List.isPrefixOf, Bool.and_eq_true, beq_iff_eq, ih,
        List.cons_append, List.cons.injEq]
      constructor
      · rintro ⟨hab, u, hu⟩
        exact ⟨u, hab.symm, hu⟩
      · rintro ⟨u, hab, hu⟩
        exact ⟨hab.symm, u, hu⟩

theorem isPrefixOf_append_self (p t : List Char) :
    p.isPrefixOf (p ++ t) = true :=
  (listIsPrefixOf_iff p (p ++ t)).2 ⟨t, rfl⟩

theorem dropPre_some_iff (pre s r : String) :
    dropPre pre s = some r ↔ s.data = pre.data ++ r.data := by
  unfold dropPre
  split
  · next h =>
    obtain ⟨t, ht⟩ := (listIsPrefixOf_iff pre.data s.data).1 h
    rw [ht, List.drop_left, Option.some.injEq]
    constructor
    · rintro rfl
      rfl
    · intro h2
      exact strDataInj (List.append_cancel_left h2)
  · next h =>
    constructor
    · intro h2
      cases h2
    · intro h2
      exact absurd ((listIsPrefixOf_iff pre.data s.data).2 ⟨r.data, h2⟩) h

theorem dropPre_append (pre t : String) : dropPre pre (pre ++ t) = some t :=
  (dropPre_some_iff pre (pre ++ t) t).2 (strApp_data pre t)

theorem strApp_head (pre s : String) (c : Char)
    (hc : pre.data.head? = some c) : (pre ++ s).data.head? = some c := by
  rw [strApp_data, List.head?_append, hc]
  rfl

theorem strApp_ne_of_head (pre q s : String) (c d : Char)
    (hc : pre.data.head? = some c) (hd : q.data.head? = some d) (hne : c ≠ d) :
    pre ++ s ≠ q := by
  intro h
  have h2 : (pre ++ s).data.head? = q.data.head? := by rw [h]
  rw [strApp_head pre s c hc, hd] at h2
  exact hne (Option.some.injEq .. ▸ h2)

theorem dropPre_none_of_head (pre s : String) (c d : Char)
    (hc : pre.data.head? = some c) (hd : s.data.head? = some d) (hne : c ≠ d) :
    dropPre pre s = none := by
  unfold dropPre
  rw [if_neg]
  intro h
  obtain ⟨t, ht⟩ := (listIsPrefixOf_iff pre.data s.data).1 h
  have h2 : s.data.head? = some c := by
    rw [ht, List.head?_append, hc]; rfl
  rw [hd] at h2
  exact hne (Option.some.injEq .. ▸ h2).symm

theorem dropPre_of_app_eq (pre s r : String) (h : s = pre ++ r) :
    dropPre pre s = some r :=
  h ▸ dropPre_append pre r

theorem strApp_left_cancel (pre a b : String) (h : pre ++ a = pre ++ b) :
    a = b := by
  have h2 : pre.data ++ a.data = pre.data ++ b.data := by
    rw [← strApp_data, ← strApp_data, h]
  exact strDataInj (List.append_cancel_left h2)

/-! ## Lemmas about escaping, decimal digits and token scanning -/

theorem jsonEscapeChar_shape (c : Char) (hc : goodValChar c = true) :
    (c = backslashChar ∧
      jsonEscapeChar c = [backslashChar, backslashChar]) ∨
    (c = '\n' ∧ jsonEscapeChar c = [backslashChar, 'n']) ∨
    (c = '\r' ∧ jsonEscapeChar c = [backslashChar, 'r']) ∨
    (c = '\t' ∧ jsonEscapeChar c = [backslashChar, 't']) ∨
    (c ≠ backslashChar ∧ c ≠ quoteChar ∧ jsonEscapeChar c = [c]) := by
  simp only [goodValChar, Bool.and_eq_true, Bool.or_eq_true,
    Bool.not_eq_true', decide_eq_true_eq, decide_eq_false_iff_not] at hc
  obtain ⟨⟨_, hq⟩, hctrl⟩ := hc
  by_cases hb : c = backslashChar
  · exact Or.inl ⟨hb, by rw [hb]; decide⟩
  · by_cases hn : c = '\n'
    · exact Or.inr (Or.inl ⟨hn, by rw [hn]; decide⟩)
    · by_cases hr : c = '\r'
      · exact Or.inr (Or.inr (Or.inl ⟨hr, by rw [hr]; decide⟩))
      · by_cases ht : c = '\t'
        · exact Or.inr (Or.inr (Or.inr (Or.inl ⟨ht, by rw [ht]; decide⟩)))
        · refine Or.inr (Or.inr (Or.inr (Or.inr ⟨hb, hq, ?_⟩)))
          have hctrl2 : isRustControl c = false := by
            rcases hctrl with ((h | h) | h) | h
            · exact h
            · exact absurd h hn
            · exact absurd h hr
            · exact absurd h ht
          unfold jsonEscapeChar
          rw [if_neg hb, if_neg hq, if_neg hn, if_neg hr, if_neg ht,
            if_neg (by rw [hctrl2]; exact Bool.false_ne_true)]

theorem jsonEscapeChar_shape2 (c : Char) :
    (jsonEscapeChar c).head? = some backslashChar ∨
      jsonEscapeChar c = [' '] ∨ jsonEscapeChar c = [c] := by
  by_cases h1 : c = backslashChar
  · subst h1; decide
  · by_cases h2 : c = quoteChar
    · subst h2; decide
    · by_cases h3 : c = '\n'
      · subst h3; decide
      · by_cases h4 : c = '\r'
        · subst h4; decide
        · by_cases h5 : c = '\t'
          · subst h5; decide
          · unfold jsonEscapeChar
            rw [if_neg h1, if_neg h2, if_neg h3, if_neg h4, if_neg h5]
            by_cases h6 : isRustControl c = true
            · rw [if_pos h6]
              exact Or.inr (Or.inl rfl)
            · rw [if_neg h6]
              exact Or.inr (Or.inr rfl)

theorem escList_no_quote : ∀ v : List Char, v.all goodValChar = true →
    ∀ c ∈ escList v, c ≠ quoteChar := by
  intro v
  induction v with
  | nil => intro _ c hc; cases hc
  | cons a v ih =>
    intro hv c hc
    rw [List.all_cons, Bool.and_eq_true] at hv
    rw [escList] at hc
    rcases List.mem_append.1 hc with hc2 | hc2
    · rcases jsonEscapeChar_shape a hv.1 with ⟨_, he⟩ | ⟨_, he⟩ | ⟨_, he⟩ |
        ⟨_, he⟩ | ⟨_, hq, he⟩ <;> rw [he] at hc2 <;>
        simp only [List.mem_cons, List.mem_singleton, List.not_mem_nil,
          or_false] at hc2
      · rcases hc2 with rfl | rfl <;> decide
      · rcases hc2 with rfl | rfl <;> decide
      · rcases hc2 with rfl | rfl <;> decide
      · rcases hc2 with rfl | rfl <;> decide
      · rw [hc2]; exact hq
    · exact ih hv.2 c hc2

theorem escList_eq_plain : ∀ v k : List Char,
    (∀ c ∈ k, c ≠ backslashChar ∧ c ≠ ' ') → escList v = k → v = k := by
  intro v
  induction v with
  | nil =>
    intro k _ he
    exact he
  | cons a v ih =>
    intro k hk he
    rw [escList] at he
    rcases jsonEscapeChar_shape2 a with hs | hs | hs
    · exfalso
      obtain ⟨x, hx⟩ : ∃ x, jsonEscapeChar a = backslashChar :: x := by
        cases hj : jsonEscapeChar a with
        | nil => rw [hj] at hs; cases hs
        | cons y ys =>
          rw [hj] at hs
          exact ⟨ys, by rw [(Option.some.injEq .. ▸ hs : y = backslashChar)]⟩
      rw [hx] at he
      have : backslashChar ∈ k := he ▸ List.mem_cons_self _ _
      exact (hk _ this).1 rfl
    · exfalso
      rw [hs] at he
      have : ' ' ∈ k := he ▸ List.mem_cons_self _ _
      exact (hk _ this).2 rfl
    · rw [hs] at he
      cases k with
      | nil => cases he
      | cons b k2 =>
        rw [List.cons_append, List.nil_append] at he
        obtain ⟨hab, he2⟩ := List.cons.injEq .. ▸ he
        rw [hab, ih k2 (fun c hc => hk c (List.mem_cons_of_mem b hc)) he2]

theorem scanJsonString_esc (e : Char) (tail : List Char) :
    scanJsonString (backslashChar :: e :: tail) =
      (scanJsonString tail).map (fun l => jsonUnescapeChar e :: l) := rfl

theorem scanJsonString_quote (tail : List Char) :
    scanJsonString (quoteChar :: tail) = some [] := by
  cases tail with
  | nil => rfl
  | cons e rest => rfl

theorem scanJsonString_plain (c : Char) (h1 : c ≠ backslashChar)
    (h2 : c ≠ quoteChar) (tail : List Char) :
    scanJsonString (c :: tail) = (scanJsonString tail).map (fun l => c :: l) := by
  cases tail with
  | nil => simp [scanJsonString, h1, h2]
  | cons e rest => simp [scanJsonString, h1, h2]

theorem scan_escaped : ∀ v : List Char, v.all goodValChar = true →
    ∀ rest, scanJsonString (escList v ++ quoteChar :: rest) = some v := by
  intro v
  induction v with
  | nil =>
    intro _ rest
    rw [escList, List.nil_append, scanJsonString_quote]
  | cons a v ih =>
    intro hv rest
    rw [List.all_cons, Bool.and_eq_true] at hv
    rw [escList, List.append_assoc]
    rcases jsonEscapeChar_shape a hv.1 with ⟨ha, he⟩ | ⟨ha, he⟩ | ⟨ha, he⟩ |
      ⟨ha, he⟩ | ⟨h1, h2, he⟩
    · rw [he, List.cons_append, List.cons_append, List.nil_append,
        scanJsonString_esc, ih hv.2 rest, ha,
        show jsonUnescapeChar backslashChar = backslashChar from by decide]
      rfl
    · rw [he, List.cons_append, List.cons_append, List.nil_append,
        scanJsonString_esc, ih hv.2 rest, ha,
        show jsonUnescapeChar 'n' = '\n' from by decide]
      rfl
    · rw [he, List.cons_append, List.cons_append, List.nil_append,
        scanJsonString_esc, ih hv.2 rest, ha,
        show jsonUnescapeChar 'r' = '\r' from by decide]
      rfl
    · rw [he, List.cons_append, List.cons_append, List.nil_append,
        scanJsonString_esc, ih hv.2 rest, ha,
        show jsonUnescapeChar 't' = '\t' from by decide]
      rfl
    · rw [he, List.cons_append, List.nil_append,
        scanJsonString_plain a h1 h2, ih hv.2 rest]
      rfl

theorem digit_char_facts (c : Char) (h : isDigitChar c = true) :
    c ≠ quoteChar ∧ c ≠ ',' ∧ c ≠ rbraceChar ∧ c ≠ '\n' ∧ c ≠ '[' ∧
      c ≠ ']' ∧ c ≠ lbraceChar ∧ c ≠ '+' ∧ isWs c = false := by
  simp only [isDigitChar, Bool.and_eq_true, decide_eq_true_eq] at h
  refine ⟨?_, ?_, ?_, ?_, ?_, ?_, ?_, ?_, ?_⟩
  · intro h2; subst h2; exact absurd h (by decide)
  · intro h2; subst h2; exact absurd h (by decide)
  · intro h2; subst h2; exact absurd h (by decide)
  · intro h2; subst h2; exact absurd h (by decide)
  · intro h2; subst h2; exact absurd h (by decide)
  · intro h2; subst h2; exact absurd h (by decide)
  · intro h2; subst h2; exact absurd h (by decide)
  · intro h2; subst h2; exact absurd h (by decide)
  · simp only [isWs]
    rw [Bool.or_eq_false_iff]
    constructor
    · rw [beq_eq_false_iff_ne]
      omega
    · rw [Bool.and_eq_false_iff]
      right
      simp only [decide_eq_false_iff_not]
      omega

theorem isDigitChar_digitChar10 (d : Nat) (h : d < 10) :
    isDigitChar (digitChar10 d) = true := by
  interval_cases d <;> decide

theorem digitChar10_toNat (d : Nat) (h : d < 10) :
    (digitChar10 d).toNat = 48 + d := by
  interval_cases d <;> decide

theorem digitsAux_all_digits : ∀ fuel n : Nat,
    ∀ c ∈ digitsAux fuel n, isDigitChar c = true := by
  intro fuel
  induction fuel with
  | zero => intro n c hc; cases hc
  | succ fuel ih =>
    intro n c hc
    rw [digitsAux] at hc
    by_cases hn : n = 0
    · rw [if_pos hn] at hc; cases hc
    · rw [if_neg hn] at hc
      rcases List.mem_append.1 hc with hc2 | hc2
      · exact ih _ c hc2
      · simp only [List.mem_singleton] at hc2
        subst hc2
        exact isDigitChar_digitChar10 _ (Nat.mod_lt n (by omega))

theorem natToDec_all_digits (n : Nat) :
    ∀ c ∈ natToDec n, isDigitChar c = true := by
  intro c hc
  rw [natToDec] at hc
  by_cases hn : n = 0
  · rw [if_pos hn] at hc
    simp only [List.mem_singleton] at hc
    subst hc
    decide
  · rw [if_neg hn] at hc
    exact digitsAux_all_digits n n c hc

theorem decToNat_append_digit (l : List Char) (c : Char) :
    decToNat (l ++ [c]) = decToNat l * 10 + (c.toNat - 48) := by
  unfold decToNat
  rw [List.foldl_append]
  rfl

theorem digitsAux_correct : ∀ fuel n : Nat, n ≤ fuel → 1 ≤ n →
    digitsAux fuel n ≠ [] ∧ decToNat (digitsAux fuel n) = n := by
  intro fuel
  induction fuel with
  | zero => intro n h1 h2; omega
  | succ fuel ih =>
    intro n h1 h2
    rw [digitsAux, if_neg (by omega)]
    by_cases hq : n / 10 = 0
    · have hlt : n < 10 := by omega
      have hmod : n % 10 = n := Nat.mod_eq_of_lt hlt
      have hz : digitsAux fuel (n / 10) = [] := by
        rw [hq]
        cases fuel with
        | zero => rfl
        | succ fuel2 => rw [digitsAux, if_pos rfl]
      rw [hz]
      refine ⟨by simp, ?_⟩
      rw [List.nil_append]
      show decToNat [digitChar10 (n % 10)] = n
      unfold decToNat
      simp only [List.foldl_cons, List.foldl_nil]
      rw [digitChar10_toNat _ (Nat.mod_lt n (by omega))]
      omega
    · have hrec := ih (n / 10) (by omega) (by omega)
      refine ⟨by simp, ?_⟩
      rw [decToNat_append_digit, hrec.2,
        digitChar10_toNat _ (Nat.mod_lt n (by omega))]
      have := Nat.div_add_mod n 10
      omega

theorem decToNat_natToDec (n : Nat) : decToNat (natToDec n) = n := by
  unfold natToDec
  by_cases hn : n = 0
  · rw [if_pos hn, hn]
    rfl
  · rw [if_neg hn]
    exact (digitsAux_correct n n (le_refl n) (by omega)).2

theorem natToDec_ne_nil (n : Nat) : natToDec n ≠ [] := by
  unfold natToDec
  by_cases hn : n = 0
  · rw [if_pos hn]
    simp
  · rw [if_neg hn]
    exact (digitsAux_correct n n (le_refl n) (by omega)).1

theorem parseU64_natToDec (n : Nat) (h : n < 2 ^ 64) :
    parseU64 (String.mk (natToDec n)) = some n := by
  unfold parseU64 parseUInt
  cases he : natToDec n with
  | nil => exact absurd he (natToDec_ne_nil n)
  | cons c rest =>
    have hdig : isDigitChar c = true :=
      natToDec_all_digits n c (he ▸ List.mem_cons_self c rest)
    simp only [if_neg (digit_char_facts c hdig).2.2.2.2.2.2.2.1]
    rw [dif_pos]
    · rw [← he, decToNat_natToDec]
    · refine ⟨by simp, ?_, ?_⟩
      · rw [← he]
        exact List.all_eq_true.2 (natToDec_all_digits n)
      · rw [← he, decToNat_natToDec]
        exact h

theorem trimList_of_no_ws (t : List Char) (h : ∀ c ∈ t, isWs c = false) :
    trimList t = t := by
  unfold trimList
  have h1 : t.dropWhile isWs = t :=
    List.dropWhile_eq_self_iff.2 (fun hx => by
      rw [h _ (List.get_mem t 0 hx)]
      exact Bool.false_ne_true)
  rw [h1]
  have h2 : t.reverse.dropWhile isWs = t.reverse :=
    List.dropWhile_eq_self_iff.2 (fun hx => by
      rw [h _ (List.mem_reverse.1 (List.get_mem t.reverse 0 hx))]
      exact Bool.false_ne_true)
  rw [h2, List.reverse_reverse]

theorem tokenScan_stops (t : List Char) (s : Char) (rest : List Char)
    (ht : ∀ c ∈ t, c ≠ ',' ∧ c ≠ rbraceChar ∧ c ≠ '\n')
    (hs : s = ',' ∨ s = rbraceChar ∨ s = '\n') :
    tokenScan (t ++ s :: rest) = t := by
  induction t with
  | nil =>
    rw [List.nil_append, tokenScan, if_pos hs]
  | cons c t ih =>
    rw [List.cons_append, tokenScan, if_neg, ih]
    · intro c2 hc2
      exact ht c2 (List.mem_cons_of_mem c hc2)
    · have := ht c (List.mem_cons_self c t)
      rintro (h | h | h)
      · exact this.1 h
      · exact this.2.1 h
      · exact this.2.2 h

/-! ## Occurrence pinning for the substring search of `key_position` -/

theorem drop_len_append (a b : List Char) (i : Nat) :
    (a ++ b).drop (a.length + i) = b.drop i := by
  induction a with
  | nil => simp
  | cons c t ih =>
    have h : (c :: t).length + i = (t.length + i) + 1 := by
      simp only [List.length_cons]; omega
    rw [List.cons_append, h, List.drop_succ_cons, ih]

theorem take_len_append (a b : List Char) (i : Nat) :
    (a ++ b).take (a.length + i) = a ++ b.take i := by
  induction a with
  | nil => simp
  | cons c t ih =>
    have h : (c :: t).length + i = (t.length + i) + 1 := by
      simp only [List.length_cons]; omega
    rw [List.cons_append, h, List.take_succ_cons, ih, List.cons_append]

theorem isPrefixOf_head_ne (a c : Char) (p l : List Char) (h : a ≠ c) :
    (a :: p).isPrefixOf (c :: l) = false := by
  show (a == c && p.isPrefixOf l) = false
  rw [beq_eq_false_iff_ne.2 h, Bool.false_and]

theorem noOcc_lit (k l b : List Char) (hl : ∀ c ∈ l, c ≠ quoteChar) :
    noOccWithin (quoteChar :: (k ++ [quoteChar])) l b := by
  induction l with
  | nil => intro n hn; simp at hn
  | cons c t ih =>
    intro n hn
    cases n with
    | zero =>
      rw [List.cons_append, List.drop_zero]
      exact isPrefixOf_head_ne _ _ _ _
        (fun he => hl c (List.mem_cons_self c t) he.symm)
    | succ m =>
      rw [List.cons_append, List.drop_succ_cons]
      exact ih (fun c2 h2 => hl c2 (List.mem_cons_of_mem c h2)) m
        (Nat.lt_of_succ_lt_succ hn)

theorem key_not_into_str : ∀ k w b : List Char, (∀ c ∈ k, c ≠ quoteChar) →
    (∀ c ∈ w, c ≠ quoteChar) → w ≠ k →
    (k ++ [quoteChar]).isPrefixOf (w ++ quoteChar :: b) = false := by
  intro k
  induction k with
  | nil =>
    intro w b _ hw hwk
    cases w with
    | nil => exact absurd rfl hwk
    | cons c t =>
      rw [List.nil_append, List.cons_append]
      exact isPrefixOf_head_ne _ _ _ _
        (fun he => hw c (List.mem_cons_self c t) he.symm)
  | cons a k ih =>
    intro w b hk hw hwk
    cases w with
    | nil =>
      rw [List.cons_append, List.nil_append]
      exact isPrefixOf_head_ne _ _ _ _ (hk a (List.mem_cons_self a k))
    | cons c t =>
      rw [List.cons_append, List.cons_append]
      by_cases hac : a = c
      · subst hac
        show (a == a && (k ++ [quoteChar]).isPrefixOf (t ++ quoteChar :: b)) =
          false
        rw [beq_self_eq_true, Bool.true_and]
        exact ih t b (fun x hx => hk x (List.mem_cons_of_mem a hx))
          (fun x hx => hw x (List.mem_cons_of_mem a hx))
          (fun he => hwk (by rw [he]))
      · exact isPrefixOf_head_ne _ _ _ _ hac

theorem noOcc_strchunk (k w b : List Char) (hk : ∀ c ∈ k, c ≠ quoteChar)
    (hw : ∀ c ∈ w, c ≠ quoteChar) (hwk : w ≠ k)
    (hcl : (k ++ [quoteChar]).isPrefixOf b = false) :
    noOccWithin (quoteChar :: (k ++ [quoteChar]))
      (quoteChar :: (w ++ [quoteChar])) b := by
  intro n hn
  have hlen : n < w.length + 2 := by simpa using hn
  rw [show ((quoteChar :: (w ++ [quoteChar])) ++ b) =
    quoteChar :: (w ++ quoteChar :: b) from by simp]
  cases n with
  | zero =>
    rw [List.drop_zero]
    show (quoteChar == quoteChar &&
      (k ++ [quoteChar]).isPrefixOf (w ++ quoteChar :: b)) = false
    rw [beq_self_eq_true, Bool.true_and]
    exact key_not_into_str k w b hk hw hwk
  | succ m =>
    rw [List.drop_succ_cons]
    by_cases hm : m < w.length
    · exact noOcc_lit k w (quoteChar :: b) hw m hm
    · have hm2 : m = w.length := by omega
      subst hm2
      rw [show (w ++ quoteChar :: b).drop w.length = quoteChar :: b from by
        have h0 := drop_len_append w (quoteChar :: b) 0
        simpa using h0]
      show (quoteChar == quoteChar && (k ++ [quoteChar]).isPrefixOf b) = false
      rw [beq_self_eq_true, Bool.true_and]
      exact hcl

theorem noOccWithin_append (pat a b c : List Char)
    (h1 : noOccWithin pat a (b ++ c)) (h2 : noOccWithin pat b c) :
    noOccWithin pat (a ++ b) c := by
  intro n hn
  rw [List.length_append] at hn
  by_cases hna : n < a.length
  · rw [List.append_assoc]
    exact h1 n hna
  · obtain ⟨m, rfl⟩ : ∃ m, n = a.length + m := ⟨n - a.length, by omega⟩
    have hm : m < b.length := by omega
    rw [List.append_assoc, drop_len_append]
    exact h2 m hm

theorem renderChunks_append (xs ys : List JChunk) :
    renderChunks (xs ++ ys) = renderChunks xs ++ renderChunks ys := by
  induction xs with
  | nil => rfl
  | cons c cs ih =>
    cases c with
    | lit l =>
      show l ++ renderChunks (cs ++ ys) = (l ++ renderChunks cs) ++ renderChunks ys
      rw [ih, List.append_assoc]
    | str w =>
      show quoteChar :: (w ++ quoteChar :: renderChunks (cs ++ ys)) =
        (quoteChar :: (w ++ quoteChar :: renderChunks cs)) ++ renderChunks ys
      rw [ih]
      simp

theorem chunksOk_append (k : List Char) (xs ys : List JChunk) (b : List Char)
    (h1 : chunksOk k xs (renderChunks ys ++ b)) (h2 : chunksOk k ys b) :
    chunksOk k (xs ++ ys) b := by
  induction xs with
  | nil => exact h2
  | cons c cs ih =>
    cases c with
    | lit l =>
      obtain ⟨ha, hb⟩ := h1
      exact ⟨ha, ih hb⟩
    | str w =>
      obtain ⟨ha, hb, hc, hd⟩ := h1
      refine ⟨ha, hb, ?_, ih hd⟩
      rw [List.append_eq, renderChunks_append, List.append_assoc]
      exact hc

theorem noOcc_chunks (k : List Char) (hk : ∀ c ∈ k, c ≠ quoteChar) :
    ∀ (xs : List JChunk) (b : List Char), chunksOk k xs b →
    noOccWithin (quoteChar :: (k ++ [quoteChar])) (renderChunks xs) b := by
  intro xs
  induction xs with
  | nil => intro b _ n hn; simp [renderChunks] at hn
  | cons c cs ih =>
    intro b h
    cases c with
    | lit l =>
      obtain ⟨h1, h2⟩ := h
      exact noOccWithin_append _ l (renderChunks cs) b
        (noOcc_lit k l (renderChunks cs ++ b) h1) (ih b h2)
    | str w =>
      obtain ⟨h1, h2, h3, h4⟩ := h
      have heq : renderChunks (JChunk.str w :: cs) =
          (quoteChar :: (w ++ [quoteChar])) ++ renderChunks cs := by
        show quoteChar :: (w ++ quoteChar :: renderChunks cs) = _
        simp
      rw [heq]
      exact noOccWithin_append _ (quoteChar :: (w ++ [quoteChar]))
        (renderChunks cs) b (noOcc_strchunk k w _ hk h1 h2 h3) (ih b h4)

theorem findSub_prefix (pat l : List Char) (h : pat.isPrefixOf l = true) :
    findSub pat l = some 0 := by
  cases l with
  | nil =>
    cases pat with
    | nil => rfl
    | cons a as => simp [List.isPrefixOf] at h
  | cons c rest =>
    show (if pat.isPrefixOf (c :: rest) then some 0
      else (findSub pat rest).map (· + 1)) = some 0
    rw [if_pos h]

theorem findSub_append (pat a b : List Char) (h : noOccWithin pat a b) :
    findSub pat (a ++ b) = (findSub pat b).map (· + a.length) := by
  induction a with
  | nil =>
    rw [List.nil_append]
    cases findSub pat b with
    | none => rfl
    | some v => simp
  | cons c t ih =>
    rw [List.cons_append]
    have h0 : pat.isPrefixOf (c :: (t ++ b)) = false := by
      have hh := h 0 (Nat.succ_pos _)
      rwa [List.cons_append, List.drop_zero] at hh
    show (if pat.isPrefixOf (c :: (t ++ b)) then some 0
      else (findSub pat (t ++ b)).map (· + 1)) =
      (findSub pat b).map (· + (c :: t).length)
    rw [if_neg (by rw [h0]; exact Bool.false_ne_true),
      ih (fun n hn => h (n + 1) (Nat.succ_lt_succ hn))]
    cases findSub pat b with
    | none => rfl
    | some v => rfl

theorem keyPosition_eq (raw k rest : List Char) (p : Nat)
    (hfind : findSub (quoteChar :: (k ++ [quoteChar])) raw = some p)
    (hcolon : raw.drop (p + (k.length + 2)) = ':' :: rest) :
    keyPosition raw k = some (p + (k.length + 3)) := by
  unfold keyPosition
  rw [List.cons_append, hfind]
  show (match findSub [':'] (raw.drop (p + (k.length + 2))) with
    | none => none
    | some colonOffset => some (p + (k.length + 2) + colonOffset + 1)) =
    some (p + (k.length + 3))
  have h2 : findSub [':'] (raw.drop (p + (k.length + 2))) = some 0 := by
    rw [hcolon]
    exact findSub_prefix [':'] _ (by simp [List.isPrefixOf])
  rw [h2]
  rfl

/-- Where `key_position` lands on a rendered chunk document whose prefix
`xs` satisfies the no-spurious-occurrence conditions: just past the colon
that follows the quoted key, with the remainder of the document being the
after-colon text. -/
theorem keyPosition_render (k : List Char) (hk : ∀ c ∈ k, c ≠ quoteChar)
    (xs ys : List JChunk) (tail : List Char)
    (hok : chunksOk k xs
      (renderChunks (JChunk.str k :: JChunk.lit (':' :: tail) :: ys))) :
    keyPosition (renderChunks (xs ++ JChunk.str k :: JChunk.lit (':' :: tail) :: ys)) k =
      some ((renderChunks xs).length + (k.length + 3)) ∧
    (renderChunks (xs ++ JChunk.str k :: JChunk.lit (':' :: tail) :: ys)).drop
      ((renderChunks xs).length + (k.length + 3)) = tail ++ renderChunks ys := by
  have hB : renderChunks (JChunk.str k :: JChunk.lit (':' :: tail) :: ys) =
      (quoteChar :: (k ++ [quoteChar])) ++ ':' :: (tail ++ renderChunks ys) := by
    show quoteChar :: (k ++ quoteChar :: ((':' :: tail) ++ renderChunks ys)) = _
    simp
  have hdoc : renderChunks (xs ++ JChunk.str k :: JChunk.lit (':' :: tail) :: ys) =
      (renderChunks xs ++ (quoteChar :: (k ++ [quoteChar]))) ++
        ':' :: (tail ++ renderChunks ys) := by
    rw [renderChunks_append, hB, List.append_assoc]
  have hnoc : noOccWithin (quoteChar :: (k ++ [quoteChar])) (renderChunks xs)
      ((quoteChar :: (k ++ [quoteChar])) ++ ':' :: (tail ++ renderChunks ys)) := by
    have hh := noOcc_chunks k hk xs _ hok
    rwa [hB] at hh
  have hfind : findSub (quoteChar :: (k ++ [quoteChar]))
      (renderChunks (xs ++ JChunk.str k :: JChunk.lit (':' :: tail) :: ys)) =
      some (renderChunks xs).length := by
    rw [hdoc, List.append_assoc, findSub_append _ _ _ hnoc,
      findSub_prefix _ _ (isPrefixOf_append_self _ _)]
    show some (0 + (renderChunks xs).length) = _
    rw [Nat.zero_add]
  have hdrop2 : (renderChunks (xs ++ JChunk.str k :: JChunk.lit (':' :: tail) :: ys)).drop
      ((renderChunks xs).length + (k.length + 2)) = ':' :: (tail ++ renderChunks ys) := by
    rw [hdoc, show (renderChunks xs).length + (k.length + 2) =
      (renderChunks xs ++ (quoteChar :: (k ++ [quoteChar]))).length + 0 from by
        simp only [List.length_append, List.length_cons, List.length_nil]
        omega,
      drop_len_append]
    rfl
  have hdrop3 : (renderChunks (xs ++ JChunk.str k :: JChunk.lit (':' :: tail) :: ys)).drop
      ((renderChunks xs).length + (k.length + 3)) = tail ++ renderChunks ys := by
    rw [hdoc, show (renderChunks xs).length + (k.length + 3) =
      (renderChunks xs ++ (quoteChar :: (k ++ [quoteChar]))).length + 1 from by
        simp only [List.length_append, List.length_cons, List.length_nil]
        omega,
      drop_len_append]
    rfl
  exact ⟨keyPosition_eq _ _ _ _ hfind hdrop2, hdrop3⟩

/-! ## Field extraction from a pinned key position -/

theorem opt_bind_some {α β : Type} (a : α) (f : α → Option β) :
    (some a >>= f) = f a := rfl

theorem drop_succ_of_drop_cons (raw : List Char) (p : Nat) (c : Char)
    (X : List Char) (h : raw.drop p = c :: X) : raw.drop (p + 1) = X := by
  have h2 := List.drop_drop 1 p raw
  rw [h] at h2
  exact h2.symm

theorem skipWs_at (raw : List Char) (p : Nat) (c : Char) (X : List Char)
    (h : raw.drop p = c :: X) (hc : isWs c = false) :
    skipWhitespaceFrom raw p = some p := by
  unfold skipWhitespaceFrom
  rw [h]
  show (if isWs c then skipWsAux X (p + 1) else some p) = some p
  rw [if_neg (by rw [hc]; exact Bool.false_ne_true)]

theorem skipWs_space (raw : List Char) (p : Nat) (c : Char) (X : List Char)
    (h : raw.drop p = ' ' :: c :: X) (hc : isWs c = false) :
    skipWhitespaceFrom raw p = some (p + 1) := by
  unfold skipWhitespaceFrom
  rw [h]
  show (if isWs ' ' then skipWsAux (c :: X) (p + 1) else some p) = some (p + 1)
  rw [if_pos (by decide)]
  show (if isWs c then skipWsAux X (p + 1 + 1) else some (p + 1)) = some (p + 1)
  rw [if_neg (by rw [hc]; exact Bool.false_ne_true)]

theorem parseJsonString_at (raw k : List Char) (p : Nat) (v rest : List Char)
    (hpos : keyPosition raw k = some p)
    (hdrop : raw.drop p = quoteChar :: (escList v ++ quoteChar :: rest))
    (hv : v.all goodValChar = true) :
    parseJsonString raw k = some v := by
  have hskip := skipWs_at raw p quoteChar (escList v ++ quoteChar :: rest)
    hdrop (by decide)
  unfold parseJsonString
  rw [hpos]
  simp only [opt_bind_some]
  rw [hskip]
  simp only [opt_bind_some]
  rw [hdrop]
  show (if quoteChar = quoteChar then
    scanJsonString (escList v ++ quoteChar :: rest) else none) = some v
  rw [if_pos rfl]
  exact scan_escaped v hv rest

theorem parseJsonString_space_at (raw k : List Char) (p : Nat)
    (v rest : List Char)
    (hpos : keyPosition raw k = some p)
    (hdrop : raw.drop p = ' ' :: quoteChar :: (escList v ++ quoteChar :: rest))
    (hv : v.all goodValChar = true) :
    parseJsonString raw k = some v := by
  have hskip := skipWs_space raw p quoteChar (escList v ++ quoteChar :: rest)
    hdrop (by decide)
  have hdrop2 : raw.drop (p + 1) =
      quoteChar :: (escList v ++ quoteChar :: rest) :=
    drop_succ_of_drop_cons raw p ' ' _ hdrop
  unfold parseJsonString
  rw [hpos]
  simp only [opt_bind_some]
  rw [hskip]
  simp only [opt_bind_some]
  rw [hdrop2]
  show (if quoteChar = quoteChar then
    scanJsonString (escList v ++ quoteChar :: rest) else none) = some v
  rw [if_pos rfl]
  exact scan_escaped v hv rest

theorem parseJsonToken_at (raw k : List Char) (p : Nat) (t : List Char)
    (s : Char) (rest : List Char)
    (hpos : keyPosition raw k = some p)
    (hdrop : raw.drop p = t ++ s :: rest)
    (hne : t ≠ [])
    (ht : ∀ c ∈ t, c ≠ ',' ∧ c ≠ rbraceChar ∧ c ≠ '\n' ∧ isWs c = false)
    (hs : s = ',' ∨ s = rbraceChar ∨ s = '\n') :
    parseJsonToken raw k = some t := by
  obtain ⟨c0, t2, rfl⟩ : ∃ c0 t2, t = c0 :: t2 := by
    cases t with
    | nil => exact absurd rfl hne
    | cons a b => exact ⟨a, b, rfl⟩
  have hskip := skipWs_at raw p c0 (t2 ++ s :: rest) hdrop
    (ht c0 (List.mem_cons_self c0 t2)).2.2.2
  unfold parseJsonToken
  rw [hpos]
  simp only [opt_bind_some]
  rw [hskip]
  simp only [opt_bind_some]
  rw [hdrop,
    tokenScan_stops _ s rest
      (fun c hc => ⟨(ht c hc).1, (ht c hc).2.1, (ht c hc).2.2.1⟩) hs,
    trimList_of_no_ws _ (fun c hc => (ht c hc).2.2.2)]
  rfl

theorem parseJsonToken_space_at (raw k : List Char) (p : Nat) (t : List Char)
    (s : Char) (rest : List Char)
    (hpos : keyPosition raw k = some p)
    (hdrop : raw.drop p = ' ' :: (t ++ s :: rest))
    (hne : t ≠ [])
    (ht : ∀ c ∈ t, c ≠ ',' ∧ c ≠ rbraceChar ∧ c ≠ '\n' ∧ isWs c = false)
    (hs : s = ',' ∨ s = rbraceChar ∨ s = '\n') :
    parseJsonToken raw k = some t := by
  obtain ⟨c0, t2, rfl⟩ : ∃ c0 t2, t = c0 :: t2 := by
    cases t with
    | nil => exact absurd rfl hne
    | cons a b => exact ⟨a, b, rfl⟩
  have hskip := skipWs_space raw p c0 (t2 ++ s :: rest) hdrop
    (ht c0 (List.mem_cons_self c0 t2)).2.2.2
  have hdrop2 : raw.drop (p + 1) = (c0 :: t2) ++ s :: rest :=
    drop_succ_of_drop_cons raw p ' ' _ hdrop
  unfold parseJsonToken
  rw [hpos]
  simp only [opt_bind_some]
  rw [hskip]
  simp only [opt_bind_some]
  rw [hdrop2,
    tokenScan_stops _ s rest
      (fun c hc => ⟨(ht c hc).1, (ht c hc).2.1, (ht c hc).2.2.1⟩) hs,
    trimList_of_no_ws _ (fun c hc => (ht c hc).2.2.2)]
  rfl

theorem natDigits_token_facts (n : Nat) :
    ∀ c ∈ natToDec n, c ≠ ',' ∧ c ≠ rbraceChar ∧ c ≠ '\n' ∧ isWs c = false := by
  intro c hc
  have h := digit_char_facts c (natToDec_all_digits n c hc)
  exact ⟨h.2.1, h.2.2.1, h.2.2.2.1, h.2.2.2.2.2.2.2.2⟩

theorem parseJsonU64_at (raw k : List Char) (p : Nat) (n : Nat)
    (s : Char) (rest : List Char)
    (hpos : keyPosition raw k = some p)
    (hdrop : raw.drop p = natToDec n ++ s :: rest)
    (hn : n < 2 ^ 64)
    (hs : s = ',' ∨ s = rbraceChar ∨ s = '\n') :
    parseJsonU64 raw k = some n := by
  unfold parseJsonU64
  rw [parseJsonToken_at raw k p (natToDec n) s rest hpos hdrop
    (natToDec_ne_nil n) (natDigits_token_facts n) hs]
  simp only [opt_bind_some]
  exact parseU64_natToDec n hn

theorem parseJsonU64_space_at (raw k : List Char) (p : Nat) (n : Nat)
    (s : Char) (rest : List Char)
    (hpos : keyPosition raw k = some p)
    (hdrop : raw.drop p = ' ' :: (natToDec n ++ s :: rest))
    (hn : n < 2 ^ 64)
    (hs : s = ',' ∨ s = rbraceChar ∨ s = '\n') :
    parseJsonU64 raw k = some n := by
  unfold parseJsonU64
  rw [parseJsonToken_space_at raw k p (natToDec n) s rest hpos hdrop
    (natToDec_ne_nil n) (natDigits_token_facts n) hs]
  simp only [opt_bind_some]
  exact parseU64_natToDec n hn

theorem natToDec_ne_null (n : Nat) : natToDec n ≠ "null".data := by
  intro he
  have hmem : 'n' ∈ natToDec n := by rw [he]; decide
  have := natToDec_all_digits n 'n' hmem
  simp [isDigitChar] at this

theorem parseJsonOptU64_space_at (raw k : List Char) (p : Nat)
    (v : Option Nat) (s : Char) (rest : List Char)
    (hpos : keyPosition raw k = some p)
    (hdrop : raw.drop p = ' ' :: ((optionalU64ToJson v).data ++ s :: rest))
    (hv : ∀ n, v = some n → n < 2 ^ 64)
    (hs : s = ',' ∨ s = rbraceChar ∨ s = '\n') :
    parseJsonOptU64 raw k = some v := by
  cases v with
  | none =>
    have htok : parseJsonToken raw k = some "null".data := by
      exact parseJsonToken_space_at raw k p "null".data s rest hpos hdrop
        (by decide) (by decide) hs
    unfold parseJsonOptU64
    rw [htok]
    simp only [opt_bind_some]
    simp
  | some n =>
    have htok : parseJsonToken raw k = some (natToDec n) :=
      parseJsonToken_space_at raw k p (natToDec n) s rest hpos hdrop
        (natToDec_ne_nil n) (natDigits_token_facts n) hs
    unfold parseJsonOptU64
    rw [htok]
    simp only [opt_bind_some]
    rw [if_neg (natToDec_ne_null n), parseU64_natToDec n (hv n rfl)]
    rfl

/-! ## Pass-through of the array and object scanners -/

theorem jsonEscapeChar_pair_or_plain (c : Char) (hc : goodValChar c = true) :
    (∃ x, jsonEscapeChar c = [backslashChar, x]) ∨
    (c ≠ backslashChar ∧ c ≠ quoteChar ∧ jsonEscapeChar c = [c]) := by
  rcases jsonEscapeChar_shape c hc with ⟨_, he⟩ | ⟨_, he⟩ | ⟨_, he⟩ | ⟨_, he⟩ |
    ⟨g1, g2, he⟩
  · exact Or.inl ⟨backslashChar, he⟩
  · exact Or.inl ⟨'n', he⟩
  · exact Or.inl ⟨'r', he⟩
  · exact Or.inl ⟨'t', he⟩
  · exact Or.inr ⟨g1, g2, he⟩

theorem renderChunks_lit (l : List Char) (cs : List JChunk) :
    renderChunks (JChunk.lit l :: cs) = l ++ renderChunks cs := rfl

theorem renderChunks_str (w : List Char) (cs : List JChunk) :
    renderChunks (JChunk.str w :: cs) =
      quoteChar :: (w ++ quoteChar :: renderChunks cs) := rfl

theorem arrayScan_outside (d : Int) (c : Char) (X : List Char) (i : Nat) :
    arrayScanAux d false false (c :: X) i =
      (if c = quoteChar then arrayScanAux d true false X (i + 1)
       else if c = '[' then arrayScanAux (d + 1) false false X (i + 1)
       else if c = ']' then
         (if d - 1 = 0 then some i
          else arrayScanAux (d - 1) false false X (i + 1))
       else arrayScanAux d false false X (i + 1)) := rfl

theorem arrayScan_inside (d : Int) (c : Char) (X : List Char) (i : Nat) :
    arrayScanAux d true false (c :: X) i =
      (if c = backslashChar then arrayScanAux d true true X (i + 1)
       else if c = quoteChar then arrayScanAux d false false X (i + 1)
       else arrayScanAux d true false X (i + 1)) := rfl

theorem arrayScan_escaped (d : Int) (c : Char) (X : List Char) (i : Nat) :
    arrayScanAux d true true (c :: X) i =
      arrayScanAux d true false X (i + 1) := rfl

theorem arrayScanAux_instring (d : Int) : ∀ (v : List Char),
    v.all goodValChar = true → ∀ (rest : List Char) (i : Nat),
    arrayScanAux d true false (escList v ++ quoteChar :: rest) i =
      arrayScanAux d false false rest (i + ((escList v).length + 1)) := by
  intro v
  induction v with
  | nil =>
    intro _ rest i
    rw [show escList [] = [] from rfl, List.nil_append, arrayScan_inside,
      if_neg (by decide), if_pos rfl]
    rfl
  | cons a t ih =>
    intro hv rest i
    rw [List.all_cons, Bool.and_eq_true] at hv
    rw [show escList (a :: t) = jsonEscapeChar a ++ escList t from rfl]
    rcases jsonEscapeChar_pair_or_plain a hv.1 with ⟨x, he⟩ | ⟨h1, h2, he⟩
    · rw [he,
        show ([backslashChar, x] ++ escList t) ++ quoteChar :: rest =
          backslashChar :: (x :: (escList t ++ quoteChar :: rest)) from by simp,
        arrayScan_inside, if_pos rfl, arrayScan_escaped, ih hv.2]
      congr 1
      simp only [List.length_append, List.length_cons, List.length_nil]
      omega
    · rw [he,
        show ([a] ++ escList t) ++ quoteChar :: rest =
          a :: (escList t ++ quoteChar :: rest) from by simp,
        arrayScan_inside, if_neg h1, if_neg h2, ih hv.2]
      congr 1
      simp only [List.length_append, List.length_cons, List.length_nil]
      omega

theorem arrayScanAux_lit (d : Int) (l : List Char)
    (hl : ∀ c ∈ l, c ≠ quoteChar ∧ c ≠ '[' ∧ c ≠ ']') :
    ∀ (rest : List Char) (i : Nat),
    arrayScanAux d false false (l ++ rest) i =
      arrayScanAux d false false rest (i + l.length) := by
  induction l with
  | nil => intro rest i; rfl
  | cons c t ih =>
    intro rest i
    obtain ⟨h1, h2, h3⟩ := hl c (List.mem_cons_self c t)
    rw [List.cons_append, arrayScan_outside, if_neg h1, if_neg h2, if_neg h3,
      ih (fun x hx => hl x (List.mem_cons_of_mem c hx))]
    congr 1
    simp only [List.length_cons]
    omega

theorem arrayScanAux_chunks : ∀ (cs : List JChunk), chunksScanOk cs →
    ∀ (d : Int) (rest : List Char) (i : Nat),
    arrayScanAux d false false (renderChunks cs ++ rest) i =
      arrayScanAux d false false rest (i + (renderChunks cs).length) := by
  intro cs
  induction cs with
  | nil => intro _ d rest i; rfl
  | cons c cs ih =>
    intro h d rest i
    cases c with
    | lit l =>
      obtain ⟨h1, h2⟩ := h
      rw [renderChunks_lit, List.append_assoc, arrayScanAux_lit d l h1,
        ih h2]
      congr 1
      simp only [List.length_append]
      omega
    | str w =>
      obtain ⟨⟨v, rfl, hv⟩, h2⟩ := h
      rw [renderChunks_str,
        show (quoteChar :: (escList v ++ quoteChar :: renderChunks cs)) ++ rest =
          quoteChar :: (escList v ++ quoteChar :: (renderChunks cs ++ rest))
          from by simp,
        arrayScan_outside, if_pos rfl, arrayScanAux_instring d v hv, ih h2]
      congr 1
      simp only [List.length_append, List.length_cons]
      omega

theorem parseJsonArray_space_at (raw k : List Char) (p : Nat)
    (cs : List JChunk) (rest : List Char)
    (hpos : keyPosition raw k = some p)
    (hdrop : raw.drop p = ' ' :: '[' :: (renderChunks cs ++ ']' :: rest))
    (hok : chunksScanOk cs) :
    parseJsonArray raw k = some ('[' :: (renderChunks cs ++ [']'])) := by
  have hskip := skipWs_space raw p '[' _ hdrop (by decide)
  have hdrop2 : raw.drop (p + 1) = '[' :: (renderChunks cs ++ ']' :: rest) :=
    drop_succ_of_drop_cons raw p ' ' _ hdrop
  have hscan : arrayScanAux 0 false false
      ('[' :: (renderChunks cs ++ ']' :: rest)) 0 =
      some (0 + 1 + (renderChunks cs).length) := by
    rw [arrayScan_outside, if_neg (by decide), if_pos rfl,
      arrayScanAux_chunks cs hok _ _ _,
      arrayScan_outside, if_neg (by decide), if_neg (by decide), if_pos rfl,
      if_pos (by decide)]
  have htake : ('[' :: (renderChunks cs ++ ']' :: rest)).take
      (0 + 1 + (renderChunks cs).length + 1) =
      '[' :: (renderChunks cs ++ [']']) := by
    rw [show 0 + 1 + (renderChunks cs).length + 1 =
      ((renderChunks cs).length + 1) + 1 from by omega,
      List.take_succ_cons, take_len_append (renderChunks cs) (']' :: rest) 1]
    rfl
  unfold parseJsonArray
  rw [hpos]
  simp only [opt_bind_some]
  rw [hskip]
  simp only [opt_bind_some]
  rw [hdrop2]
  have hc : ('[' :: (renderChunks cs ++ ']' :: rest)).head? = some '[' := rfl
  rw [if_pos hc, hscan]
  show some (('[' :: (renderChunks cs ++ ']' :: rest)).take
    (0 + 1 + (renderChunks cs).length + 1)) = _
  rw [htake]

theorem extractPush_one (acc : List Char) (c : Char) :
    extractPush 1 acc c = acc ++ [c] := by
  unfold extractPush
  rw [if_pos (by decide : (0 : Int) < 1)]

theorem extractPush_zero (acc : List Char) (c : Char) :
    extractPush 0 acc c = acc := by
  unfold extractPush
  rw [if_neg (by decide : ¬(0 : Int) < 0)]

theorem extractObj_outside (depth : Int) (c : Char) (acc X : List Char) :
    extractObjectsAux depth false false acc (c :: X) =
      (if c = quoteChar then
        extractObjectsAux depth true false (extractPush depth acc c) X
       else if c = lbraceChar then
        extractObjectsAux (depth + 1) false false (acc ++ [c]) X
       else if c = rbraceChar then
         (if 0 < depth then
            (if depth = 1 then
              (acc ++ [c]) :: extractObjectsAux 0 false false [] X
             else extractObjectsAux (depth - 1) false false (acc ++ [c]) X)
          else extractObjectsAux depth false false acc X)
       else extractObjectsAux depth false false (extractPush depth acc c) X) :=
  rfl

theorem extractObj_inside (depth : Int) (c : Char) (acc X : List Char) :
    extractObjectsAux depth true false acc (c :: X) =
      (if c = backslashChar then
        extractObjectsAux depth true true (extractPush depth acc c) X
       else if c = quoteChar then
        extractObjectsAux depth false false (extractPush depth acc c) X
       else extractObjectsAux depth true false (extractPush depth acc c) X) :=
  rfl

theorem extractObj_escaped (depth : Int) (c : Char) (acc X : List Char) :
    extractObjectsAux depth true true acc (c :: X) =
      extractObjectsAux depth true false (extractPush depth acc c) X := rfl

theorem extractObj_instring : ∀ (v : List Char), v.all goodValChar = true →
    ∀ (acc rest : List Char),
    extractObjectsAux 1 true false acc (escList v ++ quoteChar :: rest) =
      extractObjectsAux 1 false false (acc ++ (escList v ++ [quoteChar])) rest := by
  intro v
  induction v with
  | nil =>
    intro _ acc rest
    rw [show escList [] = [] from rfl, List.nil_append, extractObj_inside,
      if_neg (by decide), if_pos rfl, extractPush_one]
    congr 1
  | cons a t ih =>
    intro hv acc rest
    rw [List.all_cons, Bool.and_eq_true] at hv
    rw [show escList (a :: t) = jsonEscapeChar a ++ escList t from rfl]
    rcases jsonEscapeChar_pair_or_plain a hv.1 with ⟨x, he⟩ | ⟨h1, h2, he⟩
    · rw [he,
        show ([backslashChar, x] ++ escList t) ++ quoteChar :: rest =
          backslashChar :: (x :: (escList t ++ quoteChar :: rest)) from by simp,
        extractObj_inside, if_pos rfl, extractPush_one, extractObj_escaped,
        extractPush_one, ih hv.2]
      congr 1
      simp
    · rw [he,
        show ([a] ++ escList t) ++ quoteChar :: rest =
          a :: (escList t ++ quoteChar :: rest) from by simp,
        extractObj_inside, if_neg h1, if_neg h2, extractPush_one, ih hv.2]
      congr 1
      simp

theorem extractObj_strchunk (w : List Char)
    (hw : ∃ v, w = escList v ∧ v.all goodValChar = true)
    (acc rest : List Char) :
    extractObjectsAux 1 false false acc
      (quoteChar :: (w ++ quoteChar :: rest)) =
      extractObjectsAux 1 false false
        (acc ++ quoteChar :: (w ++ [quoteChar])) rest := by
  obtain ⟨v, rfl, hv⟩ := hw
  rw [extractObj_outside, if_pos rfl, extractPush_one,
    extractObj_instring v hv]
  congr 1
  simp

theorem extractObj_lit : ∀ (l : List Char),
    (∀ c ∈ l, c ≠ quoteChar ∧ c ≠ lbraceChar ∧ c ≠ rbraceChar) →
    ∀ (acc rest : List Char),
    extractObjectsAux 1 false false acc (l ++ rest) =
      extractObjectsAux 1 false false (acc ++ l) rest := by
  intro l
  induction l with
  | nil => intro _ acc rest; simp
  | cons c t ih =>
    intro hl acc rest
    obtain ⟨h1, h2, h3⟩ := hl c (List.mem_cons_self c t)
    rw [List.cons_append, extractObj_outside, if_neg h1, if_neg h2, if_neg h3,
      extractPush_one, ih (fun x hx => hl x (List.mem_cons_of_mem c hx))]
    congr 1
    simp

theorem extractObj_mid : ∀ (cs : List JChunk), objMidOk cs →
    ∀ (acc rest : List Char),
    extractObjectsAux 1 false false acc (renderChunks cs ++ rest) =
      extractObjectsAux 1 false false (acc ++ renderChunks cs) rest := by
  intro cs
  induction cs with
  | nil =>
    intro _ acc rest
    rw [show renderChunks [] = [] from rfl, List.nil_append, List.append_nil]
  | cons c cs ih =>
    intro h acc rest
    cases c with
    | lit l =>
      obtain ⟨h1, h2⟩ := h
      rw [renderChunks_lit, List.append_assoc, extractObj_lit l h1, ih h2]
      congr 1
      simp
    | str w =>
      obtain ⟨hw, h2⟩ := h
      rw [renderChunks_str,
        show (quoteChar :: (w ++ quoteChar :: renderChunks cs)) ++ rest =
          quoteChar :: (w ++ quoteChar :: (renderChunks cs ++ rest))
          from by simp,
        extractObj_strchunk w hw, ih h2]
      congr 1
      simp

theorem objChunks_split (r : ProbeResult) :
    objChunks r = JChunk.lit [lbraceChar] :: (objMid r ++
      [JChunk.lit (':' :: natToDec r.durationMs ++ [rbraceChar])]) := rfl

theorem objMidOk_objMid (r : ProbeResult)
    (hrn : r.name.data.all goodValChar = true)
    (hro : r.output.data.all goodValChar = true) :
    objMidOk (objMid r) := by
  refine ⟨⟨"name".data, by decide, by decide⟩, by decide,
    ⟨r.name.data, rfl, hrn⟩, by decide,
    ⟨"passed".data, by decide, by decide⟩, ?_,
    ⟨"output".data, by decide, by decide⟩, by decide,
    ⟨r.output.data, rfl, hro⟩, by decide,
    ⟨"duration_ms".data, by decide, by decide⟩, trivial⟩
  cases r.passed <;> decide

theorem extractObj_object (r : ProbeResult)
    (hrn : r.name.data.all goodValChar = true)
    (hro : r.output.data.all goodValChar = true) (rest : List Char) :
    extractObjectsAux 0 false false [] (renderChunks (objChunks r) ++ rest) =
      renderChunks (objChunks r) :: extractObjectsAux 0 false false [] rest := by
  have hmid := objMidOk_objMid r hrn hro
  have hdl : ∀ c ∈ ':' :: natToDec r.durationMs,
      c ≠ quoteChar ∧ c ≠ lbraceChar ∧ c ≠ rbraceChar := by
    intro c hc
    rcases List.mem_cons.1 hc with rfl | hc2
    · exact ⟨by decide, by decide, by decide⟩
    · have h := digit_char_facts c (natToDec_all_digits _ c hc2)
      exact ⟨h.1, h.2.2.2.2.2.2.1, h.2.2.1⟩
  have hshape : renderChunks (objChunks r) =
      lbraceChar :: (renderChunks (objMid r) ++
        ((':' :: natToDec r.durationMs) ++ [rbraceChar])) := by
    rw [objChunks_split, renderChunks_lit, renderChunks_append,
      renderChunks_lit]
    simp [renderChunks]
  rw [hshape, List.cons_append, extractObj_outside, if_neg (by decide),
    if_pos rfl, show ((0 : Int) + 1) = 1 from by decide,
    show ([] : List Char) ++ [lbraceChar] = [lbraceChar] from rfl,
    List.append_assoc, extractObj_mid (objMid r) hmid,
    show ((':' :: natToDec r.durationMs) ++ [rbraceChar]) ++ rest =
      (':' :: natToDec r.durationMs) ++ (rbraceChar :: rest) from by simp,
    extractObj_lit (':' :: natToDec r.durationMs) hdl,
    extractObj_outside, if_neg (by decide), if_neg (by decide), if_pos rfl,
    if_pos (by decide : (0 : Int) < 1), if_pos rfl]
  congr 1
  simp

theorem extract_results_aux : ∀ (rs : List ProbeResult),
    (∀ r ∈ rs, r.name.data.all goodValChar = true ∧
      r.output.data.all goodValChar = true) →
    extractObjectsAux 0 false false []
      (renderChunks (resultsChunks rs) ++ [']']) =
      rs.map (fun r => renderChunks (objChunks r)) := by
  intro rs
  induction rs with
  | nil =>
    intro _
    rw [show renderChunks (resultsChunks []) = [] from rfl, List.nil_append,
      extractObj_outside, if_neg (by decide), if_neg (by decide),
      if_neg (by decide), extractPush_zero]
    rfl
  | cons r rs ih =>
    intro h
    have hr := h r (List.mem_cons_self r rs)
    cases rs with
    | nil =>
      rw [show resultsChunks [r] = objChunks r from rfl,
        extractObj_object r hr.1 hr.2, extractObj_outside,
        if_neg (by decide), if_neg (by decide), if_neg (by decide),
        extractPush_zero]
      rfl
    | cons r2 rs2 =>
      rw [show resultsChunks (r :: r2 :: rs2) =
          objChunks r ++ (JChunk.lit [','] :: resultsChunks (r2 :: rs2))
          from rfl,
        renderChunks_append, List.append_assoc,
        extractObj_object r hr.1 hr.2, renderChunks_lit,
        show ([','] ++ renderChunks (resultsChunks (r2 :: rs2))) ++ [']'] =
          ',' :: (renderChunks (resultsChunks (r2 :: rs2)) ++ [']'])
          from by simp,
        extractObj_outside, if_neg (by decide), if_neg (by decide),
        if_neg (by decide), extractPush_zero,
        ih (fun x hx => h x (List.mem_cons_of_mem r hx))]
      rfl

theorem extractTopLevelObjects_slice (rs : List ProbeResult)
    (hrs : ∀ r ∈ rs, r.name.data.all goodValChar = true ∧
      r.output.data.all goodValChar = true) :
    extractTopLevelObjects ('[' :: (renderChunks (resultsChunks rs) ++ [']'])) =
      rs.map (fun r => renderChunks (objChunks r)) := by
  unfold extractTopLevelObjects
  rw [extractObj_outside, if_neg (by decide), if_neg (by decide),
    if_neg (by decide), extractPush_zero]
  exact extract_results_aux rs hrs

/-! ## The serializer output as rendered chunks -/

theorem mk_data (l : List Char) : (String.mk l).data = l := rfl

theorem boolJson_data (b : Bool) : (boolJson b).data = boolChars b := by
  cases b <;> decide

theorem probeResultToJsonInner_chunks (r : ProbeResult) :
    (probeResultToJsonInner r).data = renderChunks (objChunks r) := by
  have ee1 : "\x7b\"name\":\"".data =
      [lbraceChar] ++ [quoteChar] ++ "name".data ++ [quoteChar] ++ [':'] ++
        [quoteChar] := by decide
  have ee2 : "\",\"passed\":".data =
      [quoteChar] ++ [','] ++ [quoteChar] ++ "passed".data ++ [quoteChar] ++
        [':'] := by decide
  have ee3 : ",\"output\":\"".data =
      [','] ++ [quoteChar] ++ "output".data ++ [quoteChar] ++ [':'] ++
        [quoteChar] := by decide
  have ee4 : "\",\"duration_ms\":".data =
      [quoteChar] ++ [','] ++ [quoteChar] ++ "duration_ms".data ++
        [quoteChar] ++ [':'] := by decide
  have ee5 : "\x7d".data = [rbraceChar] := by decide
  simp only [probeResultToJsonInner, objChunks, renderChunks, strApp_data,
    jsonEscape, natToDecStr, mk_data, boolJson_data, ee1, ee2, ee3, ee4, ee5]
  simp
  decide

theorem joinSep_comma_results : ∀ (rs : List ProbeResult),
    (joinSep "," (rs.map probeResultToJsonInner)).data =
      renderChunks (resultsChunks rs) := by
  intro rs
  induction rs with
  | nil => rfl
  | cons r rs ih =>
    cases rs with
    | nil =>
      show (probeResultToJsonInner r).data = renderChunks (resultsChunks [r])
      rw [show resultsChunks [r] = objChunks r from rfl]
      exact probeResultToJsonInner_chunks r
    | cons r2 rs2 =>
      show (probeResultToJsonInner r ++ "," ++
        joinSep "," ((r2 :: rs2).map probeResultToJsonInner)).data = _
      rw [show resultsChunks (r :: r2 :: rs2) =
          objChunks r ++ (JChunk.lit [','] :: resultsChunks (r2 :: rs2))
          from rfl,
        renderChunks_append, renderChunks_lit, strApp_data, strApp_data,
        probeResultToJsonInner_chunks, ih]
      simp

theorem probeResultsToJson_chunks (rs : List ProbeResult) :
    (probeResultsToJson rs).data =
      '[' :: (renderChunks (resultsChunks rs) ++ [']']) := by
  show ("[" ++ joinSep "," (rs.map probeResultToJsonInner) ++ "]").data = _
  rw [strApp_data, strApp_data, joinSep_comma_results]
  simp

set_option maxRecDepth 4000 in
theorem stateToJson_chunks (s : PersistentState) :
    (stateToJson s).data = renderChunks (topChunks s) := by
  have eA : "\x7b\n  \"current_state\": \"".data =
      "\x7b\n  ".data ++ [quoteChar] ++ "current_state".data ++ [quoteChar] ++
        [':', ' '] ++ [quoteChar] := by decide
  have eB : "\",\n  \"consecutive_failures\": ".data =
      [quoteChar] ++ ",\n  ".data ++ [quoteChar] ++
        "consecutive_failures".data ++ [quoteChar] ++ [':', ' '] := by decide
  have eC : ",\n  \"last_heal_time\": ".data =
      ",\n  ".data ++ [quoteChar] ++ "last_heal_time".data ++ [quoteChar] ++
        [':', ' '] := by decide
  have eD : ",\n  \"last_agent_time\": ".data =
      ",\n  ".data ++ [quoteChar] ++ "last_agent_time".data ++ [quoteChar] ++
        [':', ' '] := by decide
  have eE : ",\n  \"last_sos_time\": ".data =
      ",\n  ".data ++ [quoteChar] ++ "last_sos_time".data ++ [quoteChar] ++
        [':', ' '] := by decide
  have eF : ",\n  \"last_probe_results\": ".data =
      ",\n  ".data ++ [quoteChar] ++ "last_probe_results".data ++
        [quoteChar] ++ [':', ' '] := by decide
  have eG : ",\n  \"worker_restarts\": ".data =
      ",\n  ".data ++ [quoteChar] ++ "worker_restarts".data ++ [quoteChar] ++
        [':', ' '] := by decide
  simp only [stateToJson, topChunks, strApp_data, jsonEscape, natToDecStr,
    mk_data, probeResultsToJson_chunks, renderChunks_append, renderChunks,
    eA, eB, eC, eD, eE, eF, eG]
  simp [renderChunks_append, renderChunks]
  decide

/-! ## No-spurious-occurrence conditions for the concrete documents -/

theorem str_eta (s : String) : (⟨s.data⟩ : String) = s := rfl

theorem no_quote_append (l1 l2 : List Char) (h1 : ∀ c ∈ l1, c ≠ quoteChar)
    (h2 : ∀ c ∈ l2, c ≠ quoteChar) : ∀ c ∈ l1 ++ l2, c ≠ quoteChar := by
  intro c hc
  rcases List.mem_append.1 hc with hc2 | hc2
  · exact h1 c hc2
  · exact h2 c hc2

theorem no_quote_cons (a : Char) (l : List Char) (ha : a ≠ quoteChar)
    (h : ∀ c ∈ l, c ≠ quoteChar) : ∀ c ∈ a :: l, c ≠ quoteChar := by
  intro c hc
  rcases List.mem_cons.1 hc with rfl | hc2
  · exact ha
  · exact h c hc2

theorem no_quote_natToDec (n : Nat) : ∀ c ∈ natToDec n, c ≠ quoteChar :=
  fun c hc => (digit_char_facts c (natToDec_all_digits n c hc)).1

theorem no_quote_optU64 (v : Option Nat) :
    ∀ c ∈ (optionalU64ToJson v).data, c ≠ quoteChar := by
  cases v with
  | none => decide
  | some n => exact no_quote_natToDec n

theorem escList_ne_goodKey (v k : List Char) (hk : goodKey k)
    (hmem : (⟨v⟩ : String) ∉ jsonKeyNames) : escList v ≠ k := by
  intro he
  have hvk := escList_eq_plain v k
    (fun c hc => ⟨(hk.2.2 c hc).2.1, (hk.2.2 c hc).2.2.1⟩) he
  rw [hvk] at hmem
  exact hmem hk.2.1

theorem keyQuote_not_prefix (k : List Char) (hk : goodKey k) (x : Char)
    (hx : x = ':' ∨ x = ',') (rest : List Char) :
    (k ++ [quoteChar]).isPrefixOf (x :: rest) = false := by
  obtain ⟨a, t, rfl⟩ : ∃ a t, k = a :: t := by
    cases k with
    | nil => exact absurd rfl hk.1
    | cons a t => exact ⟨a, t, rfl⟩
  rw [List.cons_append]
  refine isPrefixOf_head_ne a x _ _ ?_
  have h5 := hk.2.2 a (List.mem_cons_self a t)
  rcases hx with rfl | rfl
  · exact h5.2.2.2.1
  · exact h5.2.2.2.2

theorem keyQuote_not_prefix2 (k : List Char) (hk : goodKey k) (x : Char)
    (hx : x = ':' ∨ x = ',') (l : List Char) (hhead : l.head? = some x) :
    (k ++ [quoteChar]).isPrefixOf l = false := by
  cases l with
  | nil => cases hhead
  | cons c rest =>
    have hcx : c = x := by
      have hh : some c = some x := hhead
      injection hh
    cases hcx
    exact keyQuote_not_prefix k hk x hx rest

theorem boolChars_roundtrip (b : Bool) :
    (trimList (boolChars b) == "true".data) = b := by
  cases b <;> decide

theorem boolChars_roundtrip2 (b : Bool) :
    (trimList (boolChars b) == ['t', 'r', 'u', 'e']) = b := by
  cases b <;> decide

theorem boolChars_token_facts (b : Bool) :
    ∀ c ∈ boolChars b, c ≠ ',' ∧ c ≠ rbraceChar ∧ c ≠ '\n' ∧ isWs c = false := by
  cases b <;> decide

theorem boolChars_ne_nil (b : Bool) : boolChars b ≠ [] := by
  cases b <;> decide

theorem chunksOk_objChunks (k : List Char) (hk : goodKey k)
    (h1 : "name".data ≠ k) (h2 : "passed".data ≠ k)
    (h3 : "output".data ≠ k) (h4 : "duration_ms".data ≠ k)
    (r : ProbeResult) (hrn : safeVal r.name) (hro : safeVal r.output)
    (b : List Char) : chunksOk k (objChunks r) b := by
  have hname : (⟨r.name.data⟩ : String) ∉ jsonKeyNames := by
    rw [str_eta]; exact hrn.2
  have hout : (⟨r.output.data⟩ : String) ∉ jsonKeyNames := by
    rw [str_eta]; exact hro.2
  have hdig : ∀ c ∈ ':' :: natToDec r.durationMs ++ [rbraceChar],
      c ≠ quoteChar :=
    no_quote_append _ _
      (no_quote_cons ':' _ (by decide) (no_quote_natToDec r.durationMs))
      (by decide)
  have hbool : ∀ c ∈ ':' :: boolChars r.passed ++ [','], c ≠ quoteChar := by
    cases r.passed <;> decide
  refine ⟨by decide,
    by decide, h1, keyQuote_not_prefix2 k hk ':' (Or.inl rfl) _ (by rfl),
    by decide,
    escList_no_quote r.name.data hrn.1,
    escList_ne_goodKey r.name.data k hk hname,
    keyQuote_not_prefix2 k hk ',' (Or.inr rfl) _ (by rfl),
    by decide,
    by decide, h2, keyQuote_not_prefix2 k hk ':' (Or.inl rfl) _ (by rfl),
    hbool,
    by decide, h3, keyQuote_not_prefix2 k hk ':' (Or.inl rfl) _ (by rfl),
    by decide,
    escList_no_quote r.output.data hro.1,
    escList_ne_goodKey r.output.data k hk hout,
    keyQuote_not_prefix2 k hk ',' (Or.inr rfl) _ (by rfl),
    by decide,
    by decide, h4, keyQuote_not_prefix2 k hk ':' (Or.inl rfl) _ (by rfl),
    hdig, trivial⟩

theorem chunksOk_resultsChunks (k : List Char) (hk : goodKey k)
    (h1 : "name".data ≠ k) (h2 : "passed".data ≠ k)
    (h3 : "output".data ≠ k) (h4 : "duration_ms".data ≠ k) :
    ∀ (rs : List ProbeResult),
    (∀ r ∈ rs, safeVal r.name ∧ safeVal r.output) →
    ∀ (b : List Char), chunksOk k (resultsChunks rs) b := by
  intro rs
  induction rs with
  | nil => intro _ b; exact trivial
  | cons r rs ih =>
    intro h b
    have hr := h r (List.mem_cons_self r rs)
    cases rs with
    | nil => exact chunksOk_objChunks k hk h1 h2 h3 h4 r hr.1 hr.2 b
    | cons r2 rs2 =>
      rw [show resultsChunks (r :: r2 :: rs2) =
        objChunks r ++ (JChunk.lit [','] :: resultsChunks (r2 :: rs2))
        from rfl]
      refine chunksOk_append k _ _ b
        (chunksOk_objChunks k hk h1 h2 h3 h4 r hr.1 hr.2 _) ?_
      exact ⟨by decide, ih (fun x hx => h x (List.mem_cons_of_mem r hx)) b⟩

/-! ## Parsing one serialized object back -/

theorem parseProbeResultObject_render (r : ProbeResult)
    (hrn : safeVal r.name) (hro : safeVal r.output)
    (hdm : r.durationMs < 2 ^ 64) :
    parseProbeResultObject (renderChunks (objChunks r)) = some r := by
  have hk1 := keyPosition_render "name".data (by decide)
    [JChunk.lit [lbraceChar]]
    [JChunk.str (escList r.name.data), JChunk.lit [','],
     JChunk.str "passed".data,
     JChunk.lit (':' :: boolChars r.passed ++ [',']),
     JChunk.str "output".data, JChunk.lit [':'],
     JChunk.str (escList r.output.data), JChunk.lit [','],
     JChunk.str "duration_ms".data,
     JChunk.lit (':' :: natToDec r.durationMs ++ [rbraceChar])]
    [] ⟨by decide, trivial⟩
  have hname : parseJsonString (renderChunks (objChunks r)) "name".data =
      some r.name.data := by
    refine parseJsonString_at _ _
      ((renderChunks [JChunk.lit [lbraceChar]]).length +
        ("name".data.length + 3)) r.name.data
      (renderChunks [JChunk.lit [','], JChunk.str "passed".data,
        JChunk.lit (':' :: boolChars r.passed ++ [',']),
        JChunk.str "output".data, JChunk.lit [':'],
        JChunk.str (escList r.output.data), JChunk.lit [','],
        JChunk.str "duration_ms".data,
        JChunk.lit (':' :: natToDec r.durationMs ++ [rbraceChar])])
      ?_ ?_ hrn.1
    · exact hk1.1
    · exact hk1.2
  have hbool7 : ∀ c ∈ ':' :: boolChars r.passed ++ [','], c ≠ quoteChar := by
    cases r.passed <;> decide
  have hk2 := keyPosition_render "passed".data (by decide)
    [JChunk.lit [lbraceChar], JChunk.str "name".data, JChunk.lit [':'],
     JChunk.str (escList r.name.data), JChunk.lit [',']]
    [JChunk.str "output".data, JChunk.lit [':'],
     JChunk.str (escList r.output.data), JChunk.lit [','],
     JChunk.str "duration_ms".data,
     JChunk.lit (':' :: natToDec r.durationMs ++ [rbraceChar])]
    (boolChars r.passed ++ [','])
    ⟨by decide,
     by decide, by decide,
     keyQuote_not_prefix2 _ ⟨by decide, by decide, by decide⟩ ':' (Or.inl rfl) _ (by rfl),
     by decide,
     escList_no_quote r.name.data hrn.1,
     escList_ne_goodKey r.name.data _ ⟨by decide, by decide, by decide⟩
       (by rw [str_eta]; exact hrn.2),
     keyQuote_not_prefix2 _ ⟨by decide, by decide, by decide⟩ ',' (Or.inr rfl) _ (by rfl),
     by decide, trivial⟩
  have hk2a : keyPosition (renderChunks (objChunks r)) "passed".data =
      some ((renderChunks [JChunk.lit [lbraceChar], JChunk.str "name".data,
        JChunk.lit [':'], JChunk.str (escList r.name.data),
        JChunk.lit [',']]).length + ("passed".data.length + 3)) := hk2.1
  have hk2b : (renderChunks (objChunks r)).drop
      ((renderChunks [JChunk.lit [lbraceChar], JChunk.str "name".data,
        JChunk.lit [':'], JChunk.str (escList r.name.data),
        JChunk.lit [',']]).length + ("passed".data.length + 3)) =
      (boolChars r.passed ++ [',']) ++
        renderChunks [JChunk.str "output".data, JChunk.lit [':'],
          JChunk.str (escList r.output.data), JChunk.lit [','],
          JChunk.str "duration_ms".data,
          JChunk.lit (':' :: natToDec r.durationMs ++ [rbraceChar])] := hk2.2
  have hpassed : parseJsonToken (renderChunks (objChunks r)) "passed".data =
      some (boolChars r.passed) := by
    refine parseJsonToken_at _ _ _ (boolChars r.passed) ','
      (renderChunks [JChunk.str "output".data, JChunk.lit [':'],
        JChunk.str (escList r.output.data), JChunk.lit [','],
        JChunk.str "duration_ms".data,
        JChunk.lit (':' :: natToDec r.durationMs ++ [rbraceChar])])
      hk2a ?_
      (boolChars_ne_nil r.passed) (boolChars_token_facts r.passed)
      (Or.inl rfl)
    rw [hk2b]
    simp
  have hk3 := keyPosition_render "output".data (by decide)
    [JChunk.lit [lbraceChar], JChunk.str "name".data, JChunk.lit [':'],
     JChunk.str (escList r.name.data), JChunk.lit [','],
     JChunk.str "passed".data,
     JChunk.lit (':' :: boolChars r.passed ++ [','])]
    [JChunk.str (escList r.output.data), JChunk.lit [','],
     JChunk.str "duration_ms".data,
     JChunk.lit (':' :: natToDec r.durationMs ++ [rbraceChar])]
    [] ⟨by decide,
     by decide, by decide,
     keyQuote_not_prefix2 _ ⟨by decide, by decide, by decide⟩ ':' (Or.inl rfl) _ (by rfl),
     by decide,
     escList_no_quote r.name.data hrn.1,
     escList_ne_goodKey r.name.data _ ⟨by decide, by decide, by decide⟩
       (by rw [str_eta]; exact hrn.2),
     keyQuote_not_prefix2 _ ⟨by decide, by decide, by decide⟩ ',' (Or.inr rfl) _ (by rfl),
     by decide,
     by decide, by decide,
     keyQuote_not_prefix2 _ ⟨by decide, by decide, by decide⟩ ':' (Or.inl rfl) _ (by rfl),
     hbool7, trivial⟩
  have hout : parseJsonString (renderChunks (objChunks r)) "output".data =
      some r.output.data := by
    refine parseJsonString_at _ _
      ((renderChunks [JChunk.lit [lbraceChar], JChunk.str "name".data,
        JChunk.lit [':'], JChunk.str (escList r.name.data),
        JChunk.lit [','], JChunk.str "passed".data,
        JChunk.lit (':' :: boolChars r.passed ++ [','])]).length +
        ("output".data.length + 3)) r.output.data
      (renderChunks [JChunk.lit [','], JChunk.str "duration_ms".data,
        JChunk.lit (':' :: natToDec r.durationMs ++ [rbraceChar])])
      ?_ ?_ hro.1
    · exact hk3.1
    · exact hk3.2
  have hk4 := keyPosition_render "duration_ms".data (by decide)
    [JChunk.lit [lbraceChar], JChunk.str "name".data, JChunk.lit [':'],
     JChunk.str (escList r.name.data), JChunk.lit [','],
     JChunk.str "passed".data,
     JChunk.lit (':' :: boolChars r.passed ++ [',']),
     JChunk.str "output".data, JChunk.lit [':'],
     JChunk.str (escList r.output.data), JChunk.lit [',']]
    []
    (natToDec r.durationMs ++ [rbraceChar])
    ⟨by decide,
     by decide, by decide,
     keyQuote_not_prefix2 _ ⟨by decide, by decide, by decide⟩ ':' (Or.inl rfl) _ (by rfl),
     by decide,
     escList_no_quote r.name.data hrn.1,
     escList_ne_goodKey r.name.data _ ⟨by decide, by decide, by decide⟩
       (by rw [str_eta]; exact hrn.2),
     keyQuote_not_prefix2 _ ⟨by decide, by decide, by decide⟩ ',' (Or.inr rfl) _ (by rfl),
     by decide,
     by decide, by decide,
     keyQuote_not_prefix2 _ ⟨by decide, by decide, by decide⟩ ':' (Or.inl rfl) _ (by rfl),
     hbool7,
     by decide, by decide,
     keyQuote_not_prefix2 _ ⟨by decide, by decide, by decide⟩ ':' (Or.inl rfl) _ (by rfl),
     by decide,
     escList_no_quote r.output.data hro.1,
     escList_ne_goodKey r.output.data _ ⟨by decide, by decide, by decide⟩
       (by rw [str_eta]; exact hro.2),
     keyQuote_not_prefix2 _ ⟨by decide, by decide, by decide⟩ ',' (Or.inr rfl) _ (by rfl),
     by decide, trivial⟩
  have hk4a : keyPosition (renderChunks (objChunks r)) "duration_ms".data =
      some ((renderChunks [JChunk.lit [lbraceChar], JChunk.str "name".data,
        JChunk.lit [':'], JChunk.str (escList r.name.data),
        JChunk.lit [','], JChunk.str "passed".data,
        JChunk.lit (':' :: boolChars r.passed ++ [',']),
        JChunk.str "output".data, JChunk.lit [':'],
        JChunk.str (escList r.output.data), JChunk.lit [',']]).length +
        ("duration_ms".data.length + 3)) := hk4.1
  have hk4b : (renderChunks (objChunks r)).drop
      ((renderChunks [JChunk.lit [lbraceChar], JChunk.str "name".data,
        JChunk.lit [':'], JChunk.str (escList r.name.data),
        JChunk.lit [','], JChunk.str "passed".data,
        JChunk.lit (':' :: boolChars r.passed ++ [',']),
        JChunk.str "output".data, JChunk.lit [':'],
        JChunk.str (escList r.output.data), JChunk.lit [',']]).length +
        ("duration_ms".data.length + 3)) =
      (natToDec r.durationMs ++ [rbraceChar]) ++ renderChunks [] := hk4.2
  have hdur : parseJsonU64 (renderChunks (objChunks r)) "duration_ms".data =
      some r.durationMs := by
    refine parseJsonU64_at _ _ _ r.durationMs rbraceChar [] hk4a ?_ hdm
      (Or.inr (Or.inl rfl))
    rw [hk4b]
    simp [renderChunks]
  unfold parseProbeResultObject
  rw [hname]
  simp only [opt_bind_some]
  rw [hout, hdur, hpassed]
  simp only [Option.map_some', Option.getD_some, boolChars_roundtrip,
    boolChars_roundtrip2, str_eta]

theorem filterMap_parse (rs : List ProbeResult)
    (hrs : ∀ r ∈ rs, safeVal r.name ∧ safeVal r.output ∧
      r.durationMs < 2 ^ 64) :
    (rs.map (fun r => renderChunks (objChunks r))).filterMap
      parseProbeResultObject = rs := by
  induction rs with
  | nil => rfl
  | cons r rs ih =>
    have hr := hrs r (List.mem_cons_self r rs)
    rw [List.map_cons,
      List.filterMap_cons_some
        (parseProbeResultObject_render r hr.1 hr.2.1 hr.2.2),
      ih (fun x hx => hrs x (List.mem_cons_of_mem r hx))]

theorem parseProbeResultsJson_slice (rs : List ProbeResult)
    (hrs : ∀ r ∈ rs, safeVal r.name ∧ safeVal r.output ∧
      r.durationMs < 2 ^ 64) :
    parseProbeResultsJson
      ('[' :: (renderChunks (resultsChunks rs) ++ [']'])) = rs := by
  unfold parseProbeResultsJson
  rw [extractTopLevelObjects_slice rs
    (fun r hr => ⟨(hrs r hr).1.1, (hrs r hr).2.1.1⟩)]
  exact filterMap_parse rs hrs

/-! ## Scan conditions for the serialized results array -/

theorem chunksScanOk_append : ∀ xs ys : List JChunk,
    chunksScanOk xs → chunksScanOk ys → chunksScanOk (xs ++ ys) := by
  intro xs
  induction xs with
  | nil => intro ys _ hy; exact hy
  | cons c cs ih =>
    intro ys hx hy
    cases c with
    | lit l =>
      obtain ⟨h1, h2⟩ := hx
      exact ⟨h1, ih ys h2 hy⟩
    | str w =>
      obtain ⟨h1, h2⟩ := hx
      exact ⟨h1, ih ys h2 hy⟩

theorem chunksScanOk_objChunks (r : ProbeResult)
    (hn : r.name.data.all goodValChar = true)
    (ho : r.output.data.all goodValChar = true) :
    chunksScanOk (objChunks r) := by
  have hbool : ∀ c ∈ ':' :: boolChars r.passed ++ [','],
      c ≠ quoteChar ∧ c ≠ '[' ∧ c ≠ ']' := by
    cases r.passed <;> decide
  have hdig : ∀ c ∈ ':' :: natToDec r.durationMs ++ [rbraceChar],
      c ≠ quoteChar ∧ c ≠ '[' ∧ c ≠ ']' := by
    intro c hc
    rcases List.mem_cons.1 hc with rfl | hc2
    · exact ⟨by decide, by decide, by decide⟩
    · rcases List.mem_append.1 hc2 with hc3 | hc3
      · have h := digit_char_facts c (natToDec_all_digits _ c hc3)
        exact ⟨h.1, h.2.2.2.2.1, h.2.2.2.2.2.1⟩
      · rcases List.mem_cons.1 hc3 with rfl | hc4
        · exact ⟨by decide, by decide, by decide⟩
        · cases hc4
  exact ⟨by decide, ⟨"name".data, by decide, by decide⟩, by decide,
    ⟨r.name.data, rfl, hn⟩, by decide,
    ⟨"passed".data, by decide, by decide⟩, hbool,
    ⟨"output".data, by decide, by decide⟩, by decide,
    ⟨r.output.data, rfl, ho⟩, by decide,
    ⟨"duration_ms".data, by decide, by decide⟩, hdig, trivial⟩

theorem chunksScanOk_results : ∀ rs : List ProbeResult,
    (∀ r ∈ rs, r.name.data.all goodValChar = true ∧
      r.output.data.all goodValChar = true) →
    chunksScanOk (resultsChunks rs) := by
  intro rs
  induction rs with
  | nil => intro _; exact trivial
  | cons r rs ih =>
    intro h
    have hr := h r (List.mem_cons_self r rs)
    cases rs with
    | nil => exact chunksScanOk_objChunks r hr.1 hr.2
    | cons r2 rs2 =>
      rw [show resultsChunks (r :: r2 :: rs2) =
        objChunks r ++ (JChunk.lit [','] :: resultsChunks (r2 :: rs2))
        from rfl]
      exact chunksScanOk_append _ _ (chunksScanOk_objChunks r hr.1 hr.2)
        ⟨by decide, ih (fun x hx => h x (List.mem_cons_of_mem r hx))⟩

/-! ## Parsing the whole serialized state back -/

theorem top_parse_current_state (cs : String) (cf : Nat)
    (lh la ls : Option Nat) (lpr : List ProbeResult) (wr : Nat)
    (hcs : safeVal cs) :
    parseJsonString
      (renderChunks (topChunks ⟨cs, cf, lh, la, ls, lpr, wr⟩))
      "current_state".data = some cs.data := by
  have hk1 := keyPosition_render "current_state".data (by decide)
    [JChunk.lit "\x7b\n  ".data]
    ([JChunk.str (escList cs.data), JChunk.lit ",\n  ".data,
      JChunk.str "consecutive_failures".data,
      JChunk.lit (':' :: ' ' :: natToDec cf ++ ",\n  ".data),
      JChunk.str "last_heal_time".data,
      JChunk.lit (':' :: ' ' :: (optionalU64ToJson lh).data ++ ",\n  ".data),
      JChunk.str "last_agent_time".data,
      JChunk.lit (':' :: ' ' :: (optionalU64ToJson la).data ++ ",\n  ".data),
      JChunk.str "last_sos_time".data,
      JChunk.lit (':' :: ' ' :: (optionalU64ToJson ls).data ++ ",\n  ".data),
      JChunk.str "last_probe_results".data,
      JChunk.lit [':', ' ', '[']] ++
     (resultsChunks lpr ++
      [JChunk.lit (']' :: ",\n  ".data), JChunk.str "worker_restarts".data,
       JChunk.lit (':' :: ' ' :: natToDec wr ++ "\n\x7d\n".data)]))
    [' ']
    ⟨by decide, trivial⟩
  refine parseJsonString_space_at _ _
    ((renderChunks [JChunk.lit "\x7b\n  ".data]).length +
      ("current_state".data.length + 3)) cs.data
    (renderChunks ([JChunk.lit ",\n  ".data,
      JChunk.str "consecutive_failures".data,
      JChunk.lit (':' :: ' ' :: natToDec cf ++ ",\n  ".data),
      JChunk.str "last_heal_time".data,
      JChunk.lit (':' :: ' ' :: (optionalU64ToJson lh).data ++ ",\n  ".data),
      JChunk.str "last_agent_time".data,
      JChunk.lit (':' :: ' ' :: (optionalU64ToJson la).data ++ ",\n  ".data),
      JChunk.str "last_sos_time".data,
      JChunk.lit (':' :: ' ' :: (optionalU64ToJson ls).data ++ ",\n  ".data),
      JChunk.str "last_probe_results".data,
      JChunk.lit [':', ' ', '[']] ++
     (resultsChunks lpr ++
      [JChunk.lit (']' :: ",\n  ".data), JChunk.str "worker_restarts".data,
       JChunk.lit (':' :: ' ' :: natToDec wr ++ "\n\x7d\n".data)])))
    ?_ ?_ hcs.1
  · exact hk1.1
  · exact hk1.2

theorem top_parse_consecutive_failures (cs : String) (cf : Nat)
    (lh la ls : Option Nat) (lpr : List ProbeResult) (wr : Nat)
    (hcs : safeVal cs) (hcf : cf < 2 ^ 64) :
    parseJsonU64
      (renderChunks (topChunks ⟨cs, cf, lh, la, ls, lpr, wr⟩))
      "consecutive_failures".data = some cf := by
  have hcsmem : (⟨cs.data⟩ : String) ∉ jsonKeyNames := by
    rw [str_eta]; exact hcs.2
  have hk2 := keyPosition_render "consecutive_failures".data (by decide)
    [JChunk.lit "\x7b\n  ".data, JChunk.str "current_state".data,
     JChunk.lit [':', ' '], JChunk.str (escList cs.data),
     JChunk.lit ",\n  ".data]
    ([JChunk.str "last_heal_time".data,
      JChunk.lit (':' :: ' ' :: (optionalU64ToJson lh).data ++ ",\n  ".data),
      JChunk.str "last_agent_time".data,
      JChunk.lit (':' :: ' ' :: (optionalU64ToJson la).data ++ ",\n  ".data),
      JChunk.str "last_sos_time".data,
      JChunk.lit (':' :: ' ' :: (optionalU64ToJson ls).data ++ ",\n  ".data),
      JChunk.str "last_probe_results".data,
      JChunk.lit [':', ' ', '[']] ++
     (resultsChunks lpr ++
      [JChunk.lit (']' :: ",\n  ".data), JChunk.str "worker_restarts".data,
       JChunk.lit (':' :: ' ' :: natToDec wr ++ "\n\x7d\n".data)]))
    ((' ' :: natToDec cf) ++ ",\n  ".data)
    ⟨by decide,
     by decide, by decide,
     keyQuote_not_prefix2 _ ⟨by decide, by decide, by decide⟩ ':'
       (Or.inl rfl) _ (by rfl),
     by decide,
     escList_no_quote cs.data hcs.1,
     escList_ne_goodKey cs.data _ ⟨by decide, by decide, by decide⟩ hcsmem,
     keyQuote_not_prefix2 _ ⟨by decide, by decide, by decide⟩ ','
       (Or.inr rfl) _ (by rfl),
     by decide, trivial⟩
  have hk2a : keyPosition
      (renderChunks (topChunks ⟨cs, cf, lh, la, ls, lpr, wr⟩))
      "consecutive_failures".data =
      some ((renderChunks [JChunk.lit "\x7b\n  ".data,
        JChunk.str "current_state".data, JChunk.lit [':', ' '],
        JChunk.str (escList cs.data), JChunk.lit ",\n  ".data]).length +
        ("consecutive_failures".data.length + 3)) := hk2.1
  have hk2b : (renderChunks (topChunks ⟨cs, cf, lh, la, ls, lpr, wr⟩)).drop
      ((renderChunks [JChunk.lit "\x7b\n  ".data,
        JChunk.str "current_state".data, JChunk.lit [':', ' '],
        JChunk.str (escList cs.data), JChunk.lit ",\n  ".data]).length +
        ("consecutive_failures".data.length + 3)) =
      ((' ' :: natToDec cf) ++ ",\n  ".data) ++
        renderChunks ([JChunk.str "last_heal_time".data,
          JChunk.lit (':' :: ' ' :: (optionalU64ToJson lh).data ++
            ",\n  ".data),
          JChunk.str "last_agent_time".data,
          JChunk.lit (':' :: ' ' :: (optionalU64ToJson la).data ++
            ",\n  ".data),
          JChunk.str "last_sos_time".data,
          JChunk.lit (':' :: ' ' :: (optionalU64ToJson ls).data ++
            ",\n  ".data),
          JChunk.str "last_probe_results".data,
          JChunk.lit [':', ' ', '[']] ++
         (resultsChunks lpr ++
          [JChunk.lit (']' :: ",\n  ".data),
           JChunk.str "worker_restarts".data,
           JChunk.lit (':' :: ' ' :: natToDec wr ++ "\n\x7d\n".data)])) :=
    hk2.2
  refine parseJsonU64_space_at _ _ _ cf ','
    (['\n', ' ', ' '] ++
      renderChunks ([JChunk.str "last_heal_time".data,
        JChunk.lit (':' :: ' ' :: (optionalU64ToJson lh).data ++ ",\n  ".data),
        JChunk.str "last_agent_time".data,
        JChunk.lit (':' :: ' ' :: (optionalU64ToJson la).data ++ ",\n  ".data),
        JChunk.str "last_sos_time".data,
        JChunk.lit (':' :: ' ' :: (optionalU64ToJson ls).data ++ ",\n  ".data),
        JChunk.str "last_probe_results".data,
        JChunk.lit [':', ' ', '[']] ++
       (resultsChunks lpr ++
        [JChunk.lit (']' :: ",\n  ".data), JChunk.str "worker_restarts".data,
         JChunk.lit (':' :: ' ' :: natToDec wr ++ "\n\x7d\n".data)])))
    hk2a ?_ hcf (Or.inl rfl)
  rw [hk2b]
  simp

theorem top_parse_last_heal (cs : String) (cf : Nat)
    (lh la ls : Option Nat) (lpr : List ProbeResult) (wr : Nat)
    (hcs : safeVal cs) (hlh : ∀ v, lh = some v → v < 2 ^ 64) :
    parseJsonOptU64
      (renderChunks (topChunks ⟨cs, cf, lh, la, ls, lpr, wr⟩))
      "last_heal_time".data = some lh := by
  have hcsmem : (⟨cs.data⟩ : String) ∉ jsonKeyNames := by
    rw [str_eta]; exact hcs.2
  have hk3 := keyPosition_render "last_heal_time".data (by decide)
    [JChunk.lit "\x7b\n  ".data, JChunk.str "current_state".data,
     JChunk.lit [':', ' '], JChunk.str (escList cs.data),
     JChunk.lit ",\n  ".data, JChunk.str "consecutive_failures".data,
     JChunk.lit (':' :: ' ' :: natToDec cf ++ ",\n  ".data)]
    ([JChunk.str "last_agent_time".data,
      JChunk.lit (':' :: ' ' :: (optionalU64ToJson la).data ++ ",\n  ".data),
      JChunk.str "last_sos_time".data,
      JChunk.lit (':' :: ' ' :: (optionalU64ToJson ls).data ++ ",\n  ".data),
      JChunk.str "last_probe_results".data,
      JChunk.lit [':', ' ', '[']] ++
     (resultsChunks lpr ++
      [JChunk.lit (']' :: ",\n  ".data), JChunk.str "worker_restarts".data,
       JChunk.lit (':' :: ' ' :: natToDec wr ++ "\n\x7d\n".data)]))
    ((' ' :: (optionalU64ToJson lh).data) ++ ",\n  ".data)
    ⟨by decide,
     by decide, by decide,
     keyQuote_not_prefix2 _ ⟨by decide, by decide, by decide⟩ ':'
       (Or.inl rfl) _ (by rfl),
     by decide,
     escList_no_quote cs.data hcs.1,
     escList_ne_goodKey cs.data _ ⟨by decide, by decide, by decide⟩ hcsmem,
     keyQuote_not_prefix2 _ ⟨by decide, by decide, by decide⟩ ','
       (Or.inr rfl) _ (by rfl),
     by decide,
     by decide, by decide,
     keyQuote_not_prefix2 _ ⟨by decide, by decide, by decide⟩ ':'
       (Or.inl rfl) _ (by rfl),
     no_quote_append _ _ (no_quote_cons ':' _ (by decide)
       (no_quote_cons ' ' _ (by decide) (no_quote_natToDec cf)))
       (by decide),
     trivial⟩
  have hk3a : keyPosition
      (renderChunks (topChunks ⟨cs, cf, lh, la, ls, lpr, wr⟩))
      "last_heal_time".data =
      some ((renderChunks [JChunk.lit "\x7b\n  ".data,
        JChunk.str "current_state".data, JChunk.lit [':', ' '],
        JChunk.str (escList cs.data), JChunk.lit ",\n  ".data,
        JChunk.str "consecutive_failures".data,
        JChunk.lit (':' :: ' ' :: natToDec cf ++ ",\n  ".data)]).length +
        ("last_heal_time".data.length + 3)) := hk3.1
  have hk3b : (renderChunks (topChunks ⟨cs, cf, lh, la, ls, lpr, wr⟩)).drop
      ((renderChunks [JChunk.lit "\x7b\n  ".data,
        JChunk.str "current_state".data, JChunk.lit [':', ' '],
        JChunk.str (escList cs.data), JChunk.lit ",\n  ".data,
        JChunk.str "consecutive_failures".data,
        JChunk.lit (':' :: ' ' :: natToDec cf ++ ",\n  ".data)]).length +
        ("last_heal_time".data.length + 3)) =
      ((' ' :: (optionalU64ToJson lh).data) ++ ",\n  ".data) ++
        renderChunks ([JChunk.str "last_agent_time".data,
          JChunk.lit (':' :: ' ' :: (optionalU64ToJson la).data ++
            ",\n  ".data),
          JChunk.str "last_sos_time".data,
          JChunk.lit (':' :: ' ' :: (optionalU64ToJson ls).data ++
            ",\n  ".data),
          JChunk.str "last_probe_results".data,
          JChunk.lit [':', ' ', '[']] ++
         (resultsChunks lpr ++
          [JChunk.lit (']' :: ",\n  ".data),
           JChunk.str "worker_restarts".data,
           JChunk.lit (':' :: ' ' :: natToDec wr ++ "\n\x7d\n".data)])) :=
    hk3.2
  refine parseJsonOptU64_space_at _ _ _ lh ','
    (['\n', ' ', ' '] ++
      renderChunks ([JChunk.str "last_agent_time".data,
        JChunk.lit (':' :: ' ' :: (optionalU64ToJson la).data ++ ",\n  ".data),
        JChunk.str "last_sos_time".data,
        JChunk.lit (':' :: ' ' :: (optionalU64ToJson ls).data ++ ",\n  ".data),
        JChunk.str "last_probe_results".data,
        JChunk.lit [':', ' ', '[']] ++
       (resultsChunks lpr ++
        [JChunk.lit (']' :: ",\n  ".data), JChunk.str "worker_restarts".data,
         JChunk.lit (':' :: ' ' :: natToDec wr ++ "\n\x7d\n".data)])))
    hk3a ?_ hlh (Or.inl rfl)
  rw [hk3b]
  simp

theorem top_parse_last_agent (cs : String) (cf : Nat)
    (lh la ls : Option Nat) (lpr : List ProbeResult) (wr : Nat)
    (hcs : safeVal cs) (hla : ∀ v, la = some v → v < 2 ^ 64) :
    parseJsonOptU64
      (renderChunks (topChunks ⟨cs, cf, lh, la, ls, lpr, wr⟩))
      "last_agent_time".data = some la := by
  have hcsmem : (⟨cs.data⟩ : String) ∉ jsonKeyNames := by
    rw [str_eta]; exact hcs.2
  have hk4 := keyPosition_render "last_agent_time".data (by decide)
    [JChunk.lit "\x7b\n  ".data, JChunk.str "current_state".data,
     JChunk.lit [':', ' '], JChunk.str (escList cs.data),
     JChunk.lit ",\n  ".data, JChunk.str "consecutive_failures".data,
     JChunk.lit (':' :: ' ' :: natToDec cf ++ ",\n  ".data),
     JChunk.str "last_heal_time".data,
     JChunk.lit (':' :: ' ' :: (optionalU64ToJson lh).data ++ ",\n  ".data)]
    ([JChunk.str "last_sos_time".data,
      JChunk.lit (':' :: ' ' :: (optionalU64ToJson ls).data ++ ",\n  ".data),
      JChunk.str "last_probe_results".data,
      JChunk.lit [':', ' ', '[']] ++
     (resultsChunks lpr ++
      [JChunk.lit (']' :: ",\n  ".data), JChunk.str "worker_restarts".data,
       JChunk.lit (':' :: ' ' :: natToDec wr ++ "\n\x7d\n".data)]))
    ((' ' :: (optionalU64ToJson la).data) ++ ",\n  ".data)
    ⟨by decide,
     by decide, by decide,
     keyQuote_not_prefix2 _ ⟨by decide, by decide, by decide⟩ ':'
       (Or.inl rfl) _ (by rfl),
     by decide,
     escList_no_quote cs.data hcs.1,
     escList_ne_goodKey cs.data _ ⟨by decide, by decide, by decide⟩ hcsmem,
     keyQuote_not_prefix2 _ ⟨by decide, by decide, by decide⟩ ','
       (Or.inr rfl) _ (by rfl),
     by decide,
     by decide, by decide,
     keyQuote_not_prefix2 _ ⟨by decide, by decide, by decide⟩ ':'
       (Or.inl rfl) _ (by rfl),
     no_quote_append _ _ (no_quote_cons ':' _ (by decide)
       (no_quote_cons ' ' _ (by decide) (no_quote_natToDec cf)))
       (by decide),
     by decide, by decide,
     keyQuote_not_prefix2 _ ⟨by decide, by decide, by decide⟩ ':'
       (Or.inl rfl) _ (by rfl),
     no_quote_append _ _ (no_quote_cons ':' _ (by decide)
       (no_quote_cons ' ' _ (by decide) (no_quote_optU64 lh)))
       (by decide),
     trivial⟩
  have hk4a : keyPosition
      (renderChunks (topChunks ⟨cs, cf, lh, la, ls, lpr, wr⟩))
      "last_agent_time".data =
      some ((renderChunks [JChunk.lit "\x7b\n  ".data,
        JChunk.str "current_state".data, JChunk.lit [':', ' '],
        JChunk.str (escList cs.data), JChunk.lit ",\n  ".data,
        JChunk.str "consecutive_failures".data,
        JChunk.lit (':' :: ' ' :: natToDec cf ++ ",\n  ".data),
        JChunk.str "last_heal_time".data,
        JChunk.lit (':' :: ' ' :: (optionalU64ToJson lh).data ++
          ",\n  ".data)]).length +
        ("last_agent_time".data.length + 3)) := hk4.1
  have hk4b : (renderChunks (topChunks ⟨cs, cf, lh, la, ls, lpr, wr⟩)).drop
      ((renderChunks [JChunk.lit "\x7b\n  ".data,
        JChunk.str "current_state".data, JChunk.lit [':', ' '],
        JChunk.str (escList cs.data), JChunk.lit ",\n  ".data,
        JChunk.str "consecutive_failures".data,
        JChunk.lit (':' :: ' ' :: natToDec cf ++ ",\n  ".data),
        JChunk.str "last_heal_time".data,
        JChunk.lit (':' :: ' ' :: (optionalU64ToJson lh).data ++
          ",\n  ".data)]).length +
        ("last_agent_time".data.length + 3)) =
      ((' ' :: (optionalU64ToJson la).data) ++ ",\n  ".data) ++
        renderChunks ([JChunk.str "last_sos_time".data,
          JChunk.lit (':' :: ' ' :: (optionalU64ToJson ls).data ++
            ",\n  ".data),
          JChunk.str "last_probe_results".data,
          JChunk.lit [':', ' ', '[']] ++
         (resultsChunks lpr ++
          [JChunk.lit (']' :: ",\n  ".data),
           JChunk.str "worker_restarts".data,
           JChunk.lit (':' :: ' ' :: natToDec wr ++ "\n\x7d\n".data)])) :=
    hk4.2
  refine parseJsonOptU64_space_at _ _ _ la ','
    (['\n', ' ', ' '] ++
      renderChunks ([JChunk.str "last_sos_time".data,
        JChunk.lit (':' :: ' ' :: (optionalU64ToJson ls).data ++ ",\n  ".data),
        JChunk.str "last_probe_results".data,
        JChunk.lit [':', ' ', '[']] ++
       (resultsChunks lpr ++
        [JChunk.lit (']' :: ",\n  ".data), JChunk.str "worker_restarts".data,
         JChunk.lit (':' :: ' ' :: natToDec wr ++ "\n\x7d\n".data)])))
    hk4a ?_ hla (Or.inl rfl)
  rw [hk4b]
  simp

theorem top_parse_last_sos (cs : String) (cf : Nat)
    (lh la ls : Option Nat) (lpr : List ProbeResult) (wr : Nat)
    (hcs : safeVal cs) (hls : ∀ v, ls = some v → v < 2 ^ 64) :
    parseJsonOptU64
      (renderChunks (topChunks ⟨cs, cf, lh, la, ls, lpr, wr⟩))
      "last_sos_time".data = some ls := by
  have hcsmem : (⟨cs.data⟩ : String) ∉ jsonKeyNames := by
    rw [str_eta]; exact hcs.2
  have hk5 := keyPosition_render "last_sos_time".data (by decide)
    [JChunk.lit "\x7b\n  ".data, JChunk.str "current_state".data,
     JChunk.lit [':', ' '], JChunk.str (escList cs.data),
     JChunk.lit ",\n  ".data, JChunk.str "consecutive_failures".data,
     JChunk.lit (':' :: ' ' :: natToDec cf ++ ",\n  ".data),
     JChunk.str "last_heal_time".data,
     JChunk.lit (':' :: ' ' :: (optionalU64ToJson lh).data ++ ",\n  ".data),
     JChunk.str "last_agent_time".data,
     JChunk.lit (':' :: ' ' :: (optionalU64ToJson la).data ++ ",\n  ".data)]
    ([JChunk.str "last_probe_results".data,
      JChunk.lit [':', ' ', '[']] ++
     (resultsChunks lpr ++
      [JChunk.lit (']' :: ",\n  ".data), JChunk.str "worker_restarts".data,
       JChunk.lit (':' :: ' ' :: natToDec wr ++ "\n\x7d\n".data)]))
    ((' ' :: (optionalU64ToJson ls).data) ++ ",\n  ".data)
    ⟨by decide,
     by decide, by decide,
     keyQuote_not_prefix2 _ ⟨by decide, by decide, by decide⟩ ':'
       (Or.inl rfl) _ (by rfl),
     by decide,
     escList_no_quote cs.data hcs.1,
     escList_ne_goodKey cs.data _ ⟨by decide, by decide, by decide⟩ hcsmem,
     keyQuote_not_prefix2 _ ⟨by decide, by decide, by decide⟩ ','
       (Or.inr rfl) _ (by rfl),
     by decide,
     by decide, by decide,
     keyQuote_not_prefix2 _ ⟨by decide, by decide, by decide⟩ ':'
       (Or.inl rfl) _ (by rfl),
     no_quote_append _ _ (no_quote_cons ':' _ (by decide)
       (no_quote_cons ' ' _ (by decide) (no_quote_natToDec cf)))
       (by decide),
     by decide, by decide,
     keyQuote_not_prefix2 _ ⟨by decide, by decide, by decide⟩ ':'
       (Or.inl rfl) _ (by rfl),
     no_quote_append _ _ (no_quote_cons ':' _ (by decide)
       (no_quote_cons ' ' _ (by decide) (no_quote_optU64 lh)))
       (by decide),
     by decide, by decide,
     keyQuote_not_prefix2 _ ⟨by decide, by decide, by decide⟩ ':'
       (Or.inl rfl) _ (by rfl),
     no_quote_append _ _ (no_quote_cons ':' _ (by decide)
       (no_quote_cons ' ' _ (by decide) (no_quote_optU64 la)))
       (by decide),
     trivial⟩
  have hk5a : keyPosition
      (renderChunks (topChunks ⟨cs, cf, lh, la, ls, lpr, wr⟩))
      "last_sos_time".data =
      some ((renderChunks [JChunk.lit "\x7b\n  ".data,
        JChunk.str "current_state".data, JChunk.lit [':', ' '],
        JChunk.str (escList cs.data), JChunk.lit ",\n  ".data,
        JChunk.str "consecutive_failures".data,
        JChunk.lit (':' :: ' ' :: natToDec cf ++ ",\n  ".data),
        JChunk.str "last_heal_time".data,
        JChunk.lit (':' :: ' ' :: (optionalU64ToJson lh).data ++ ",\n  ".data),
        JChunk.str "last_agent_time".data,
        JChunk.lit (':' :: ' ' :: (optionalU64ToJson la).data ++
          ",\n  ".data)]).length +
        ("last_sos_time".data.length + 3)) := hk5.1
  have hk5b : (renderChunks (topChunks ⟨cs, cf, lh, la, ls, lpr, wr⟩)).drop
      ((renderChunks [JChunk.lit "\x7b\n  ".data,
        JChunk.str "current_state".data, JChunk.lit [':', ' '],
        JChunk.str (escList cs.data), JChunk.lit ",\n  ".data,
        JChunk.str "consecutive_failures".data,
        JChunk.lit (':' :: ' ' :: natToDec cf ++ ",\n  ".data),
        JChunk.str "last_heal_time".data,
        JChunk.lit (':' :: ' ' :: (optionalU64ToJson lh).data ++ ",\n  ".data),
        JChunk.str "last_agent_time".data,
        JChunk.lit (':' :: ' ' :: (optionalU64ToJson la).data ++
          ",\n  ".data)]).length +
        ("last_sos_time".data.length + 3)) =
      ((' ' :: (optionalU64ToJson ls).data) ++ ",\n  ".data) ++
        renderChunks ([JChunk.str "last_probe_results".data,
          JChunk.lit [':', ' ', '[']] ++
         (resultsChunks lpr ++
          [JChunk.lit (']' :: ",\n  ".data),
           JChunk.str "worker_restarts".data,
           JChunk.lit (':' :: ' ' :: natToDec wr ++ "\n\x7d\n".data)])) :=
    hk5.2
  refine parseJsonOptU64_space_at _ _ _ ls ','
    (['\n', ' ', ' '] ++
      renderChunks ([JChunk.str "last_probe_results".data,
        JChunk.lit [':', ' ', '[']] ++
       (resultsChunks lpr ++
        [JChunk.lit (']' :: ",\n  ".data), JChunk.str "worker_restarts".data,
         JChunk.lit (':' :: ' ' :: natToDec wr ++ "\n\x7d\n".data)])))
    hk5a ?_ hls (Or.inl rfl)
  rw [hk5b]
  simp

theorem top_parse_results (cs : String) (cf : Nat)
    (lh la ls : Option Nat) (lpr : List ProbeResult) (wr : Nat)
    (hcs : safeVal cs)
    (hres : ∀ r ∈ lpr, safeVal r.name ∧ safeVal r.output ∧
      r.durationMs < 2 ^ 64) :
    parseJsonArray
      (renderChunks (topChunks ⟨cs, cf, lh, la, ls, lpr, wr⟩))
      "last_probe_results".data =
      some ('[' :: (renderChunks (resultsChunks lpr) ++ [']'])) := by
  have hcsmem : (⟨cs.data⟩ : String) ∉ jsonKeyNames := by
    rw [str_eta]; exact hcs.2
  have hk6 := keyPosition_render "last_probe_results".data (by decide)
    [JChunk.lit "\x7b\n  ".data, JChunk.str "current_state".data,
     JChunk.lit [':', ' '], JChunk.str (escList cs.data),
     JChunk.lit ",\n  ".data, JChunk.str "consecutive_failures".data,
     JChunk.lit (':' :: ' ' :: natToDec cf ++ ",\n  ".data),
     JChunk.str "last_heal_time".data,
     JChunk.lit (':' :: ' ' :: (optionalU64ToJson lh).data ++ ",\n  ".data),
     JChunk.str "last_agent_time".data,
     JChunk.lit (':' :: ' ' :: (optionalU64ToJson la).data ++ ",\n  ".data),
     JChunk.str "last_sos_time".data,
     JChunk.lit (':' :: ' ' :: (optionalU64ToJson ls).data ++ ",\n  ".data)]
    (resultsChunks lpr ++
     [JChunk.lit (']' :: ",\n  ".data), JChunk.str "worker_restarts".data,
      JChunk.lit (':' :: ' ' :: natToDec wr ++ "\n\x7d\n".data)])
    [' ', '[']
    ⟨by decide,
     by decide, by decide,
     keyQuote_not_prefix2 _ ⟨by decide, by decide, by decide⟩ ':'
       (Or.inl rfl) _ (by rfl),
     by decide,
     escList_no_quote cs.data hcs.1,
     escList_ne_goodKey cs.data _ ⟨by decide, by decide, by decide⟩ hcsmem,
     keyQuote_not_prefix2 _ ⟨by decide, by decide, by decide⟩ ','
       (Or.inr rfl) _ (by rfl),
     by decide,
     by decide, by decide,
     keyQuote_not_prefix2 _ ⟨by decide, by decide, by decide⟩ ':'
       (Or.inl rfl) _ (by rfl),
     no_quote_append _ _ (no_quote_cons ':' _ (by decide)
       (no_quote_cons ' ' _ (by decide) (no_quote_natToDec cf)))
       (by decide),
     by decide, by decide,
     keyQuote_not_prefix2 _ ⟨by decide, by decide, by decide⟩ ':'
       (Or.inl rfl) _ (by rfl),
     no_quote_append _ _ (no_quote_cons ':' _ (by decide)
       (no_quote_cons ' ' _ (by decide) (no_quote_optU64 lh)))
       (by decide),
     by decide, by decide,
     keyQuote_not_prefix2 _ ⟨by decide, by decide, by decide⟩ ':'
       (Or.inl rfl) _ (by rfl),
     no_quote_append _ _ (no_quote_cons ':' _ (by decide)
       (no_quote_cons ' ' _ (by decide) (no_quote_optU64 la)))
       (by decide),
     by decide, by decide,
     keyQuote_not_prefix2 _ ⟨by decide, by decide, by decide⟩ ':'
       (Or.inl rfl) _ (by rfl),
     no_quote_append _ _ (no_quote_cons ':' _ (by decide)
       (no_quote_cons ' ' _ (by decide) (no_quote_optU64 ls)))
       (by decide),
     trivial⟩
  have hk6a : keyPosition
      (renderChunks (topChunks ⟨cs, cf, lh, la, ls, lpr, wr⟩))
      "last_probe_results".data =
      some ((renderChunks [JChunk.lit "\x7b\n  ".data,
        JChunk.str "current_state".data, JChunk.lit [':', ' '],
        JChunk.str (escList cs.data), JChunk.lit ",\n  ".data,
        JChunk.str "consecutive_failures".data,
        JChunk.lit (':' :: ' ' :: natToDec cf ++ ",\n  ".data),
        JChunk.str "last_heal_time".data,
        JChunk.lit (':' :: ' ' :: (optionalU64ToJson lh).data ++ ",\n  ".data),
        JChunk.str "last_agent_time".data,
        JChunk.lit (':' :: ' ' :: (optionalU64ToJson la).data ++ ",\n  ".data),
        JChunk.str "last_sos_time".data,
        JChunk.lit (':' :: ' ' :: (optionalU64ToJson ls).data ++
          ",\n  ".data)]).length +
        ("last_probe_results".data.length + 3)) := hk6.1
  have hk6b : (renderChunks (topChunks ⟨cs, cf, lh, la, ls, lpr, wr⟩)).drop
      ((renderChunks [JChunk.lit "\x7b\n  ".data,
        JChunk.str "current_state".data, JChunk.lit [':', ' '],
        JChunk.str (escList cs.data), JChunk.lit ",\n  ".data,
        JChunk.str "consecutive_failures".data,
        JChunk.lit (':' :: ' ' :: natToDec cf ++ ",\n  ".data),
        JChunk.str "last_heal_time".data,
        JChunk.lit (':' :: ' ' :: (optionalU64ToJson lh).data ++ ",\n  ".data),
        JChunk.str "last_agent_time".data,
        JChunk.lit (':' :: ' ' :: (optionalU64ToJson la).data ++ ",\n  ".data),
        JChunk.str "last_sos_time".data,
        JChunk.lit (':' :: ' ' :: (optionalU64ToJson ls).data ++
          ",\n  ".data)]).length +
        ("last_probe_results".data.length + 3)) =
      [' ', '['] ++ renderChunks (resultsChunks lpr ++
        [JChunk.lit (']' :: ",\n  ".data), JChunk.str "worker_restarts".data,
         JChunk.lit (':' :: ' ' :: natToDec wr ++ "\n\x7d\n".data)]) :=
    hk6.2
  refine parseJsonArray_space_at _ _ _ (resultsChunks lpr)
    (",\n  ".data ++ renderChunks [JChunk.str "worker_restarts".data,
      JChunk.lit (':' :: ' ' :: natToDec wr ++ "\n\x7d\n".data)])
    hk6a ?_
    (chunksScanOk_results lpr
      (fun r hr => ⟨(hres r hr).1.1, (hres r hr).2.1.1⟩))
  rw [hk6b, renderChunks_append]
  simp [renderChunks]

theorem top_parse_worker_restarts (cs : String) (cf : Nat)
    (lh la ls : Option Nat) (lpr : List ProbeResult) (wr : Nat)
    (hcs : safeVal cs) (hwr : wr < 2 ^ 64)
    (hres : ∀ r ∈ lpr, safeVal r.name ∧ safeVal r.output ∧
      r.durationMs < 2 ^ 64) :
    parseJsonU64
      (renderChunks (topChunks ⟨cs, cf, lh, la, ls, lpr, wr⟩))
      "worker_restarts".data = some wr := by
  have hcsmem : (⟨cs.data⟩ : String) ∉ jsonKeyNames := by
    rw [str_eta]; exact hcs.2
  have hsplit : topChunks ⟨cs, cf, lh, la, ls, lpr, wr⟩ =
      ([JChunk.lit "\x7b\n  ".data, JChunk.str "current_state".data,
        JChunk.lit [':', ' '], JChunk.str (escList cs.data),
        JChunk.lit ",\n  ".data, JChunk.str "consecutive_failures".data,
        JChunk.lit (':' :: ' ' :: natToDec cf ++ ",\n  ".data),
        JChunk.str "last_heal_time".data,
        JChunk.lit (':' :: ' ' :: (optionalU64ToJson lh).data ++ ",\n  ".data),
        JChunk.str "last_agent_time".data,
        JChunk.lit (':' :: ' ' :: (optionalU64ToJson la).data ++ ",\n  ".data),
        JChunk.str "last_sos_time".data,
        JChunk.lit (':' :: ' ' :: (optionalU64ToJson ls).data ++ ",\n  ".data),
        JChunk.str "last_probe_results".data, JChunk.lit [':', ' ', '[']] ++
       (resultsChunks lpr ++ [JChunk.lit (']' :: ",\n  ".data)])) ++
      JChunk.str "worker_restarts".data ::
        JChunk.lit (':' :: ((' ' :: natToDec wr) ++ "\n\x7d\n".data)) :: [] := by
    simp [topChunks, List.append_assoc]
  have hok7 : chunksOk "worker_restarts".data
      ([JChunk.lit "\x7b\n  ".data, JChunk.str "current_state".data,
        JChunk.lit [':', ' '], JChunk.str (escList cs.data),
        JChunk.lit ",\n  ".data, JChunk.str "consecutive_failures".data,
        JChunk.lit (':' :: ' ' :: natToDec cf ++ ",\n  ".data),
        JChunk.str "last_heal_time".data,
        JChunk.lit (':' :: ' ' :: (optionalU64ToJson lh).data ++ ",\n  ".data),
        JChunk.str "last_agent_time".data,
        JChunk.lit (':' :: ' ' :: (optionalU64ToJson la).data ++ ",\n  ".data),
        JChunk.str "last_sos_time".data,
        JChunk.lit (':' :: ' ' :: (optionalU64ToJson ls).data ++ ",\n  ".data),
        JChunk.str "last_probe_results".data, JChunk.lit [':', ' ', '[']] ++
       (resultsChunks lpr ++ [JChunk.lit (']' :: ",\n  ".data)]))
      (renderChunks (JChunk.str "worker_restarts".data ::
        JChunk.lit (':' :: ((' ' :: natToDec wr) ++ "\n\x7d\n".data)) :: [])) := by
    refine chunksOk_append _ _ _ _
      ⟨by decide,
       by decide, by decide,
       keyQuote_not_prefix2 _ ⟨by decide, by decide, by decide⟩ ':'
         (Or.inl rfl) _ (by rfl),
       by decide,
       escList_no_quote cs.data hcs.1,
       escList_ne_goodKey cs.data _ ⟨by decide, by decide, by decide⟩ hcsmem,
       keyQuote_not_prefix2 _ ⟨by decide, by decide, by decide⟩ ','
         (Or.inr rfl) _ (by rfl),
       by decide,
       by decide, by decide,
       keyQuote_not_prefix2 _ ⟨by decide, by decide, by decide⟩ ':'
         (Or.inl rfl) _ (by rfl),
       no_quote_append _ _ (no_quote_cons ':' _ (by decide)
         (no_quote_cons ' ' _ (by decide) (no_quote_natToDec cf)))
         (by decide),
       by decide, by decide,
       keyQuote_not_prefix2 _ ⟨by decide, by decide, by decide⟩ ':'
         (Or.inl rfl) _ (by rfl),
       no_quote_append _ _ (no_quote_cons ':' _ (by decide)
         (no_quote_cons ' ' _ (by decide) (no_quote_optU64 lh)))
         (by decide),
       by decide, by decide,
       keyQuote_not_prefix2 _ ⟨by decide, by decide, by decide⟩ ':'
         (Or.inl rfl) _ (by rfl),
       no_quote_append _ _ (no_quote_cons ':' _ (by decide)
         (no_quote_cons ' ' _ (by decide) (no_quote_optU64 la)))
         (by decide),
       by decide, by decide,
       keyQuote_not_prefix2 _ ⟨by decide, by decide, by decide⟩ ':'
         (Or.inl rfl) _ (by rfl),
       no_quote_append _ _ (no_quote_cons ':' _ (by decide)
         (no_quote_cons ' ' _ (by decide) (no_quote_optU64 ls)))
         (by decide),
       by decide, by decide,
       keyQuote_not_prefix2 _ ⟨by decide, by decide, by decide⟩ ':'
         (Or.inl rfl) _ (by rfl),
       by decide, trivial⟩
      (chunksOk_append _ _ _ _
        (chunksOk_resultsChunks "worker_restarts".data
          ⟨by decide, by decide, by decide⟩ (by decide) (by decide)
          (by decide) (by decide) lpr
          (fun r hr => ⟨(hres r hr).1, (hres r hr).2.1⟩) _)
        ⟨by decide, trivial⟩)
  have hk7 := keyPosition_render "worker_restarts".data (by decide)
    ([JChunk.lit "\x7b\n  ".data, JChunk.str "current_state".data,
      JChunk.lit [':', ' '], JChunk.str (escList cs.data),
      JChunk.lit ",\n  ".data, JChunk.str "consecutive_failures".data,
      JChunk.lit (':' :: ' ' :: natToDec cf ++ ",\n  ".data),
      JChunk.str "last_heal_time".data,
      JChunk.lit (':' :: ' ' :: (optionalU64ToJson lh).data ++ ",\n  ".data),
      JChunk.str "last_agent_time".data,
      JChunk.lit (':' :: ' ' :: (optionalU64ToJson la).data ++ ",\n  ".data),
      JChunk.str "last_sos_time".data,
      JChunk.lit (':' :: ' ' :: (optionalU64ToJson ls).data ++ ",\n  ".data),
      JChunk.str "last_probe_results".data, JChunk.lit [':', ' ', '[']] ++
     (resultsChunks lpr ++ [JChunk.lit (']' :: ",\n  ".data)]))
    []
    ((' ' :: natToDec wr) ++ "\n\x7d\n".data)
    hok7
  have hk7a : keyPosition
      (renderChunks (topChunks ⟨cs, cf, lh, la, ls, lpr, wr⟩))
      "worker_restarts".data =
      some ((renderChunks
        ([JChunk.lit "\x7b\n  ".data, JChunk.str "current_state".data,
          JChunk.lit [':', ' '], JChunk.str (escList cs.data),
          JChunk.lit ",\n  ".data, JChunk.str "consecutive_failures".data,
          JChunk.lit (':' :: ' ' :: natToDec cf ++ ",\n  ".data),
          JChunk.str "last_heal_time".data,
          JChunk.lit (':' :: ' ' :: (optionalU64ToJson lh).data ++
            ",\n  ".data),
          JChunk.str "last_agent_time".data,
          JChunk.lit (':' :: ' ' :: (optionalU64ToJson la).data ++
            ",\n  ".data),
          JChunk.str "last_sos_time".data,
          JChunk.lit (':' :: ' ' :: (optionalU64ToJson ls).data ++
            ",\n  ".data),
          JChunk.str "last_probe_results".data, JChunk.lit [':', ' ', '[']] ++
         (resultsChunks lpr ++ [JChunk.lit (']' :: ",\n  ".data)]))).length +
        ("worker_restarts".data.length + 3)) := by
    rw [hsplit]
    exact hk7.1
  have hk7b : (renderChunks (topChunks ⟨cs, cf, lh, la, ls, lpr, wr⟩)).drop
      ((renderChunks
        ([JChunk.lit "\x7b\n  ".data, JChunk.str "current_state".data,
          JChunk.lit [':', ' '], JChunk.str (escList cs.data),
          JChunk.lit ",\n  ".data, JChunk.str "consecutive_failures".data,
          JChunk.lit (':' :: ' ' :: natToDec cf ++ ",\n  ".data),
          JChunk.str "last_heal_time".data,
          JChunk.lit (':' :: ' ' :: (optionalU64ToJson lh).data ++
            ",\n  ".data),
          JChunk.str "last_agent_time".data,
          JChunk.lit (':' :: ' ' :: (optionalU64ToJson la).data ++
            ",\n  ".data),
          JChunk.str "last_sos_time".data,
          JChunk.lit (':' :: ' ' :: (optionalU64ToJson ls).data ++
            ",\n  ".data),
          JChunk.str "last_probe_results".data, JChunk.lit [':', ' ', '[']] ++
         (resultsChunks lpr ++ [JChunk.lit (']' :: ",\n  ".data)]))).length +
        ("worker_restarts".data.length + 3)) =
      ((' ' :: natToDec wr) ++ "\n\x7d\n".data) ++ renderChunks [] := by
    rw [hsplit]
    exact hk7.2
  refine parseJsonU64_space_at _ _ _ wr '\n' "\x7d\n".data hk7a ?_ hwr
    (Or.inr (Or.inr rfl))
  rw [hk7b]
  simp [renderChunks]

theorem loadState_roundtrip_core (cs : String) (cf : Nat)
    (lh la ls : Option Nat) (lpr : List ProbeResult) (wr : Nat)
    (hcs : safeVal cs) (hcf : cf < 2 ^ 32) (hwr : wr < 2 ^ 32)
    (hlh : ∀ v, lh = some v → v < 2 ^ 64)
    (hla : ∀ v, la = some v → v < 2 ^ 64)
    (hls : ∀ v, ls = some v → v < 2 ^ 64)
    (hres : ∀ r ∈ lpr, safeVal r.name ∧ safeVal r.output ∧
      r.durationMs < 2 ^ 64) :
    loadStateFromString (stateToJson ⟨cs, cf, lh, la, ls, lpr, wr⟩) =
      ⟨cs, cf, lh, la, ls, lpr, wr⟩ := by
  have hdoc := stateToJson_chunks ⟨cs, cf, lh, la, ls, lpr, wr⟩
  have h1 := top_parse_current_state cs cf lh la ls lpr wr hcs
  have h2 := top_parse_consecutive_failures cs cf lh la ls lpr wr hcs
    (lt_of_lt_of_le hcf (by norm_num))
  have h3 := top_parse_last_heal cs cf lh la ls lpr wr hcs hlh
  have h4 := top_parse_last_agent cs cf lh la ls lpr wr hcs hla
  have h5 := top_parse_last_sos cs cf lh la ls lpr wr hcs hls
  have h6 := top_parse_results cs cf lh la ls lpr wr hcs hres
  have h7 := top_parse_worker_restarts cs cf lh la ls lpr wr hcs
    (lt_of_lt_of_le hwr (by norm_num)) hres
  have h8 := parseProbeResultsJson_slice lpr hres
  simp only [loadStateFromString, hdoc, h1, h2, h3, h4, h5, h6, h7, h8,
    str_eta, Nat.mod_eq_of_lt hcf, Nat.mod_eq_of_lt hwr]

/-! ## Claim C8: state JSON round trip -/

/-- Claim C8 (corrected): the claim as stated over every PersistentState is
false - a probe result whose string fields collide with the schema's key
names derails the substring-search parser.  Amended: for every state whose
string fields contain only safe characters and are not key names, whose
counters fit in u32 and whose timestamps and durations fit in u64,
serializing with `state_to_json` and re-parsing with the loader's parser
yields the state back exactly. -/
theorem state_json_roundtrip_safe (s : PersistentState) (h : safeState s) :
    loadStateFromString (stateToJson s) = s := by
  obtain ⟨cs, cf, lh, la, ls, lpr, wr⟩ := s
  obtain ⟨h1, h2, h3, h4, h5, h6, h7⟩ := h
  exact loadState_roundtrip_core cs cf lh la ls lpr wr h1 h2 h3 h4 h5 h6 h7

/-- Witness for C8: a concrete safe state with escaped output, present and
absent timestamps and two probe results round-trips exactly. -/
theorem state_json_roundtrip_safe_witness :
    safeState roundtripWitnessState ∧
      loadStateFromString (stateToJson roundtripWitnessState) =
        roundtripWitnessState := by
  have hheal : ∀ v, roundtripWitnessState.lastHealTime = some v →
      v < 2 ^ 64 := by
    intro v hv
    have hh : some (1700000100 : Nat) = some v := hv
    injection hh with h2
    exact h2 ▸ (by norm_num : (1700000100 : Nat) < 2 ^ 64)
  have hagent : ∀ v, roundtripWitnessState.lastAgentTime = some v →
      v < 2 ^ 64 := by
    intro v hv
    have hh : (none : Option Nat) = some v := hv
    exact Option.noConfusion hh
  have hsos : ∀ v, roundtripWitnessState.lastSosTime = some v →
      v < 2 ^ 64 := by
    intro v hv
    have hh : some (1700000500 : Nat) = some v := hv
    injection hh with h2
    exact h2 ▸ (by norm_num : (1700000500 : Nat) < 2 ^ 64)
  have hres : ∀ r ∈ roundtripWitnessState.lastProbeResults,
      safeVal r.name ∧ safeVal r.output ∧ r.durationMs < 2 ^ 64 := by
    intro r hr
    rcases List.mem_cons.1 hr with rfl | hr2
    · exact ⟨⟨by decide, by decide⟩, ⟨by decide, by decide⟩, by decide⟩
    · rcases List.mem_cons.1 hr2 with rfl | hr3
      · exact ⟨⟨by decide, by decide⟩, ⟨by decide, by decide⟩, by decide⟩
      · cases hr3
  have hs : safeState roundtripWitnessState :=
    ⟨⟨by decide, by decide⟩, by decide, by decide, hheal, hagent, hsos,
     hres⟩
  exact ⟨hs, state_json_roundtrip_safe roundtripWitnessState hs⟩

set_option maxRecDepth 10000 in
/-- Counterexample to C8 as stated: a state holding a probe result named
`worker_restarts` serializes to a document in which the substring search
for the `worker_restarts` key finds the probe's name first, so the loader
reads `worker_restarts` as 0 instead of 5 and the round trip is not the
identity. -/
theorem state_roundtrip_fails_on_key_named_probe :
    keyNamedProbeState.workerRestarts = 5 ∧
    (loadStateFromString (stateToJson keyNamedProbeState)).workerRestarts
      = 0 ∧
    loadStateFromString (stateToJson keyNamedProbeState) ≠
      keyNamedProbeState := by
  refine ⟨by decide, ?_, ?_⟩
  · decide
  · decide

/-! ## Claim C1: SOS cooldown gates -/

/-- Claim C1: whenever `now - critical_since < critical_threshold_secs`, or
`last_sos_time` is set with `now - last_sos_time < sos_cooldown_secs`,
`run_sos` returns Cooldown, attempts no delivery channel, and leaves
`last_sos_time` unchanged. -/
theorem runSos_in_cooldown_skips_delivery (config : Config)
    (state : PersistentState) (failedProbes : List ProbeResult)
    (criticalSince now : Nat) (dryRun : Bool) (env : SosEnv)
    (h : now - criticalSince < config.escalation.criticalThresholdSecs ∨
      ∃ last, state.lastSosTime = some last ∧
        now - last < config.escalation.sosCooldownSecs) :
    (runSos config state failedProbes criticalSince now dryRun env).1 =
        TierOutcome.cooldown ∧
      (runSos config state failedProbes criticalSince now dryRun env).2.2 = [] ∧
      (runSos config state failedProbes criticalSince now dryRun env).2.1.lastSosTime
        = state.lastSosTime := by
  cases dryRun with
  | true => simp [runSos]
  | false =>
    rcases h with h1 | ⟨last, hlast, h2⟩
    · simp [runSos, h1]
    · by_cases h1 : now - criticalSince < config.escalation.criticalThresholdSecs
      · simp [runSos, h1]
      · simp [runSos, h1, hlast, h2]

/-- Witness for C1, the spec scenario S5: `last_sos_time = now - 600`,
`sos_cooldown_secs = 1800`, `critical_since = now - 1000`,
`critical_threshold_secs = 900`. -/
theorem runSos_in_cooldown_skips_delivery_witness :
    (10000 : Nat) - 9400 < 1800 ∧
      (runSos defaultConfig
          { defaultPersistentState with lastSosTime := some 9400 }
          [] 9000 10000 false
          { telegramDelivered := true, imsgDelivered := true,
            osascriptDelivered := true }).1 = TierOutcome.cooldown ∧
      (runSos defaultConfig
          { defaultPersistentState with lastSosTime := some 9400 }
          [] 9000 10000 false
          { telegramDelivered := true, imsgDelivered := true,
            osascriptDelivered := true }).2.2 = [] ∧
      (runSos defaultConfig
          { defaultPersistentState with lastSosTime := some 9400 }
          [] 9000 10000 false
          { telegramDelivered := true, imsgDelivered := true,
            osascriptDelivered := true }).2.1.lastSosTime =
        ({ defaultPersistentState with lastSosTime := some 9400 }
          : PersistentState).lastSosTime :=
  ⟨by decide,
    runSos_in_cooldown_skips_delivery defaultConfig
      { defaultPersistentState with lastSosTime := some 9400 }
      [] 9000 10000 false
      { telegramDelivered := true, imsgDelivered := true,
        osascriptDelivered := true }
      (Or.inr ⟨9400, rfl, by decide⟩)⟩

/-! ## Claim C2: heal-tier selection -/

theorem isDynamicServiceProbe_iff (name : String) (config : Config) :
    isDynamicServiceProbe name config = true ↔
      dynamicServiceProbeSpec name config := by
  unfold isDynamicServiceProbe dynamicServiceProbeSpec
  cases hl : dropPre "launchd:" name with
  | some svc =>
    have hdec : name = "launchd:" ++ svc :=
      strDataInj (by
        rw [(dropPre_some_iff "launchd:" name svc).1 hl, strApp_data])
    simp only [List.any_eq_true, beq_iff_eq]
    constructor
    · rintro ⟨probe, hp, hname⟩
      exact Or.inl ⟨svc, hdec, probe, hp, hname⟩
    · rintro (⟨svc2, hdec2, probe, hp, hname⟩ | ⟨svc2, hdec2, _, _, _⟩)
      · have : svc2 = svc := strApp_left_cancel "launchd:" svc2 svc
          (hdec2.symm.trans hdec)
        exact ⟨probe, hp, this ▸ hname⟩
      · exact absurd (hdec2.symm.trans hdec)
          (strApp_ne_of_head "http:" ("launchd:" ++ svc) svc2 'h' 'l'
            rfl (strApp_head "launchd:" svc 'l' rfl) (by decide))
  | none =>
    cases hh : dropPre "http:" name with
    | some svc =>
      have hdec : name = "http:" ++ svc :=
        strDataInj (by
          rw [(dropPre_some_iff "http:" name svc).1 hh, strApp_data])
      by_cases hb : svc = "inngest" ∨ svc = "typesense" ∨ svc = "worker"
      · have hbeq : (svc == "inngest" || svc == "typesense" ||
            svc == "worker") = true := by
          rcases hb with h | h | h <;> simp [h]
        simp only [hbeq, if_true]
        constructor
        · intro h
          cases h
        · rintro (⟨svc2, hdec2, _, _, _⟩ | ⟨svc2, hdec2, hnb, _⟩)
          · exact absurd (hdec2.symm.trans hdec)
              (strApp_ne_of_head "launchd:" ("http:" ++ svc) svc2
                'l' 'h' rfl (strApp_head "http:" svc 'h' rfl) (by decide))
          · have : svc2 = svc := strApp_left_cancel "http:" svc2 svc
              (hdec2.symm.trans hdec)
            subst this
            rcases hb with h | h | h <;> simp [h] at hnb
      · have hbeq : (svc == "inngest" || svc == "typesense" ||
            svc == "worker") = false := by
          push_neg at hb
          simp [hb.1, hb.2.1, hb.2.2]
        simp only [hbeq, Bool.false_eq_true, if_false, List.any_eq_true,
          beq_iff_eq]
        constructor
        · rintro ⟨probe, hp, hname⟩
          refine Or.inr ⟨svc, hdec, ?_, probe, hp, hname⟩
          intro hmem
          simp only [List.mem_cons, List.not_mem_nil, or_false] at hmem
          exact hb hmem
        · rintro (⟨svc2, hdec2, _, _, _⟩ | ⟨svc2, hdec2, _, probe, hp, hname⟩)
          · exact absurd (hdec2.symm.trans hdec)
              (strApp_ne_of_head "launchd:" ("http:" ++ svc) svc2
                'l' 'h' rfl (strApp_head "http:" svc 'h' rfl) (by decide))
          · have : svc2 = svc := strApp_left_cancel "http:" svc2 svc
              (hdec2.symm.trans hdec)
            exact ⟨probe, hp, this ▸ hname⟩
    | none =>
      constructor
      · intro h
        cases h
      · rintro (⟨svc2, hdec2, _, _, _⟩ | ⟨svc2, hdec2, _, _⟩)
        · rw [dropPre_of_app_eq "launchd:" name svc2 hdec2] at hl
          cases hl
        · rw [dropPre_of_app_eq "http:" name svc2 hdec2] at hh
          cases hh

/-- Claim C2: when the tick is in the Failed state and the heal tier runs
(so the failing-probe list is non-empty), the service-heal path is chosen
iff every currently-failing probe is a dynamic service probe in the spec's
sense. -/
theorem serviceHeal_selected_iff_all_failures_dynamic
    (failures : List ProbeResult) (config : Config) (h : failures ≠ []) :
    healTierPath failures config = HealPath.serviceHeal ↔
      ∀ probe ∈ failures, dynamicServiceProbeSpec probe.name config := by
  have hne : failures.isEmpty = false := by
    cases failures with
    | nil => exact absurd rfl h
    | cons a t => rfl
  simp only [healTierPath, shouldUseServiceHeal, hne, Bool.not_false,
    Bool.true_and]
  constructor
  · intro hif probe hp
    by_cases hall : failures.all
        (fun probe => isDynamicServiceProbe probe.name config) = true
    · exact (isDynamicServiceProbe_iff probe.name config).1
        (List.all_eq_true.1 hall probe hp)
    · rw [if_neg (by simpa using hall)] at hif
      cases hif
  · intro hall
    rw [if_pos]
    exact List.all_eq_true.2 fun probe hp =>
      (isDynamicServiceProbe_iff probe.name config).2 (hall probe hp)

/-- Witness for C2, the spec scenario S3: with a `launchd.voice_agent`
entry configured and only `launchd:voice_agent` failing, the service-heal
path is selected, and the spec-side characterization holds. -/
theorem serviceHeal_selected_iff_all_failures_dynamic_witness :
    ([voiceAgentFailure] ≠ ([] : List ProbeResult)) ∧
      ∀ probe ∈ [voiceAgentFailure],
        dynamicServiceProbeSpec probe.name voiceAgentConfig :=
  ⟨by decide,
    (serviceHeal_selected_iff_all_failures_dynamic
      [voiceAgentFailure] voiceAgentConfig (by decide)).1 (by decide)⟩

/-! ## Claim C3: critical classification -/

theorem find?_name_eq {α : Type} (key : α → String) (l : List α)
    (h : (l.map key).Nodup) (m : α) (hm : m ∈ l) :
    l.find? (fun p => key p == key m) = some m := by
  induction l with
  | nil => cases hm
  | cons a t ih =>
    rcases List.mem_cons.1 hm with rfl | hm2
    · simp [List.find?]
    · have hna : key a ∉ t.map key := (List.nodup_cons.1 h).1
      have hne : (key a == key m) = false := by
        simp only [beq_eq_false_iff_ne, ne_eq]
        intro he
        exact hna (he ▸ List.mem_map.2 ⟨m, hm2, rfl⟩)
      rw [List.find?]
      simp only [hne]
      exact ih (List.nodup_cons.1 h).2 hm2

theorem hardcoded_head_not_hl (name : String)
    (h : name ∈ hardCodedCriticalNames) :
    name.data.head? ≠ some 'h' ∧ name.data.head? ≠ some 'l' := by
  simp only [hardCodedCriticalNames, List.mem_cons, List.not_mem_nil,
    or_false] at h
  rcases h with h | h | h | h | h | h | h | h <;> subst h <;>
    exact ⟨by decide, by decide⟩

theorem launchd_prefixed_not_hardcoded (s : String) :
    ("launchd:" ++ s) ∉ hardCodedCriticalNames := fun h =>
  (hardcoded_head_not_hl _ h).2 (strApp_head "launchd:" s 'l' rfl)

theorem http_prefixed_not_hardcoded (s : String) :
    ("http:" ++ s) ∉ hardCodedCriticalNames := fun h =>
  (hardcoded_head_not_hl _ h).1 (strApp_head "http:" s 'h' rfl)

theorem isCriticalProbe_http_app (config : Config) (s : String) :
    isCriticalProbe config ("http:" ++ s) =
      ((config.httpServiceProbes.find? (fun probe => probe.name == s)).map
        (fun probe => probe.critical)).getD false := by
  rw [isCriticalProbe, if_neg (http_prefixed_not_hardcoded s),
    dropPre_append "http:" s]

theorem isCriticalProbe_launchd_app (config : Config) (s : String) :
    isCriticalProbe config ("launchd:" ++ s) =
      ((config.launchdServiceProbes.find? (fun probe => probe.name == s)).map
        (fun probe => probe.critical)).getD false := by
  rw [isCriticalProbe, if_neg (launchd_prefixed_not_hardcoded s),
    dropPre_none_of_head "http:" ("launchd:" ++ s) 'h' 'l' rfl
      (strApp_head "launchd:" s 'l' rfl) (by decide),
    dropPre_append "launchd:" s]

/-- Counterexample to C3 as stated: with the built-in `worker` entry
(`critical = false`) shadowed by a user entry of the same name with
`critical = true`, the name `http:worker` has a dynamic HTTP entry whose
critical flag is true, yet `is_critical_probe` returns false; moreover the
probe engine emits a probe whose critical tag disagrees with
`is_critical_probe`. -/
theorem isCriticalProbe_shadowed_entry_mismatch :
    isCriticalProbe shadowedWorkerConfig "http:worker" = false ∧
      (∃ probe ∈ shadowedWorkerConfig.httpServiceProbes,
        probe.name = "worker" ∧ probe.critical = true) ∧
      (∃ probe ∈ buildProbes shadowedWorkerConfig,
        probe.critical ≠ isCriticalProbe shadowedWorkerConfig probe.name) :=
  ⟨by decide, by decide, by decide⟩

/-- Claim C3 as amended: `is_critical_probe` returns true iff the name is
hard-coded critical or is `http:<svc>` (resp. `launchd:<svc>`) where the
first dynamic HTTP (resp. launchd) entry named `<svc>` has `critical =
true`; and when dynamic probe names are pairwise distinct within each set,
the critical tag of every probe the engine emits agrees with
`is_critical_probe`. -/
theorem isCriticalProbe_first_entry_and_engine_tagging (config : Config) :
    (∀ name, isCriticalProbe config name = true ↔
      isCriticalProbeSpecFirst config name) ∧
    ((config.httpServiceProbes.map (fun probe => probe.name)).Nodup →
      (config.launchdServiceProbes.map (fun probe => probe.name)).Nodup →
      ∀ probe ∈ buildProbes config,
        probe.critical = isCriticalProbe config probe.name) := by
  constructor
  · intro name
    unfold isCriticalProbeSpecFirst
    by_cases hmem : name ∈ hardCodedCriticalNames
    · rw [isCriticalProbe, if_pos hmem]
      simp [hmem]
    · cases hh : dropPre "http:" name with
      | some svc =>
        have hdec : name = "http:" ++ svc :=
          strDataInj (by
            rw [(dropPre_some_iff "http:" name svc).1 hh, strApp_data])
        subst hdec
        rw [isCriticalProbe_http_app]
        constructor
        · intro hcrit
          cases hf : config.httpServiceProbes.find?
              (fun probe => probe.name == svc) with
          | none => rw [hf] at hcrit; cases hcrit
          | some probe =>
            rw [hf] at hcrit
            exact Or.inr (Or.inl ⟨svc, probe, rfl, hf, by simpa using hcrit⟩)
        · rintro (hmem2 | ⟨svc2, probe, hdec2, hf, hcrit⟩ |
            ⟨svc2, probe, hdec2, _, _⟩)
          · exact absurd hmem2 hmem
          · have : svc2 = svc :=
              (strApp_left_cancel "http:" svc svc2 hdec2).symm
            subst this
            rw [hf]
            simpa using hcrit
          · exact absurd hdec2.symm
              (strApp_ne_of_head "launchd:" ("http:" ++ svc) svc2 'l' 'h'
                rfl (strApp_head "http:" svc 'h' rfl) (by decide))
      | none =>
        cases hl : dropPre "launchd:" name with
        | some svc =>
          have hdec : name = "launchd:" ++ svc :=
            strDataInj (by
              rw [(dropPre_some_iff "launchd:" name svc).1 hl, strApp_data])
          subst hdec
          rw [isCriticalProbe_launchd_app]
          constructor
          · intro hcrit
            cases hf : config.launchdServiceProbes.find?
                (fun probe => probe.name == svc) with
            | none => rw [hf] at hcrit; cases hcrit
            | some probe =>
              rw [hf] at hcrit
              exact Or.inr (Or.inr ⟨svc, probe, rfl, hf, by simpa using hcrit⟩)
          · rintro (hmem2 | ⟨svc2, probe, hdec2, _, _⟩ |
              ⟨svc2, probe, hdec2, hf, hcrit⟩)
            · exact absurd hmem2 hmem
            · exact absurd hdec2.symm
                (strApp_ne_of_head "http:" ("launchd:" ++ svc) svc2 'h' 'l'
                  rfl (strApp_head "launchd:" svc 'l' rfl) (by decide))
            · have : svc2 = svc :=
                (strApp_left_cancel "launchd:" svc svc2 hdec2).symm
              subst this
              rw [hf]
              simpa using hcrit
        | none =>
          have hLHS : isCriticalProbe config name = false := by
            rw [isCriticalProbe, if_neg hmem, hh, hl]
          constructor
          · intro hcrit
            rw [hLHS] at hcrit
            cases hcrit
          · rintro (hmem2 | ⟨svc2, probe, hdec2, _, _⟩ |
              ⟨svc2, probe, hdec2, _, _⟩)
            · exact absurd hmem2 hmem
            · rw [dropPre_of_app_eq "http:" name svc2 hdec2] at hh
              cases hh
            · rw [dropPre_of_app_eq "launchd:" name svc2 hdec2] at hl
              cases hl
  · intro hH hL probe hp
    rw [buildProbes] at hp
    rcases List.mem_append.1 hp with hp2 | hp2
    · rcases List.mem_append.1 hp2 with hs | hld
      · simp only [staticProbes, List.mem_cons, List.not_mem_nil,
          or_false] at hs
        rcases hs with h | h | h | h | h | h | h | h <;> subst h <;> rfl
      · obtain ⟨m, hm, rfl⟩ := List.mem_map.1 hld
        rw [isCriticalProbe_launchd_app,
          find?_name_eq (fun probe => probe.name) config.launchdServiceProbes
            hL m hm]
        rfl
    · obtain ⟨m, hm, rfl⟩ := List.mem_map.1 hp2
      rw [isCriticalProbe_http_app,
        find?_name_eq (fun probe => probe.name) config.httpServiceProbes
          hH m hm]
      rfl

/-- Witness for the amended C3 at the voice-agent config: the iff at the
name `launchd:voice_agent`, and the tagging agreement for every emitted
probe under the (satisfied) uniqueness hypotheses. -/
theorem isCriticalProbe_first_entry_and_engine_tagging_witness :
    (isCriticalProbe voiceAgentConfig "launchd:voice_agent" = true ↔
      isCriticalProbeSpecFirst voiceAgentConfig "launchd:voice_agent") ∧
      ∀ probe ∈ buildProbes voiceAgentConfig,
        probe.critical = isCriticalProbe voiceAgentConfig probe.name :=
  ⟨(isCriticalProbe_first_entry_and_engine_tagging voiceAgentConfig).1
      "launchd:voice_agent",
    (isCriticalProbe_first_entry_and_engine_tagging voiceAgentConfig).2
      (by decide) (by decide)⟩

/-! ## Claim C4: reload failure and the previous probe set -/

/-- Claim C4 evaluated at the failing input: starting from a config whose
dynamic sets came from a good services file, a reload of a file whose
`[http.voice_agent]` section lacks `url` surfaces the parse error to the
caller, but the probe sets visible to the next tick are the reset seeds
(three built-in HTTP probes, no launchd probes), not the previous sets —
the previous user entries are lost, contradicting the claimed retention. -/
theorem failed_reload_resets_probe_sets :
    (refreshServiceProbes voiceAgentConfig
        (ServiceProbeTracker.mk "~/.joelclaw/talon/services.toml" (some 1))
        missingUrlContent (some 2) false).2.2 =
      RefreshOutcome.errored "http.voice_agent is missing required key: url" ∧
      (refreshServiceProbes voiceAgentConfig
          (ServiceProbeTracker.mk "~/.joelclaw/talon/services.toml" (some 1))
          missingUrlContent (some 2) false).1.httpServiceProbes =
        builtinHttpServiceProbes ∧
      (refreshServiceProbes voiceAgentConfig
          (ServiceProbeTracker.mk "~/.joelclaw/talon/services.toml" (some 1))
          missingUrlContent (some 2) false).1.launchdServiceProbes = [] ∧
      voiceAgentConfig.httpServiceProbes ≠ builtinHttpServiceProbes ∧
      voiceAgentConfig.launchdServiceProbes ≠ [] ∧
      (refreshServiceProbes voiceAgentConfig
          (ServiceProbeTracker.mk "~/.joelclaw/talon/services.toml" (some 1))
          missingUrlContent (some 2) false).2.1.lastModified = some 1 := by
  refine ⟨?_, ?_, ?_, ?_, ?_, ?_⟩ <;> decide

/-! ## Claim C5: reload idempotence and built-in uniqueness -/

/-- Counterexample to C5 as stated: a user services file that defines
`[http.worker]` parses successfully, yet after the reload the built-in
name `worker` occurs twice in the dynamic HTTP probe set. -/
theorem builtin_http_probe_duplicated_by_user_section :
    parseServicesToml workerOverrideContent
        defaultConfig.probes.serviceTimeoutSecs =
      Except.ok
        ([HttpServiceProbe.mk "worker" "http://localhost:9999/x" 5 true], []) ∧
      ((reloadServiceProbes defaultConfig
          workerOverrideContent).1.httpServiceProbes.countP
        (fun probe => probe.name == "worker")) = 2 := by
  exact ⟨by rfl, by decide⟩

/-- Claim C5 as amended: reloading an unchanged services file repeatedly
yields the same result as reloading it once; and after a successful reload
of a user file that defines no `[http.<name>]` section named `inngest`,
`typesense` or `worker`, each built-in HTTP probe name occurs exactly once
in the dynamic HTTP probe set. -/
theorem reload_idempotent_and_builtins_unique (config : Config)
    (servicesRaw : String) :
    reloadServiceProbes (reloadServiceProbes config servicesRaw).1 servicesRaw
        = reloadServiceProbes config servicesRaw ∧
      ∀ https launchds,
        parseServicesToml servicesRaw config.probes.serviceTimeoutSecs =
          Except.ok (https, launchds) →
        ∀ builtin ∈ (["inngest", "typesense", "worker"] : List String),
          (∀ probe ∈ https, probe.name ≠ builtin) →
          ((reloadServiceProbes config servicesRaw).1.httpServiceProbes.countP
            (fun probe => probe.name == builtin)) = 1 := by
  constructor
  · unfold reloadServiceProbes
    cases h : parseServicesToml servicesRaw config.probes.serviceTimeoutSecs with
    | ok pair => cases pair with
      | mk https launchds => simp [h]
    | error e => simp [h]
  · intro https launchds h builtin hb hnone
    unfold reloadServiceProbes
    simp only [h]
    rw [List.countP_append]
    have hzero : https.countP (fun probe => probe.name == builtin) = 0 :=
      List.countP_eq_zero.2 fun probe hp => by
        simpa using hnone probe hp
    rw [hzero]
    simp only [List.mem_cons, List.not_mem_nil, or_false] at hb
    rcases hb with rfl | rfl | rfl <;> decide

/-- Witness for the amended C5 at the default services file. -/
theorem reload_idempotent_and_builtins_unique_witness :
    reloadServiceProbes (reloadServiceProbes defaultConfig
        defaultServicesContent).1 defaultServicesContent
      = reloadServiceProbes defaultConfig defaultServicesContent ∧
    ((reloadServiceProbes defaultConfig
        defaultServicesContent).1.httpServiceProbes.countP
      (fun probe => probe.name == "worker")) = 1 :=
  ⟨(reload_idempotent_and_builtins_unique defaultConfig
      defaultServicesContent).1,
    (reload_idempotent_and_builtins_unique defaultConfig
        defaultServicesContent).2
      [HttpServiceProbe.mk "voice_agent" "http://127.0.0.1:8081/" 5 true]
      [LaunchdServiceProbe.mk "voice_agent" "com.joel.voice-agent" 5 true]
      (by rfl) "worker" (by decide) (by decide)⟩

/-! ## Claim C6: status endpoint dispatch -/

theorem startsWith_health_implies_root (line : String)
    (h : rsStartsWith line "GET /health" = true) :
    rsStartsWith line "GET /" = true := by
  unfold rsStartsWith at h ⊢
  obtain ⟨t, ht⟩ := (listIsPrefixOf_iff _ _).1 h
  refine (listIsPrefixOf_iff _ _).2 ⟨"health".data ++ t, ?_⟩
  rw [ht]
  rfl

/-- Counterexample to C6 as stated: a GET for an unknown path does not
return 404 `not_found`; the code answers 200 with a hint body. -/
theorem get_unknown_path_not_404 :
    (handleConnection "GET /foo HTTP/1.1\r\nHost: x\r\n\r\n"
        sampleSnapshot).status = 200 ∧
      (handleConnection "GET /foo HTTP/1.1\r\nHost: x\r\n\r\n"
        sampleSnapshot).body = rootHintBody ∧
      ¬((handleConnection "GET /foo HTTP/1.1\r\nHost: x\r\n\r\n"
          sampleSnapshot).status = 404) := by
  refine ⟨?_, ?_, ?_⟩ <;> decide

/-- Claim C6 as amended: a request whose first line starts with
`GET /health` gets 200 with the snapshot JSON; any other request line
starting with `GET /` gets 200 with the hint body
`{"ok":true,"path":"/health"}`; every remaining request gets 404 with
`{"ok":false,"error":"not_found"}` — in particular the response is 404
exactly when the first line does not start with `GET /`. -/
theorem handleConnection_dispatch (request : String)
    (snapshot : HealthSnapshot) :
    (rsStartsWith ((rustLines request).headD "") "GET /health" = true →
      handleConnection request snapshot =
        { status := 200, body := healthJson snapshot }) ∧
    (rsStartsWith ((rustLines request).headD "") "GET /" = true →
      rsStartsWith ((rustLines request).headD "") "GET /health" = false →
      handleConnection request snapshot =
        { status := 200, body := rootHintBody }) ∧
    ((handleConnection request snapshot).status = 404 ↔
      rsStartsWith ((rustLines request).headD "") "GET /" = false) ∧
    ((handleConnection request snapshot).status = 404 →
      (handleConnection request snapshot).body = notFoundBody) := by
  by_cases h1 : rsStartsWith ((rustLines request).headD "") "GET /health" = true
  · have h2 := startsWith_health_implies_root _ h1
    have hresp : handleConnection request snapshot =
        { status := 200, body := healthJson snapshot } := by
      simp only [handleConnection]
      rw [if_pos h1]
    refine ⟨fun _ => hresp, fun _ hc => ?_, ?_, ?_⟩
    · rw [h1] at hc
      cases hc
    · rw [hresp, h2]
      simp
    · rw [hresp]
      intro hc
      cases hc
  · by_cases h2 : rsStartsWith ((rustLines request).headD "") "GET /" = true
    · have hresp : handleConnection request snapshot =
          { status := 200, body := rootHintBody } := by
        simp only [handleConnection]
        rw [if_neg h1, if_pos h2]
      refine ⟨fun hc => absurd hc h1, fun _ _ => hresp, ?_, ?_⟩
      · rw [hresp, h2]
        simp
      · rw [hresp]
        intro hc
        cases hc
    · have hresp : handleConnection request snapshot =
          { status := 404, body := notFoundBody } := by
        simp only [handleConnection]
        rw [if_neg h1, if_neg h2]
      refine ⟨fun hc => absurd hc h1, fun hc _ => absurd hc h2, ?_, ?_⟩
      · rw [hresp]
        simp only [Bool.not_eq_true] at h2
        exact iff_of_true rfl h2
      · rw [hresp]
        intro _
        rfl

/-- Witness for the amended C6: a non-GET request yields the 404 body, and
`GET /health` yields the snapshot JSON with 200. -/
theorem handleConnection_dispatch_witness :
    (handleConnection "PUT /x HTTP/1.1\r\n" sampleSnapshot).status = 404 ∧
      (handleConnection "PUT /x HTTP/1.1\r\n" sampleSnapshot).body =
        notFoundBody ∧
      handleConnection "GET /health HTTP/1.1\r\n" sampleSnapshot =
        { status := 200, body := healthJson sampleSnapshot } :=
  ⟨(handleConnection_dispatch "PUT /x HTTP/1.1\r\n" sampleSnapshot).2.2.1.mpr
      (by decide),
    (handleConnection_dispatch "PUT /x HTTP/1.1\r\n" sampleSnapshot).2.2.2
      ((handleConnection_dispatch "PUT /x HTTP/1.1\r\n"
        sampleSnapshot).2.2.1.mpr (by decide)),
    (handleConnection_dispatch "GET /health HTTP/1.1\r\n" sampleSnapshot).1
      (by decide)⟩

/-! ## Claim C7: the `[critical]` marker and passing probes -/

theorem mem_runAllProbesAux (behaviors : Nat → SpawnBehavior)
    (r : ProbeResult) :
    ∀ (l : List Probe) (i : Nat), r ∈ runAllProbesAux behaviors i l →
      ∃ j probe, i ≤ j ∧ j < i + l.length ∧ probe ∈ l ∧
        r = refineResult probe (probeRawAt behaviors j probe) := by
  intro l
  induction l with
  | nil => intro i h; cases h
  | cons probe rest ih =>
    intro i h
    rcases List.mem_cons.1 h with h2 | h2
    · exact ⟨i, probe, le_refl i, by simp, List.mem_cons_self probe rest, h2⟩
    · obtain ⟨j, probe2, hij, hjl, hmem, heq⟩ := ih (i + 1) h2
      exact ⟨j, probe2, by omega, by simp; omega, List.mem_cons_of_mem _ hmem,
        heq⟩

/-- Counterexample to C7 as stated: quantifying over all child-process
outputs, a probe can pass while its output contains `[critical]` (the
child printed it; the engine only appends the marker to failures). -/
theorem passing_probe_output_may_contain_critical_marker :
    ∃ r ∈ runAllProbes defaultConfig
        (fun _ => SpawnBehavior.exits true "boom [critical]" 3),
      r.passed = true ∧ rsContains r.output "[critical]" = true := by
  decide

/-- Claim C7 as amended: whenever a probe result of `run_all_probes` has
`passed = true`, its output is the raw collected child output unchanged;
hence if no raw child output of the tick contains `[critical]`, no passing
result's output does. -/
theorem passing_probe_output_unchanged (config : Config)
    (behaviors : Nat → SpawnBehavior) (r : ProbeResult)
    (hr : r ∈ runAllProbes config behaviors) (hp : r.passed = true) :
    (∃ j probe, j < (buildProbes config).length ∧
        probe ∈ buildProbes config ∧
        r.output = (probeRawAt behaviors j probe).output) ∧
      ((∀ j < (buildProbes config).length, ∀ probe ∈ buildProbes config,
          rsContains (probeRawAt behaviors j probe).output "[critical]"
            = false) →
        rsContains r.output "[critical]" = false) := by
  obtain ⟨j, probe, hij, hjl, hmem, heq⟩ :=
    mem_runAllProbesAux behaviors r (buildProbes config) 0 hr
  have hout : r.output = (probeRawAt behaviors j probe).output := by
    subst heq
    simp only [refineResult] at hp ⊢
    simp [hp]
  have hjl2 : j < (buildProbes config).length := by omega
  exact ⟨⟨j, probe, hjl2, hmem, hout⟩,
    fun hno => hout ▸ hno j hjl2 probe hmem⟩

/-- Witness for the amended C7: with every child exiting successfully with
output `ok`, the passing `colima` result's output is free of the marker. -/
theorem passing_probe_output_unchanged_witness :
    rsContains (ProbeResult.mk "colima" true "ok" 0).output "[critical]"
      = false :=
  (passing_probe_output_unchanged defaultConfig
    (fun _ => SpawnBehavior.exits true "ok" 0)
    (ProbeResult.mk "colima" true "ok" 0)
    (by decide) (by decide)).2 (by decide)

/-! ## Claim C9: worker supervisor backoff discipline -/

/-- Claim C9: after every child exit the restart counter is incremented and
the next backoff is `min (2 * backoff) restart_backoff_max_secs`; a 2xx
health poll resets the backoff to 1; consequently the backoff never exceeds
`max 1 restart_backoff_max_secs` in any run starting within that bound. -/
theorem worker_backoff_bounded (maxBackoffSecs : Nat)
    (sessions : List (List MonitorEvent)) (st : SupState)
    (h : st.backoffSecs ≤ max 1 maxBackoffSecs) :
    (runWorkerSupervisor maxBackoffSecs st sessions).backoffSecs ≤
        max 1 maxBackoffSecs ∧
      (runWorkerSupervisor maxBackoffSecs st sessions).workerRestarts =
        st.workerRestarts + sessions.length ∧
      (∀ events, (supervisorSession maxBackoffSecs st events).1.backoffSecs =
          min ((supervisorSession maxBackoffSecs st events).2 * 2)
            maxBackoffSecs ∧
        (supervisorSession maxBackoffSecs st events).1.workerRestarts =
          st.workerRestarts + 1) ∧
      (∀ pre, monitorBackoff st.backoffSecs (pre ++ [MonitorEvent.healthOk]) = 1) := by
  refine ⟨?_, ?_, ?_, ?_⟩
  · induction sessions generalizing st with
    | nil => exact h
    | cons session rest ih =>
      exact ih _ (le_trans (min_le_right _ _) (le_max_right 1 maxBackoffSecs))
  · induction sessions generalizing st with
    | nil => simp [runWorkerSupervisor]
    | cons session rest ih =>
      rw [runWorkerSupervisor,
        ih _ (le_trans (min_le_right _ _) (le_max_right 1 maxBackoffSecs))]
      simp [supervisorSession]
      omega
  · intro events
    exact ⟨rfl, rfl⟩
  · intro pre
    simp [monitorBackoff, List.foldl_append]

/-- Witness for C9 at a concrete run: cap 30 seconds, one session without a
healthy poll and one with. -/
theorem worker_backoff_bounded_witness :
    initialSupState.backoffSecs ≤ max 1 30 ∧
      (runWorkerSupervisor 30 initialSupState
          [[MonitorEvent.healthFail], [MonitorEvent.healthOk,
            MonitorEvent.healthFail]]).backoffSecs ≤ max 1 30 ∧
      (runWorkerSupervisor 30 initialSupState
          [[MonitorEvent.healthFail], [MonitorEvent.healthOk,
            MonitorEvent.healthFail]]).workerRestarts =
        initialSupState.workerRestarts + 2 :=
  ⟨by decide,
    (worker_backoff_bounded 30
      [[MonitorEvent.healthFail], [MonitorEvent.healthOk, MonitorEvent.healthFail]]
      initialSupState (by decide)).1,
    (worker_backoff_bounded 30
      [[MonitorEvent.healthFail], [MonitorEvent.healthOk, MonitorEvent.healthFail]]
      initialSupState (by decide)).2.1⟩

/-! ## Claim C10: run_probe with an empty argument vector -/

/-- Claim C10: for every call to `run_probe` with an empty argument vector,
no child is spawned and the result is total with `passed = false` and
output `no command configured`, for every timeout, env overlay and spawn
behavior. -/
theorem runProbe_empty_args_total (name : String) (args : List String)
    (timeoutSecs : Nat) (env : List (String × String)) (emptyElapsedMs : Nat)
    (behavior : SpawnBehavior) (h : args = []) :
    (runProbe name args timeoutSecs env emptyElapsedMs behavior).1.passed = false ∧
      (runProbe name args timeoutSecs env emptyElapsedMs behavior).1.output =
        "no command configured" ∧
      (runProbe name args timeoutSecs env emptyElapsedMs behavior).1.name = name ∧
      (runProbe name args timeoutSecs env emptyElapsedMs behavior).2 = false := by
  subst h
  simp [runProbe]

/-- Witness for C10 at a concrete call. -/
theorem runProbe_empty_args_total_witness :
    (runProbe "ghost" [] 5 [("PATH", "/bin")] 2
        (SpawnBehavior.exits true "ok" 1)).1.passed = false ∧
      (runProbe "ghost" [] 5 [("PATH", "/bin")] 2
          (SpawnBehavior.exits true "ok" 1)).1.output = "no command configured" ∧
      (runProbe "ghost" [] 5 [("PATH", "/bin")] 2
          (SpawnBehavior.exits true "ok" 1)).1.name = "ghost" ∧
      (runProbe "ghost" [] 5 [("PATH", "/bin")] 2
          (SpawnBehavior.exits true "ok" 1)).2 = false :=
  runProbe_empty_args_total "ghost" [] 5 [("PATH", "/bin")] 2
    (SpawnBehavior.exits true "ok" 1) rfl

end Talon
